import Mathlib

/-!
# Updater builtins of `recovery/updater/install.c`

A shallow embedding of the storage builtins of the edify updater
(`mount`, `unmount`, `format`, `write_raw_image` and the UBI helpers) and
theorems about them.

Conventions of the embedding.

* A C string (`char*`) is a `String`; a `NULL` pointer is `none`.
* Every call of a primitive that lives outside `install.c` (libc, mtdutils,
  libubi, the mounted-volume table) appends one event `Ev` to the trace.  The
  event records the arguments and the value the primitive returned.
* What a primitive returns is given by the environment `Env`; it may depend
  on the whole history of events so far, so the same call may answer
  differently at different moments (a device that was attached, a write
  context that is full).
* A builtin returns an `Outcome`: the `Value*` it returns (`none` is the
  `NULL` that aborts the script), the interpreter `State` (the recorded
  error message) and the final trace.
* A builtin takes the list `argv` of its argument expressions; `argc` is the
  length of that list.
-/

namespace Updater

/-! ## Values and interpreter state (`edify/expr.h`) -/

/-- Type tag of a `Value`. -/
inductive ValueType where
  | VAL_STRING
  | VAL_BLOB
  deriving DecidableEq, Repr

/-- The edify `Value` record: `{ int type; ssize_t size; char* data; }`. -/
structure Value where
  type : ValueType
  size : Int
  data : Option String
  deriving DecidableEq, Repr

/-- The interpreter state as far as the builtins touch it: the error message
recorded by the last abort. -/
structure State where
  errmsg : Option String
  deriving DecidableEq, Repr

/-! ## Requests and records of libubi (`libubi.h`), fields used by the code -/

structure ubi_attach_request where
  dev_num : Int
  mtd_num : Int
  vid_hdr_offset : Int
  mtd_dev_node : Option String
  deriving DecidableEq, Repr

structure ubi_mkvol_request where
  vol_id : Int
  alignment : Int
  bytes : Int
  name : String
  vol_type : Int
  deriving DecidableEq, Repr

structure ubi_dev_info where
  dev_num : Int
  avail_bytes : Int
  deriving DecidableEq, Repr

/-! ## Events -/

set_option maxHeartbeats 1000000 in
/-- One call of an external primitive, with its arguments and, last, what it
returned.  Handles (`MtdPartition*`, `MtdWriteContext*`, `libubi_t`,
`MountedVolume*`, `FILE*`) are natural numbers.  `free_entry` is the `free`
of an entry of an array of evaluated arguments.  `null_dereference` is not a
call: it marks the point where the code reads through a `NULL` pointer, that
is, where the process dies; nothing the model gives after it is a result of
the C code. -/
inductive Ev where
  | mkdir (path : String) (mode : Nat)
  | mtd_scan_partitions
  | mtd_find_partition_by_name (name : String) (ret : Option Nat)
  | mtd_get_index_by_name (name : String) (ret : Int)
  | mtd_mount_partition (mtd : Nat) (mount_point fs_type : String) (read_only : Int) (ret : Int)
  | mount (source target fs_type : String) (flags : Nat) (data : String) (ret : Int)
  | mtd_write_partition (mtd : Nat) (ret : Option Nat)
  | mtd_write_data (ctx : Nat) (data : Option String) (len : Int) (ret : Int)
  | mtd_erase_blocks (ctx : Nat) (blocks : Int) (ret : Int)
  | mtd_write_close (ctx : Nat) (ret : Int)
  | make_ext4fs (location : String) (len : Int) (ret : Int)
  | libubi_open (ret : Option Nat)
  | libubi_close (lib : Nat)
  | ubi_get_info (lib : Nat) (ret : Int) (ctrl_major : Int)
  | ubi_attach (lib : Nat) (node : String) (req : ubi_attach_request) (ret : Int) (dev_num : Int)
  | ubi_detach_mtd (lib : Nat) (node : String) (mtd_num : Int) (ret : Int)
  | ubi_get_dev_info1 (lib : Nat) (dev_num : Int) (ret : Int) (info : ubi_dev_info)
  | ubi_mkvol (lib : Nat) (node : String) (req : ubi_mkvol_request) (ret : Int)
  | ubi_probe_node (lib : Nat) (node : String) (ret : Int)
  | ubi_get_dev_info (lib : Nat) (node : String) (ret : Int) (dev_num : Int)
  | ubi_get_vol_info (lib : Nat) (node : String) (ret : Int) (dev_num : Int)
  | ubi_remove_dev (lib : Nat) (node : String) (dev_num : Int) (ret : Int)
  | scan_mounted_volumes
  | find_mounted_volume_by_mount_point (mount_point : String) (ret : Option Nat)
  | get_filesystem_by_mounted_volume (vol : Nat) (ret : Option String)
  | get_device_by_mounted_volume (vol : Nat) (ret : Option String)
  | unmount_mounted_volume (vol : Nat) (ret : Int)
  | fopen (path : String) (mode : String) (ret : Option Nat)
  | fread (file : Nat) (count : Nat) (ret : String)
  | fclose (file : Nat)
  | time (ret : Int)
  | cmd_pipe (text : String)
  | free_entry (index : Nat) (entry : String)
  | retouch_one_library (binary_name binary_sha1 : String) (retouch_offset : Int)
      (retouch_offset_override : Option Int) (ret : Bool) (override_after : Int)
  | applypatch (source_filename target_filename target_sha1 : String) (target_size : Nat)
      (num_patches : Int) (patch_sha1_str : List (Option String)) (patch_data : List Value)
      (ret : Int)
  | CacheSizeCheck (bytes : Nat) (ret : Int)
  | mzExtractRecursive (za : Nat) (zip_path dest_path : String) (flags : Nat)
      (actime modtime : Int) (ret : Bool)
  | mzFindZipEntry (za : Nat) (path : String) (ret : Option Nat)
  | mzGetZipEntryUncompLen (entry : Nat) (ret : Int)
  | malloc (size : Int) (ret : Bool)
  | mzExtractZipEntryToBuffer (za entry : Nat) (ret : Bool) (bytes : String)
  | mzExtractZipEntryToFile (za entry file : Nat) (ret : Bool)
  | stat (path : String) (st_size : Option Int)
  | unlink (path : String) (ret : Int)
  | dirUnlinkHierarchy (path : String) (ret : Int)
  | applypatch_check (filename : String) (num_patches : Int)
      (patch_sha1_str : Option (List String)) (ret : Int)
  | fw_setenv (argc : Int) (argv : List String) (ret : Int)
  | null_dereference (access : String)
  deriving DecidableEq, Repr

abbrev Trace := List Ev

/-- The world outside `install.c`: compile-time constants and, for every
primitive whose result the code reads, the value it returns given the history
of events so far and its arguments. -/
structure Env where
  /-- Whether the build defines `USE_EXT4`. -/
  USE_EXT4 : Bool
  /-- The stdio constant `BUFSIZ`. -/
  BUFSIZ : Nat
  UBI_DEV_NUM_AUTO : Int
  UBI_VOL_NUM_AUTO : Int
  UBI_DYNAMIC_VOLUME : Int
  mtd_find_partition_by_name : Trace → String → Option Nat
  mtd_get_index_by_name : Trace → String → Int
  mtd_mount_partition : Trace → Nat → String → String → Int → Int
  mount : Trace → String → String → String → Nat → String → Int
  mtd_write_partition : Trace → Nat → Option Nat
  mtd_write_data : Trace → Nat → Option String → Int → Int
  mtd_erase_blocks : Trace → Nat → Int → Int
  mtd_write_close : Trace → Nat → Int
  make_ext4fs : Trace → String → Int → Int
  libubi_open : Trace → Option Nat
  /-- Returns the error code and `ubi_info.ctrl_major`. -/
  ubi_get_info : Trace → Nat → Int × Int
  /-- Returns the error code and the device number written to `req.dev_num`. -/
  ubi_attach : Trace → Nat → String → ubi_attach_request → Int × Int
  ubi_detach_mtd : Trace → Nat → String → Int → Int
  ubi_get_dev_info1 : Trace → Nat → Int → Int × ubi_dev_info
  ubi_mkvol : Trace → Nat → String → ubi_mkvol_request → Int
  ubi_probe_node : Trace → Nat → String → Int
  /-- Returns the error code and `dev_info.dev_num`. -/
  ubi_get_dev_info : Trace → Nat → String → Int × Int
  /-- Returns the error code and `vol_info.dev_num`. -/
  ubi_get_vol_info : Trace → Nat → String → Int × Int
  ubi_remove_dev : Trace → Nat → String → Int → Int
  find_mounted_volume_by_mount_point : Trace → String → Option Nat
  get_filesystem_by_mounted_volume : Trace → Nat → Option String
  get_device_by_mounted_volume : Trace → Nat → Option String
  unmount_mounted_volume : Trace → Nat → Int
  /-- Returns the stream handle and the bytes of the file, `none` for `NULL`. -/
  fopen : Trace → String → String → Option (Nat × String)
  /-- The C constant `LONG_MAX`; `LONG_MIN` is `-LONG_MAX - 1`. -/
  LONG_MAX : Int
  /-- The C constant `SIZE_MAX`. -/
  SIZE_MAX : Nat
  /-- The flag `MZ_EXTRACT_FILES_ONLY` of `minzip/Zip.h`. -/
  MZ_EXTRACT_FILES_ONLY : Nat
  /-- The open package archive, `((UpdaterInfo*)(state->cookie))->package_zip`. -/
  package_zip : Nat
  /-- The wall clock, `time(NULL)`. -/
  time : Trace → Int
  /-- `retouch_one_library(binary_name, binary_sha1, retouch_offset,
  retouch_offset_override)`.  The override argument is `none` for a `NULL`
  pointer and otherwise the value the slot holds; the result is the status and
  the value the slot holds afterwards. -/
  retouch_one_library : Trace → String → String → Int → Option Int → Bool × Int
  applypatch : Trace → String → String → String → Nat → Int → List (Option String) →
    List Value → Int
  CacheSizeCheck : Trace → Nat → Int
  mzExtractRecursive : Trace → Nat → String → String → Nat → Int → Int → Bool
  mzFindZipEntry : Trace → Nat → String → Option Nat
  mzGetZipEntryUncompLen : Trace → Nat → Int
  /-- Whether `malloc(size)` returns a buffer. -/
  malloc : Trace → Int → Bool
  /-- Returns the status and the bytes left in the buffer. -/
  mzExtractZipEntryToBuffer : Trace → Nat → Nat → Bool × String
  mzExtractZipEntryToFile : Trace → Nat → Nat → Nat → Bool
  /-- The call `stat(path, &st)`: `none` when it fails, else `st.st_size`. -/
  stat : Trace → String → Option Int
  /-- The text `strerror(errno)` gives at this moment. -/
  strerror_errno : Trace → String
  unlink : Trace → String → Int
  dirUnlinkHierarchy : Trace → String → Int
  /-- The call `applypatch_check(filename, num_patches, patch_sha1_str)`; the
  list is `none` for a `NULL` pointer. -/
  applypatch_check : Trace → String → Int → Option (List String) → Int
  fw_setenv : Trace → Int → List String → Int
  /-- The hash primitive `SHA(data, len, digest)`: the bytes left in `digest`.
  A function of its arguments only. -/
  SHA : Option String → Int → List Nat
  /-- The call `ParseSha1(str, digest)`: the status and the bytes left in
  `digest`.  A function of its argument only. -/
  ParseSha1 : Option String → Int × List Nat

/-- What a builtin hands back: the returned `Value*` (`none` is `NULL`), the
interpreter state and the trace. -/
structure Outcome where
  value : Option Value
  state : State
  trace : Trace
  deriving DecidableEq

/-- An edify expression, as the builtins see it: something that can be
evaluated (`expr->fn(expr->name, state, expr->argc, expr->argv)`). -/
structure Expr where
  fn : State → Trace → Outcome

/-! ## Constants and functions of the system headers -/

def DEFAULT_CTRL_DEV : String := "/dev/ubi_ctrl"

/-- Linux `MS_NODEV`. -/
def MS_NODEV : Nat := 4
/-- Linux `MS_NOATIME`. -/
def MS_NOATIME : Nat := 1024
/-- Linux `MS_NODIRATIME`. -/
def MS_NODIRATIME : Nat := 2048

/-- The flag word `MS_NOATIME | MS_NODEV | MS_NODIRATIME`. -/
def mountFlags : Nat := MS_NOATIME ||| MS_NODEV ||| MS_NODIRATIME

/-- The C `strlen`. -/
def strlen (s : String) : Nat := s.length

/-- The C `atoll`, on the digits after optional white space and sign. -/
def atollDigits : List Char → Int → Int
  | [], acc => acc
  | c :: cs, acc =>
    if c.isDigit then atollDigits cs (acc * 10 + ((c.toNat - 48 : Nat) : Int)) else acc

/-- The C `isspace` in the "C" locale. -/
def isspace (c : Char) : Bool :=
  c = ' ' || (9 ≤ c.toNat && c.toNat ≤ 13)

/-- The C `atoll` (overflow aside). -/
def atoll (s : String) : Int :=
  match s.data.dropWhile isspace with
  | '-' :: cs => - atollDigits cs 0
  | '+' :: cs => atollDigits cs 0
  | cs => atollDigits cs 0

/-- The optional sign `strtol` reads: the sign, the number of characters it
takes and what follows it. -/
def strtolSign (rest : List Char) : Int × Nat × List Char :=
  match rest with
  | '-' :: cs => (-1, 1, cs)
  | '+' :: cs => (1, 1, cs)
  | cs => (1, 0, cs)

/-- The C `strtol(s, &endptr, 10)`: the value, and the offset of `endptr` in
`s`.  White space is skipped, an optional sign is read, then the decimal
digits; without a digit nothing is converted: the value is 0 and `endptr` is
`s`.  A value out of the range of `long` is clamped to `LONG_MAX` or
`LONG_MIN`. -/
def strtol (LONG_MAX : Int) (s : String) : Int × Nat :=
  let ws := (s.data.takeWhile isspace).length
  let sign := strtolSign (s.data.dropWhile isspace)
  let digits := sign.2.2.takeWhile Char.isDigit
  if digits.length = 0 then (0, 0)
  else
    let v := sign.1 * atollDigits digits 0
    let clamped :=
      if v > LONG_MAX then LONG_MAX else if v < -LONG_MAX - 1 then -LONG_MAX - 1 else v
    (clamped, ws + sign.2.1 + digits.length)

/-- The C `strtok`, one call, on the text that is left: the delimiters at the
start are skipped; if nothing is left the result is `NULL`; otherwise the
token runs up to the next delimiter, which is overwritten with a zero byte,
and the text left for the next call starts after it. -/
def strtok (delim : List Char) (text : List Char) : Option (List Char × List Char) :=
  let start := text.dropWhile (fun c => delim.contains c)
  if start = [] then none
  else
    some (start.takeWhile (fun c => !delim.contains c),
      (start.dropWhile (fun c => !delim.contains c)).drop 1)

/-- The conversion of a `long` to `size_t`. -/
def toSizeT (SIZE_MAX : Nat) (v : Int) : Nat :=
  (v % ((SIZE_MAX : Int) + 1)).toNat

/-- The value of a signed 32-bit integer after an arithmetic result `x` was
stored in it. -/
def wrapInt32 (x : Int) : Int :=
  (x + 2147483648) % 4294967296 - 2147483648

/-- The text `printf("%x", v)` prints for an `int32_t`. -/
def hexOfInt32 (v : Int) : String :=
  String.mk (Nat.toDigits 16 (v % 4294967296).toNat)

/-- The C `struct utimbuf`. -/
structure utimbuf where
  actime : Int
  modtime : Int
  deriving DecidableEq, Repr

/-! ## The evaluator interface (`edify/expr.c`) -/

/-- Modelled from the spec: `ErrorAbort` of `edify/expr.c`, which is not among
the sources.  It records the formatted message in the state, overwriting the
previous one ("single-owner error message, overwritten on each abort"), and
returns `NULL`. -/
def ErrorAbort (state : State) (msg : String) : State :=
  { state with errmsg := some msg }

/-- Modelled from the spec: `StringValue` of `edify/expr.c`, which is not among
the sources.  A `NULL` string gives `NULL` (the abort signal, "null-plus-
out-of-band-message abort"); any other string is wrapped in a string
`Value` whose size is its length. -/
def StringValue (str : Option String) : Option Value :=
  match str with
  | none => none
  | some s => some { type := ValueType.VAL_STRING, size := (strlen s : Int), data := some s }

/-- Modelled from the spec: `EvaluateValue` of `edify/expr.c`: runs the
expression. -/
def EvaluateValue (state : State) (t : Trace) (e : Expr) : Outcome :=
  e.fn state t

/-- Modelled from the spec: `Evaluate` of `edify/expr.c`: runs the expression
and demands a string; an abort of the expression is passed on, a value that
is not a string aborts. -/
def Evaluate (state : State) (t : Trace) (e : Expr) : Option String × State × Trace :=
  let o := EvaluateValue state t e
  match o.value with
  | none => (none, o.state, o.trace)
  | some v =>
    if v.type = ValueType.VAL_STRING then (v.data, o.state, o.trace)
    else (none, ErrorAbort o.state "expecting string, got value type 2", o.trace)

/-- Modelled from the spec: `ReadArgs` of `edify/expr.c` ("evaluates a fixed-
or variable-arity list of sub-expressions left-to-right; on first failure
releases all previously obtained values and signals failure").  The list is
the `count` expressions to read; `none` is the return value `-1`. -/
def ReadArgs (state : State) (t : Trace) : List Expr → Option (List String) × State × Trace
  | [] => (some [], state, t)
  | e :: es =>
    match Evaluate state t e with
    | (none, st, tr) => (none, st, tr)
    | (some s, st, tr) =>
      match ReadArgs st tr es with
      | (none, st2, tr2) => (none, st2, tr2)
      | (some ss, st2, tr2) => (some (s :: ss), st2, tr2)

/-- Modelled from the spec: `ReadValueArgs` of `edify/expr.c`: as `ReadArgs`,
but the values are not required to be strings. -/
def ReadValueArgs (state : State) (t : Trace) : List Expr → Option (List Value) × State × Trace
  | [] => (some [], state, t)
  | e :: es =>
    let o := EvaluateValue state t e
    match o.value with
    | none => (none, o.state, o.trace)
    | some v =>
      match ReadValueArgs o.state o.trace es with
      | (none, st2, tr2) => (none, st2, tr2)
      | (some vs, st2, tr2) => (some (v :: vs), st2, tr2)

/-- Modelled from the spec: `ReadVarArgs` of `edify/expr.c` ("variadic readers
stop and report on the first failing positional evaluation"): evaluates all
`argc` expressions to strings; `none` is the `NULL` it returns when one of
them fails. -/
def ReadVarArgs (state : State) (t : Trace) (argv : List Expr) :
    Option (List String) × State × Trace :=
  ReadArgs state t argv

/-- Modelled from the spec: `ReadValueVarArgs` of `edify/expr.c`: as
`ReadVarArgs`, but the values are not required to be strings. -/
def ReadValueVarArgs (state : State) (t : Trace) (argv : List Expr) :
    Option (List Value) × State × Trace :=
  ReadValueArgs state t argv

/-! ## UBI helpers -/

/-- `UbiAttach(location, out_node)`: returns the status and the contents of
the buffer `*out_node` afterwards. -/
def UbiAttach (env : Env) (t : Trace) (location : String) (out_node : String) :
    Int × String × Trace :=
  let t := t ++ [Ev.mtd_scan_partitions]
  let mtdn := env.mtd_get_index_by_name t location
  let t := t ++ [Ev.mtd_get_index_by_name location mtdn]
  if mtdn < 0 then (-1, out_node, t)
  else
    let libubi := env.libubi_open t
    let t := t ++ [Ev.libubi_open libubi]
    match libubi with
    | none => (-1, out_node, t)
    | some lib =>
      let info := env.ubi_get_info t lib
      let t := t ++ [Ev.ubi_get_info lib info.1 info.2]
      if info.1 ≠ 0 then (-1, out_node, t ++ [Ev.libubi_close lib])
      else if info.2 = -1 then (-1, out_node, t ++ [Ev.libubi_close lib])
      else
        let req : ubi_attach_request :=
          { dev_num := env.UBI_DEV_NUM_AUTO, mtd_num := mtdn, vid_hdr_offset := 0,
            mtd_dev_node := none }
        let r := env.ubi_attach t lib DEFAULT_CTRL_DEV req
        let t := t ++ [Ev.ubi_attach lib DEFAULT_CTRL_DEV req r.1 r.2]
        if r.1 ≠ 0 then (-1, out_node, t ++ [Ev.libubi_close lib])
        else (0, "/dev/ubi" ++ toString r.2 ++ "_0", t ++ [Ev.libubi_close lib])

/-- The last steps of `UbiDetach`, once the device number is known: the
check `devn < 0`, `ubi_remove_dev` and the close of the control handle. -/
def UbiDetachRemove (env : Env) (t : Trace) (lib : Nat) (devn : Int) : Int × Trace :=
  if devn < 0 then (-1, t ++ [Ev.libubi_close lib])
  else
    let err := env.ubi_remove_dev t lib DEFAULT_CTRL_DEV devn
    let t := t ++ [Ev.ubi_remove_dev lib DEFAULT_CTRL_DEV devn err]
    if err ≠ 0 then (-1, t ++ [Ev.libubi_close lib])
    else (0, t ++ [Ev.libubi_close lib])

/-- `UbiDetach(device)`. -/
def UbiDetach (env : Env) (t : Trace) (device : Option String) : Int × Trace :=
  match device with
  | none => (-1, t)
  | some device =>
    let libubi := env.libubi_open t
    let t := t ++ [Ev.libubi_open libubi]
    match libubi with
    | none => (-1, t)
    | some lib =>
      let info := env.ubi_get_info t lib
      let t := t ++ [Ev.ubi_get_info lib info.1 info.2]
      if info.1 ≠ 0 then (-1, t ++ [Ev.libubi_close lib])
      else if info.2 = -1 then (-1, t ++ [Ev.libubi_close lib])
      else
        let devpath : String :=
          if device.data.head? ≠ some '/' then ⟨("/dev/" ++ device).data.take 63⟩
          else ⟨device.data.take 63⟩
        let err := env.ubi_probe_node t lib devpath
        let t := t ++ [Ev.ubi_probe_node lib devpath err]
        if err = -1 then (-1, t ++ [Ev.libubi_close lib])
        else if err = 1 then
          let r := env.ubi_get_dev_info t lib devpath
          let t := t ++ [Ev.ubi_get_dev_info lib devpath r.1 r.2]
          if r.1 ≠ 0 then (-1, t ++ [Ev.libubi_close lib])
          else UbiDetachRemove env t lib r.2
        else
          let r := env.ubi_get_vol_info t lib devpath
          let t := t ++ [Ev.ubi_get_vol_info lib devpath r.1 r.2]
          if r.1 ≠ 0 then (-1, t ++ [Ev.libubi_close lib])
          else UbiDetachRemove env t lib r.2

/-- `UbiFormat(type, location)`. -/
def UbiFormat (env : Env) (t : Trace) (type : Int) (location : String) : Int × Trace :=
  let t := t ++ [Ev.mtd_scan_partitions]
  let mtdn := env.mtd_get_index_by_name t location
  let t := t ++ [Ev.mtd_get_index_by_name location mtdn]
  if mtdn < 0 then (-1, t)
  else
    let libubi := env.libubi_open t
    let t := t ++ [Ev.libubi_open libubi]
    match libubi with
    | none => (-1, t)
    | some lib =>
      let info := env.ubi_get_info t lib
      let t := t ++ [Ev.ubi_get_info lib info.1 info.2]
      if info.1 ≠ 0 then (-1, t ++ [Ev.libubi_close lib])
      else if info.2 = -1 then (-1, t ++ [Ev.libubi_close lib])
      else
        let req : ubi_attach_request :=
          { dev_num := env.UBI_DEV_NUM_AUTO, mtd_num := mtdn, vid_hdr_offset := 0,
            mtd_dev_node := none }
        -- make sure partition is detached before attaching
        let d0 := env.ubi_detach_mtd t lib DEFAULT_CTRL_DEV mtdn
        let t := t ++ [Ev.ubi_detach_mtd lib DEFAULT_CTRL_DEV mtdn d0]
        let r := env.ubi_attach t lib DEFAULT_CTRL_DEV req
        let t := t ++ [Ev.ubi_attach lib DEFAULT_CTRL_DEV req r.1 r.2]
        if r.1 ≠ 0 then (-1, t ++ [Ev.libubi_close lib])
        else
          let di := env.ubi_get_dev_info1 t lib r.2
          let t := t ++ [Ev.ubi_get_dev_info1 lib r.2 di.1 di.2]
          if di.1 ≠ 0 then
            let d1 := env.ubi_detach_mtd t lib DEFAULT_CTRL_DEV mtdn
            (-1, t ++ [Ev.ubi_detach_mtd lib DEFAULT_CTRL_DEV mtdn d1] ++ [Ev.libubi_close lib])
          else
            let req2 : ubi_mkvol_request :=
              { vol_id := env.UBI_VOL_NUM_AUTO, alignment := 1, bytes := di.2.avail_bytes,
                name := location, vol_type := type }
            let value : String := "/dev/ubi" ++ toString di.2.dev_num
            let err := env.ubi_mkvol t lib value req2
            let t := t ++ [Ev.ubi_mkvol lib value req2 err]
            let d1 := env.ubi_detach_mtd t lib DEFAULT_CTRL_DEV mtdn
            let t := t ++ [Ev.ubi_detach_mtd lib DEFAULT_CTRL_DEV mtdn d1] ++ [Ev.libubi_close lib]
            if err < 0 then (-1, t) else (0, t)

/-! ## `mount(fs_type, partition_type, location, mount_point)` -/

def MountFn (env : Env) (name : String) (state : State) (argv : List Expr) (t : Trace) :
    Outcome :=
  let argc : Int := argv.length
  if argc ≠ 4 then
    ⟨none, ErrorAbort state (name ++ "() expects 4 args, got " ++ toString argc), t⟩
  else
    match ReadArgs state t (argv.take 4) with
    | (some [fs_type, partition_type, location, mount_point], state, t) =>
      if strlen fs_type = 0 then
        ⟨StringValue none,
          ErrorAbort state ("fs_type argument to " ++ name ++ "() can't be empty"), t⟩
      else if strlen partition_type = 0 then
        ⟨StringValue none,
          ErrorAbort state ("partition_type argument to " ++ name ++ "() can't be empty"), t⟩
      else if strlen location = 0 then
        ⟨StringValue none,
          ErrorAbort state ("location argument to " ++ name ++ "() can't be empty"), t⟩
      else if strlen mount_point = 0 then
        ⟨StringValue none,
          ErrorAbort state ("mount_point argument to " ++ name ++ "() can't be empty"), t⟩
      else
        let t := t ++ [Ev.mkdir mount_point 0o755]
        if partition_type = "MTD" then
          let t := t ++ [Ev.mtd_scan_partitions]
          let mtd := env.mtd_find_partition_by_name t location
          let t := t ++ [Ev.mtd_find_partition_by_name location mtd]
          match mtd with
          | none => ⟨StringValue (some ""), state, t⟩
          | some m =>
            let r := env.mtd_mount_partition t m mount_point fs_type 0
            let t := t ++ [Ev.mtd_mount_partition m mount_point fs_type 0 r]
            if r ≠ 0 then ⟨StringValue (some ""), state, t⟩
            else ⟨StringValue (some mount_point), state, t⟩
        else if partition_type = "UBI" then
          match UbiAttach env t location "" with
          | (ret, ubinode, t) =>
            if ret = 0 then
              let r := env.mount t ubinode mount_point fs_type mountFlags ""
              let t := t ++ [Ev.mount ubinode mount_point fs_type mountFlags "" r]
              if r < 0 then ⟨StringValue (some ""), state, t⟩
              else ⟨StringValue (some mount_point), state, t⟩
            else ⟨StringValue (some ""), state, t⟩
        else
          let r := env.mount t location mount_point fs_type mountFlags ""
          let t := t ++ [Ev.mount location mount_point fs_type mountFlags "" r]
          if r < 0 then ⟨StringValue (some ""), state, t⟩
          else ⟨StringValue (some mount_point), state, t⟩
    | (_, state, t) => ⟨none, state, t⟩

/-! ## `unmount(mount_point)` -/

def UnmountFn (env : Env) (name : String) (state : State) (argv : List Expr) (t : Trace) :
    Outcome :=
  let argc : Int := argv.length
  if argc ≠ 1 then
    ⟨none, ErrorAbort state (name ++ "() expects 1 arg, got " ++ toString argc), t⟩
  else
    match ReadArgs state t (argv.take 1) with
    | (some [mount_point], state, t) =>
      if strlen mount_point = 0 then
        ⟨StringValue none,
          ErrorAbort state "mount_point argument to unmount() can't be empty", t⟩
      else
        let t := t ++ [Ev.scan_mounted_volumes]
        let vol := env.find_mounted_volume_by_mount_point t mount_point
        let t := t ++ [Ev.find_mounted_volume_by_mount_point mount_point vol]
        match vol with
        | none => ⟨StringValue (some ""), state, t⟩
        | some v =>
          let fstype := env.get_filesystem_by_mounted_volume t v
          let t := t ++ [Ev.get_filesystem_by_mounted_volume v fstype]
          -- is_ubifs, the copy `device` of the backing device path, and the trace
          let cap : Bool × Option String × Trace :=
            if fstype = some "ubifs" then
              -- vol will be freed in unmount_mounted_volume, so make a copy
              let d := env.get_device_by_mounted_volume t v
              (true, d, t ++ [Ev.get_device_by_mounted_volume v d])
            else (false, none, t)
          let is_ubifs := cap.1
          let device := cap.2.1
          let t := cap.2.2
          let err := env.unmount_mounted_volume t v
          let t := t ++ [Ev.unmount_mounted_volume v err]
          if err ≠ 0 then ⟨StringValue (some ""), state, t⟩
          else if is_ubifs && device.isSome then
            ⟨StringValue (some mount_point), state, (UbiDetach env t device).2⟩
          else ⟨StringValue (some mount_point), state, t⟩
    | (_, state, t) => ⟨none, state, t⟩

/-! ## `format(fs_type, partition_type, location, fs_size)` -/

def FormatFn (env : Env) (name : String) (state : State) (argv : List Expr) (t : Trace) :
    Outcome :=
  let argc : Int := argv.length
  if argc ≠ 4 then
    ⟨none, ErrorAbort state (name ++ "() expects 4 args, got " ++ toString argc), t⟩
  else
    match ReadArgs state t (argv.take 4) with
    | (some [fs_type, partition_type, location, fs_size], state, t) =>
      if strlen fs_type = 0 then
        ⟨StringValue none,
          ErrorAbort state ("fs_type argument to " ++ name ++ "() can't be empty"), t⟩
      else if strlen partition_type = 0 then
        ⟨StringValue none,
          ErrorAbort state ("partition_type argument to " ++ name ++ "() can't be empty"), t⟩
      else if strlen location = 0 then
        ⟨StringValue none,
          ErrorAbort state ("location argument to " ++ name ++ "() can't be empty"), t⟩
      else if partition_type = "MTD" ∨ partition_type = "UBI" then
        let t := t ++ [Ev.mtd_scan_partitions]
        let mtd := env.mtd_find_partition_by_name t location
        let t := t ++ [Ev.mtd_find_partition_by_name location mtd]
        match mtd with
        | none => ⟨StringValue (some ""), state, t⟩
        | some m =>
          let ctx := env.mtd_write_partition t m
          let t := t ++ [Ev.mtd_write_partition m ctx]
          match ctx with
          | none => ⟨StringValue (some ""), state, t⟩
          | some c =>
            let e := env.mtd_erase_blocks t c (-1)
            let t := t ++ [Ev.mtd_erase_blocks c (-1) e]
            if e = -1 then
              let cl := env.mtd_write_close t c
              ⟨StringValue (some ""), state, t ++ [Ev.mtd_write_close c cl]⟩
            else
              let cl := env.mtd_write_close t c
              let t := t ++ [Ev.mtd_write_close c cl]
              if cl ≠ 0 then ⟨StringValue (some ""), state, t⟩
              else if partition_type = "UBI" then
                match UbiFormat env t env.UBI_DYNAMIC_VOLUME location with
                | (ret, t) =>
                  if ret = 0 then ⟨StringValue (some location), state, t⟩
                  else ⟨StringValue (some ""), state, t⟩
              else ⟨StringValue (some location), state, t⟩
      else if env.USE_EXT4 = true ∧ fs_type = "ext4" then
        let status := env.make_ext4fs t location (atoll fs_size)
        let t := t ++ [Ev.make_ext4fs location (atoll fs_size) status]
        if status ≠ 0 then ⟨StringValue (some ""), state, t⟩
        else ⟨StringValue (some location), state, t⟩
      else
        -- "unsupported fs_type ... partition_type ...": `result` is still NULL
        ⟨StringValue none, state, t⟩
    | (_, state, t) => ⟨none, state, t⟩

/-! ## `write_raw_image(filename_or_blob, partition)` -/

/-- The loop `while (success && (read = fread(buffer, 1, BUFSIZ, f)) > 0)` of
`WriteRawImageFn`.  `rest` is the part of the file that has not been read
yet; every turn of the loop with `read > 0` consumes at least one byte of it,
so a fuel above `rest.length` is never used up. -/
def writeLoop (env : Env) (ctx f : Nat) : Nat → List Char → Bool → Trace → Bool × Trace
  | 0, _, success, t => (success, t)
  | fuel + 1, rest, success, t =>
    if success = false then (success, t)
    else
      let buffer := rest.take env.BUFSIZ
      let read : Int := buffer.length
      let t := t ++ [Ev.fread f env.BUFSIZ ⟨buffer⟩]
      if read > 0 then
        let wrote := env.mtd_write_data t ctx (some ⟨buffer⟩) read
        let t := t ++ [Ev.mtd_write_data ctx (some ⟨buffer⟩) read wrote]
        writeLoop env ctx f fuel (rest.drop env.BUFSIZ) (success && decide (wrote = read)) t
      else (success, t)

/-- `WriteRawImageFn`.  The code does not look at `argc`: it reads `argv[0]`
and `argv[1]`.  A string value whose `data` is `NULL` makes the C code call
`strlen(NULL)`; the model returns `NULL` there. -/
def WriteRawImageFn (env : Env) (name : String) (state : State) (argv : List Expr)
    (t : Trace) : Outcome :=
  match ReadValueArgs state t (argv.take 2) with
  | (some [contents, partition_value], state, t) =>
    if partition_value.type ≠ ValueType.VAL_STRING then
      ⟨StringValue none,
        ErrorAbort state ("partition argument to " ++ name ++ " must be string"), t⟩
    else
      match partition_value.data with
      | none => ⟨none, state, t⟩
      | some partition =>
        if strlen partition = 0 then
          ⟨StringValue none,
            ErrorAbort state ("partition argument to " ++ name ++ " can't be empty"), t⟩
        else if contents.type = ValueType.VAL_STRING ∧ contents.data = none then
          ⟨none, state, t⟩
        else if contents.type = ValueType.VAL_STRING ∧ strlen (contents.data.getD "") = 0 then
          ⟨StringValue none,
            ErrorAbort state ("file argument to " ++ name ++ " can't be empty"), t⟩
        else
          let t := t ++ [Ev.mtd_scan_partitions]
          let mtd := env.mtd_find_partition_by_name t partition
          let t := t ++ [Ev.mtd_find_partition_by_name partition mtd]
          match mtd with
          | none => ⟨StringValue (some ""), state, t⟩
          | some m =>
            let ctx := env.mtd_write_partition t m
            let t := t ++ [Ev.mtd_write_partition m ctx]
            match ctx with
            | none => ⟨StringValue (some ""), state, t⟩
            | some c =>
              -- `success` after the data was written; `none` when the file
              -- could not be opened (`goto done`)
              let w : Option Bool × Trace :=
                if contents.type = ValueType.VAL_STRING then
                  -- we're given a filename as the contents
                  let filename := contents.data.getD ""
                  let f := env.fopen t filename "rb"
                  let t := t ++ [Ev.fopen filename "rb" (f.map Prod.fst)]
                  match f with
                  | none => (none, t)
                  | some (fh, bytes) =>
                    let r := writeLoop env c fh (bytes.length + 1) bytes.data true t
                    (some r.1, r.2 ++ [Ev.fclose fh])
                else
                  -- we're given a blob as the contents
                  let wrote := env.mtd_write_data t c contents.data contents.size
                  (some (decide (wrote = contents.size)),
                    t ++ [Ev.mtd_write_data c contents.data contents.size wrote])
              match w with
              | (none, t) => ⟨StringValue (some ""), state, t⟩
              | (some success, t) =>
                let e := env.mtd_erase_blocks t c (-1)
                let t := t ++ [Ev.mtd_erase_blocks c (-1) e]
                let cl := env.mtd_write_close t c
                let t := t ++ [Ev.mtd_write_close c cl]
                ⟨StringValue (some (if success = true then partition else "")), state, t⟩
  | (_, state, t) => ⟨none, state, t⟩

/-! ## `package_extract_dir` and `package_extract_file` -/

/-- The local `timestamp` of `PackageExtractDirFn`:
`struct utimbuf timestamp = { 1217592000, 1217592000 }`. -/
def extractTimestamp : utimbuf := ⟨1217592000, 1217592000⟩

/-- `package_extract_file(package_path, destination_path)` or
`package_extract_file(package_path)`. -/
def PackageExtractFileFn (env : Env) (name : String) (state : State) (argv : List Expr)
    (t : Trace) : Outcome :=
  let argc : Int := argv.length
  if argc ≠ 1 ∧ argc ≠ 2 then
    ⟨none, ErrorAbort state (name ++ "() expects 1 or 2 args, got " ++ toString argc), t⟩
  else if argc = 2 then
    -- The two-argument version extracts to a file.
    match ReadArgs state t (argv.take 2) with
    | (some [zip_path, dest_path], state, t) =>
      let za := env.package_zip
      let entry := env.mzFindZipEntry t za zip_path
      let t := t ++ [Ev.mzFindZipEntry za zip_path entry]
      match entry with
      | none => ⟨StringValue (some ""), state, t⟩
      | some en =>
        let f := env.fopen t dest_path "wb"
        let t := t ++ [Ev.fopen dest_path "wb" (f.map Prod.fst)]
        match f with
        | none => ⟨StringValue (some ""), state, t⟩
        | some (fh, _) =>
          let success := env.mzExtractZipEntryToFile t za en fh
          let t := t ++ [Ev.mzExtractZipEntryToFile za en fh success] ++ [Ev.fclose fh]
          ⟨StringValue (some (if success = true then "t" else "")), state, t⟩
    | (_, state, t) => ⟨none, state, t⟩
  else
    -- The one-argument version returns the contents of the file as the result.
    let v : Value := { type := ValueType.VAL_BLOB, size := -1, data := none }
    match ReadArgs state t (argv.take 1) with
    | (some [zip_path], state, t) =>
      let za := env.package_zip
      let entry := env.mzFindZipEntry t za zip_path
      let t := t ++ [Ev.mzFindZipEntry za zip_path entry]
      match entry with
      | none =>
        -- done1 with success = false
        ⟨some { v with data := none, size := -1 }, state, t⟩
      | some en =>
        let len := env.mzGetZipEntryUncompLen t en
        let t := t ++ [Ev.mzGetZipEntryUncompLen en len]
        let v := { v with size := len }
        let buffer := env.malloc t v.size
        let t := t ++ [Ev.malloc v.size buffer]
        if buffer = false then
          ⟨some { v with data := none, size := -1 }, state, t⟩
        else
          let r := env.mzExtractZipEntryToBuffer t za en
          let t := t ++ [Ev.mzExtractZipEntryToBuffer za en r.1 r.2]
          let v := { v with data := some r.2 }
          if r.1 = false then ⟨some { v with data := none, size := -1 }, state, t⟩
          else ⟨some v, state, t⟩
    | (_, state, t) => ⟨none, state, t⟩

/-! ## `retouch_binaries(lib1, lib2, ...)` -/

/-- The value of `random_base` that `RetouchBinariesFn` prints:
`time(NULL) % 1024`, then `% 1024` again (C remainder, truncating). -/
def retouchRandomOffset (now : Int) : Int :=
  let random_base := wrapInt32 (Int.tmod now 1024)
  wrapInt32 (Int.tmod random_base 1024)

/-- The base offset `RetouchBinariesFn` computes before its loop: the random
offset, forced to 1 when it is 0, times `-0x1000`. -/
def retouchBase (now : Int) : Int :=
  let random_base := retouchRandomOffset now
  -- make sure we never randomize to zero
  let random_base := if random_base = 0 then 1 else random_base
  -- make sure our randomization is page-aligned
  wrapInt32 (random_base * (-0x1000))

/-- The loop `while (i < (argc - 1))` of `RetouchBinariesFn`.  The first
argument is the part of `retouch_entries` from index `i` on; the loop runs
while it holds a pair.  Returns the entries that are left, `i`, `success`,
the state and the trace. -/
def retouchLoop (env : Env) :
    List String → Nat → Bool → Int → Int → Bool → State → Trace →
      List String × Nat × Bool × State × Trace
  | input :: output :: rest, i, success, random_base, override_base, override_set, state, t =>
    let slot : Option Int := if override_set = true then none else some override_base
    -- success = success && retouch_one_library(...)
    let call : Bool × Int × Trace :=
      if success = true then
        let r := env.retouch_one_library t input output random_base slot
        let after := if override_set = true then override_base else r.2
        (r.1, after, t ++ [Ev.retouch_one_library input output random_base slot r.1 after])
      else (false, override_base, t)
    let success := call.1
    let override_base := call.2.1
    let t := call.2.2
    let state :=
      if success = false then ErrorAbort state ("Failed to retouch '" ++ input ++ "'.")
      else state
    let t := t ++ [Ev.free_entry i input] ++ [Ev.free_entry (i + 1) output]
    if success = true ∧ override_base ≠ 0 then
      retouchLoop env rest (i + 2) success override_base override_base true state t
    else
      retouchLoop env rest (i + 2) success random_base override_base override_set state t
  | rest, i, success, _, _, _, state, t => (rest, i, success, state, t)

/-- `RetouchBinariesFn`. -/
def RetouchBinariesFn (env : Env) (_name : String) (state : State) (argv : List Expr)
    (t : Trace) : Outcome :=
  match ReadVarArgs state t argv with
  | (none, state, t) => ⟨StringValue (some "t"), state, t⟩
  | (some retouch_entries, state, t) =>
    -- some randomness from the clock
    let now := env.time t
    let t := t ++ [Ev.time now]
    let t := t ++ [Ev.cmd_pipe
      ("ui_print Random offset: 0x" ++ hexOfInt32 (retouchRandomOffset now) ++ "\n")]
    let t := t ++ [Ev.cmd_pipe "ui_print\n"]
    let random_base := retouchBase now
    let override_base := random_base
    match retouchLoop env retouch_entries 0 true random_base override_base false state t with
    | (rest, i, success, state, t) =>
      -- if (i < argc) { free(retouch_entries[i]); success = false; }
      let last : Bool × Trace :=
        match rest with
        | trailing :: _ => (false, t ++ [Ev.free_entry i trailing])
        | [] => (success, t)
      if last.1 = false then
        ⟨some { type := ValueType.VAL_STRING, size := -1, data := none }, state, last.2⟩
      else ⟨StringValue (some "t"), state, last.2⟩

/-! ## `apply_patch_space(bytes)` and `apply_patch(...)` -/

/-- `ApplyPatchSpaceFn`.  The code does not look at `argc`: it reads
`argv[0]`. -/
def ApplyPatchSpaceFn (env : Env) (name : String) (state : State) (argv : List Expr)
    (t : Trace) : Outcome :=
  match ReadArgs state t (argv.take 1) with
  | (some [bytes_str], state, t) =>
    let r := strtol env.LONG_MAX bytes_str
    let bytes := toSizeT env.SIZE_MAX r.1
    if bytes = 0 ∧ r.2 = 0 then
      ⟨none,
        ErrorAbort state
          (name ++ "(): can't parse \"" ++ bytes_str ++ "\" as byte count\n\n"), t⟩
    else
      let c := env.CacheSizeCheck t bytes
      ⟨StringValue (some (if c ≠ 0 then "" else "t")), state,
        t ++ [Ev.CacheSizeCheck bytes c]⟩
  | (_, state, t) => ⟨none, state, t⟩

/-- The loop of `ApplyPatchFn` that checks the types of the candidates; the
first argument counts the turns that are left.  Returns `i` and the state. -/
def typeCheckLoop (name : String) (patches : List Value) : Nat → Nat → State → Nat × State
  | 0, i, state => (i, state)
  | n + 1, i, state =>
    match patches[i * 2]?, patches[i * 2 + 1]? with
    | some sha, some patch =>
      if sha.type ≠ ValueType.VAL_STRING then
        (i, ErrorAbort state (name ++ "(): sha-1 #" ++ toString i ++ " is not string"))
      else if patch.type ≠ ValueType.VAL_BLOB then
        (i, ErrorAbort state (name ++ "(): patch #" ++ toString i ++ " is not blob"))
      else typeCheckLoop name patches n (i + 1) state
    | _, _ => (i, state)

/-- The loop of `ApplyPatchFn` that moves the hashes to `patch_sha_str` and
compacts the blobs in place: `patch_sha_str[i] = patches[i*2]->data;
patches[i] = patches[i*2+1]`.  The first argument counts the turns that are
left.  Returns `patch_sha_str` and the array `patches`. -/
def compactLoop : Nat → Nat → List (Option String) → List Value →
    List (Option String) × List Value
  | 0, _, patch_sha_str, patches => (patch_sha_str, patches)
  | n + 1, i, patch_sha_str, patches =>
    match patches[i * 2]?, patches[i * 2 + 1]? with
    | some sha, some patch =>
      compactLoop n (i + 1) (patch_sha_str ++ [sha.data]) (patches.set i patch)
    | _, _ => (patch_sha_str, patches)

/-- `ApplyPatchFn`.  The result of `ReadValueVarArgs` is not tested: when it
is `NULL` the type check reads `patches[0]->type` through the `NULL` pointer
(`patchcount` is at least 1 here); the model marks the fault in the trace.  The event of the `applypatch` call records the `patchcount` entries
of `patches` that the callee reads. -/
def ApplyPatchFn (env : Env) (name : String) (state : State) (argv : List Expr)
    (t : Trace) : Outcome :=
  let argc : Int := argv.length
  if argc < 6 ∨ argc % 2 = 1 then
    ⟨none,
      ErrorAbort state
        (name ++ "(): expected at least 6 args and an even number, got " ++ toString argc),
      t⟩
  else
    match ReadArgs state t (argv.take 4) with
    | (some [source_filename, target_filename, target_sha1, target_size_str], state, t) =>
      let r := strtol env.LONG_MAX target_size_str
      let target_size := toSizeT env.SIZE_MAX r.1
      if target_size = 0 ∧ r.2 = 0 then
        ⟨none,
          ErrorAbort state
            (name ++ "(): can't parse \"" ++ target_size_str ++ "\" as byte count"), t⟩
      else
        let patchcount : Nat := (argv.length - 4) / 2
        match ReadValueVarArgs state t (argv.drop 4) with
        | (none, state, t) => ⟨none, state, t ++ [Ev.null_dereference "patches[0]->type"]⟩
        | (some patches, state, t) =>
          match typeCheckLoop name patches patchcount 0 state with
          | (i, state) =>
            if i ≠ patchcount then ⟨none, state, t⟩
            else
              match compactLoop patchcount 0 [] patches with
              | (patch_sha_str, patches) =>
                -- the callee reads `patches[0 .. patchcount-1]`
                let patch_data := patches.take patchcount
                let result := env.applypatch t source_filename target_filename target_sha1
                  target_size patchcount patch_sha_str patch_data
                ⟨StringValue (some (if result = 0 then "t" else "")), state,
                  t ++ [Ev.applypatch source_filename target_filename target_sha1
                    target_size patchcount patch_sha_str patch_data result]⟩
    | (_, state, t) => ⟨none, state, t⟩

/-! ## `undo_retouch_binaries(lib1, lib2, ...)` -/

/-- The loop `while (i < (argc-1))` of `UndoRetouchBinariesFn`.  The first
argument is the part of `retouch_entries` from index `i` on.  Returns the
entries that are left, `i`, `success`, the state and the trace. -/
def undoRetouchLoop (env : Env) :
    List String → Nat → Bool → State → Trace → List String × Nat × Bool × State × Trace
  | input :: output :: rest, i, success, state, t =>
    -- success = success && retouch_one_library(..., 0 /* undo => offset==0 */, NULL)
    let call : Bool × Trace :=
      if success = true then
        let r := env.retouch_one_library t input output 0 none
        (r.1, t ++ [Ev.retouch_one_library input output 0 none r.1 0])
      else (false, t)
    let success := call.1
    let t := call.2
    let state :=
      if success = false then ErrorAbort state ("Failed to unretouch '" ++ input ++ "'.")
      else state
    let t := t ++ [Ev.free_entry i input] ++ [Ev.free_entry (i + 1) output]
    undoRetouchLoop env rest (i + 2) success state t
  | rest, i, success, state, t => (rest, i, success, state, t)

/-- `UndoRetouchBinariesFn`. -/
def UndoRetouchBinariesFn (env : Env) (_name : String) (state : State) (argv : List Expr)
    (t : Trace) : Outcome :=
  match ReadVarArgs state t argv with
  | (none, state, t) => ⟨StringValue (some "t"), state, t⟩
  | (some retouch_entries, state, t) =>
    match undoRetouchLoop env retouch_entries 0 true state t with
    | (rest, i, success, state, t) =>
      -- if (i < argc) { free(retouch_entries[i]); success = false; }
      let last : Bool × Trace :=
        match rest with
        | trailing :: _ => (false, t ++ [Ev.free_entry i trailing])
        | [] => (success, t)
      if last.1 = false then
        ⟨some { type := ValueType.VAL_STRING, size := -1, data := none }, state, last.2⟩
      else ⟨StringValue (some "t"), state, last.2⟩

/-! ## `apply_patch_check(file, [sha1_1, ...])` -/

/-- `ApplyPatchCheckFn`.  The result of `ReadVarArgs` is not tested: it is
handed to `applypatch_check` as it is, and the loop that releases the hashes
then reads `sha1s[0]` through the `NULL` pointer when `patchcount` is not 0;
the model marks the fault in the trace. -/
def ApplyPatchCheckFn (env : Env) (name : String) (state : State) (argv : List Expr)
    (t : Trace) : Outcome :=
  let argc : Int := argv.length
  if argc < 1 then
    ⟨none,
      ErrorAbort state (name ++ "(): expected at least 1 arg, got " ++ toString argc), t⟩
  else
    match ReadArgs state t (argv.take 1) with
    | (some [filename], state, t) =>
      let patchcount : Int := argc - 1
      match ReadVarArgs state t (argv.drop 1) with
      | (sha1s, state, t) =>
        let result := env.applypatch_check t filename patchcount sha1s
        let t := t ++ [Ev.applypatch_check filename patchcount sha1s result]
        -- for (i = 0; i < patchcount; ++i) free(sha1s[i]);
        if sha1s = none ∧ 0 < patchcount then
          ⟨none, state, t ++ [Ev.null_dereference "sha1s[0]"]⟩
        else ⟨StringValue (some (if result = 0 then "t" else "")), state, t⟩
    | (_, state, t) => ⟨none, state, t⟩

/-! ## `delete([filename, ...])` and `delete_recursive([dirname, ...])` -/

/-- The loop of `DeleteFn` that evaluates the paths, `paths[i] =
Evaluate(state, argv[i])`, up to the first one that fails.  The first
argument is the expressions from index `i` on, the second the paths obtained
so far.  Returns the paths obtained, whether an evaluation failed, the state
and the trace. -/
def deleteEvalLoop : List Expr → List String → State → Trace →
    List String × Bool × State × Trace
  | [], paths, state, t => (paths, false, state, t)
  | e :: es, paths, state, t =>
    match Evaluate state t e with
    | (none, st, tr) => (paths, true, st, tr)
    | (some path, st, tr) => deleteEvalLoop es (paths ++ [path]) st tr

/-- The cleanup loop `for (j = 0; j < i; ++i) free(paths[j]);` of `DeleteFn`:
the loop advances `i`, not `j`.  An `int` that passes `INT_MAX` is taken to
wrap around, as on the target.  The first argument is the fuel; the loop
leaves by its own test well before `2^31 + 1` turns.  Returns `i` and the
trace. -/
def deleteCleanupLoop (paths : List String) (j : Int) : Nat → Int → Trace → Int × Trace
  | 0, i, t => (i, t)
  | fuel + 1, i, t =>
    if j < i then
      deleteCleanupLoop paths j fuel (wrapInt32 (i + 1))
        (t ++ [Ev.free_entry j.toNat (paths.getD j.toNat "")])
    else (i, t)

/-- The loop of `DeleteFn` that removes the paths and counts the successes.
Returns `success` and the trace. -/
def deleteUnlinkLoop (env : Env) ( recursive : Bool) :
    List String → Nat → Int → Trace → Int × Trace
  | [], _, success, t => (success, t)
  | path :: rest, i, success, t =>
    let r : Int × Trace :=
      if recursive = true then
        let r := env.dirUnlinkHierarchy t path
        (r, t ++ [Ev.dirUnlinkHierarchy path r])
      else
        let r := env.unlink t path
        (r, t ++ [Ev.unlink path r])
    let success := if r.1 = 0 then wrapInt32 (success + 1) else success
    deleteUnlinkLoop env recursive rest (i + 1) success (r.2 ++ [Ev.free_entry i path])

/-- `DeleteFn`, registered as `delete` and as `delete_recursive`. -/
def DeleteFn (env : Env) (name : String) (state : State) (argv : List Expr)
    (t : Trace) : Outcome :=
  match deleteEvalLoop argv [] state t with
  | (paths, true, state, t) =>
    -- paths[i] == NULL: the cleanup, then return NULL
    ⟨none, state, (deleteCleanupLoop paths 0 2147483649 (paths.length : Int) t).2⟩
  | (paths, false, state, t) =>
    let recursive : Bool := decide (name = "delete_recursive")
    match deleteUnlinkLoop env recursive paths 0 0 t with
    | (success, t) => ⟨StringValue (some (toString success)), state, t⟩

/-! ## `file_getprop(file, key)` and `is_file_exist(file)` -/

/-- The constant `MAX_FILE_GETPROP_SIZE`. -/
def MAX_FILE_GETPROP_SIZE : Int := 65536

/-- The loops `while (end > start && isspace(*end)) --end;` of
`FileGetPropFn`, which trim the white space at the end of the key and of the
value.  The text starts at `start`; the argument is `end - start + 1`, the
number of characters up to and including `*end`, and so is the result. -/
def trimEnd (text : List Char) : Nat → Nat
  | 0 => 0
  | 1 => 1
  | n + 2 => if isspace (text.getD (n + 1) ' ') then trimEnd text (n + 1) else n + 2

/-- What the `do ... while` loop of `FileGetPropFn` ends with. -/
inductive PropLookup where
  /-- A line without `=`: the malformed line, from its first non-blank
  character. -/
  | malformed (line : String)
  /-- The key was found: `result`. -/
  | found (value : String)
  /-- Every line was read and `result` is still `NULL`. -/
  | absent
  deriving DecidableEq, Repr

/-- The `do ... while ((line = strtok(NULL, "\n")))` loop of `FileGetPropFn`,
entered with the line `line`; `rest` is the part of the buffer after the line.
The first argument is the fuel: every turn takes at least one character from
the buffer. -/
def propLoop (key : String) : Nat → List Char → List Char → PropLookup
  | 0, _, _ => PropLookup.absent
  | fuel + 1, line, rest =>
    -- skip whitespace at start of line
    let line := line.dropWhile isspace
    -- the line that `strtok(NULL, "\n")` gives, and the turn of the loop on it
    let next : PropLookup :=
      match strtok ['\n'] rest with
      | none => PropLookup.absent
      | some (l, r) => propLoop key fuel l r
    -- comment or blank line: skip to next line
    if line = [] ∨ line.head? = some '#' then next
    else if line.contains '=' = false then PropLookup.malformed (String.mk line)
    else
      -- trim whitespace between key and '='
      let before := line.takeWhile (fun c => decide (c ≠ '='))
      let keyText := before.take (trimEnd before before.length)
      -- not the key we're looking for
      if key.data ≠ keyText then next
      else
        -- skip whitespace after the '=' to the start of the value
        let val := ((line.dropWhile (fun c => decide (c ≠ '='))).drop 1).dropWhile isspace
        -- trim trailing whitespace
        PropLookup.found (String.mk (val.take (trimEnd val val.length)))

/-- `FileGetPropFn`.  The code does not look at `argc`: it reads `argv[0]`
and `argv[1]`.  The bytes read are a C string: they end at the first zero
byte.  When the buffer holds no line, `strtok` returns `NULL` and the loop,
a `do ... while`, reads `*line` through it; the model marks the fault in the
trace. -/
def FileGetPropFn (env : Env) (name : String) (state : State) (argv : List Expr)
    (t : Trace) : Outcome :=
  match ReadArgs state t (argv.take 2) with
  | (some [filename, key], state, t) =>
    let st := env.stat t filename
    let t := t ++ [Ev.stat filename st]
    match st with
    | none =>
      ⟨StringValue none,
        ErrorAbort state
          (name ++ ": failed to stat \"" ++ filename ++ "\": " ++ env.strerror_errno t), t⟩
    | some st_size =>
      if st_size > MAX_FILE_GETPROP_SIZE then
        ⟨StringValue none,
          ErrorAbort state
            (filename ++ " too large for " ++ name ++ " (max "
              ++ toString MAX_FILE_GETPROP_SIZE ++ ")"), t⟩
      else
        let buffer := env.malloc t (st_size + 1)
        let t := t ++ [Ev.malloc (st_size + 1) buffer]
        if buffer = false then
          ⟨StringValue none,
            ErrorAbort state
              (name ++ ": failed to alloc " ++ toString (st_size + 1) ++ " bytes"), t⟩
        else
          let f := env.fopen t filename "rb"
          let t := t ++ [Ev.fopen filename "rb" (f.map Prod.fst)]
          match f with
          | none =>
            ⟨StringValue none,
              ErrorAbort state
                (name ++ ": failed to open " ++ filename ++ ": " ++ env.strerror_errno t), t⟩
          | some (fh, bytes) =>
            let read := bytes.data.take st_size.toNat
            let t := t ++ [Ev.fread fh st_size.toNat ⟨read⟩]
            if (read.length : Int) ≠ st_size then
              ⟨StringValue none,
                ErrorAbort state
                  (name ++ ": failed to read " ++ toString (st_size + 1) ++ " bytes from "
                    ++ filename), t ++ [Ev.fclose fh]⟩
            else
              let t := t ++ [Ev.fclose fh]
              -- buffer[st.st_size] = '\0': the text ends at the first zero byte
              let text := read.takeWhile (fun c => decide (c ≠ Char.ofNat 0))
              match strtok ['\n'] text with
              | none => ⟨none, state, t ++ [Ev.null_dereference "*line"]⟩
              | some (line, rest) =>
                match propLoop key (text.length + 1) line rest with
                | PropLookup.malformed bad =>
                  ⟨StringValue none,
                    ErrorAbort state
                      (name ++ ": malformed line \"" ++ bad ++ "\": " ++ filename
                        ++ " not a prop file?"), t⟩
                | PropLookup.found value => ⟨StringValue (some value), state, t⟩
                | PropLookup.absent => ⟨StringValue (some ""), state, t⟩
  | (_, state, t) => ⟨none, state, t⟩

/-- `IsFileExistFn`.  The code does not look at `argc`: it reads `argv[0]`. -/
def IsFileExistFn (env : Env) (_name : String) (state : State) (argv : List Expr)
    (t : Trace) : Outcome :=
  match ReadArgs state t (argv.take 1) with
  | (some [filename], state, t) =>
    let st := env.stat t filename
    let t := t ++ [Ev.stat filename st]
    match st with
    | none => ⟨StringValue (some "file_not_exit"), state, t⟩
    | some _ => ⟨StringValue (some filename), state, t⟩
  | (_, state, t) => ⟨none, state, t⟩

/-! ## `ui_print(...)` -/

/-- The loop `while (line) { fprintf(cmd_pipe, "ui_print %s\n", line); line =
strtok(NULL, "\n"); }` of `UIPrintFn`.  The second argument is what the last
`strtok` returned: the line and the part of the buffer after it.  The first
argument is the fuel: every turn takes at least one character from the
buffer. -/
def uiPrintLoop : Nat → Option (List Char × List Char) → Trace → Trace
  | 0, _, t => t
  | _ + 1, none, t => t
  | fuel + 1, some (line, rest), t =>
    uiPrintLoop fuel (strtok ['\n'] rest)
      (t ++ [Ev.cmd_pipe ("ui_print " ++ String.mk line ++ "\n")])

/-- `UIPrintFn`.  The value returned is the buffer, which `strtok` has cut
after the first line. -/
def UIPrintFn (_env : Env) (_name : String) (state : State) (argv : List Expr)
    (t : Trace) : Outcome :=
  match ReadVarArgs state t argv with
  | (none, state, t) => ⟨none, state, t⟩
  | (some args, state, t) =>
    -- strcpy(buffer+size, args[i]); size += strlen(args[i]);
    let buffer : List Char := args.foldl (fun b a => b ++ a.data) []
    let first := strtok ['\n'] buffer
    let t := uiPrintLoop (buffer.length + 1) first t
    let t := t ++ [Ev.cmd_pipe "ui_print\n"]
    let cut : List Char :=
      match first with
      | none => buffer
      | some (line, _) => buffer.takeWhile (fun c => decide (c = '\n')) ++ line
    ⟨StringValue (some (String.mk cut)), state, t⟩

/-! ## `sha1_check(data, ...)` -/

/-- The constant `SHA_DIGEST_SIZE` of `mincrypt/sha.h`. -/
def SHA_DIGEST_SIZE : Nat := 20

/-- The contents of a `uint8_t digest[SHA_DIGEST_SIZE]` that was filled with
the bytes `raw`. -/
def digestBytes (raw : List Nat) : List Nat :=
  (List.range SHA_DIGEST_SIZE).map fun i => raw.getD i 0 % 256

/-- The local `alphabet` of `PrintSha1`. -/
def alphabet : List Char := "0123456789abcdef".data

/-- The loop of `PrintSha1`: `buffer[i*2] = alphabet[(digest[i] >> 4) & 0xf];
buffer[i*2+1] = alphabet[digest[i] & 0xf];`.  The first argument counts the
turns that are left; the buffer is filled from left to right, so the two
characters are appended. -/
def printSha1Loop (digest : List Nat) : Nat → Nat → List Char → List Char
  | 0, _, buffer => buffer
  | n + 1, i, buffer =>
    printSha1Loop digest n (i + 1)
      (buffer ++ [alphabet.getD ((digest.getD i 0 >>> 4) &&& 0xf) '0',
        alphabet.getD (digest.getD i 0 &&& 0xf) '0'])

/-- `PrintSha1`: take a sha-1 digest and return it as a hex string. -/
def PrintSha1 (digest : List Nat) : String :=
  String.mk (printSha1Loop digest SHA_DIGEST_SIZE 0 [])

/-- The loop `for (i = 1; i < argc; ++i)` of `Sha1CheckFn`: stops at the
first string argument that parses as a sha-1 and equals `digest`.  The first
argument counts the turns that are left.  Returns `i`. -/
def sha1MatchLoop (env : Env) (digest : List Nat) (args : List Value) : Nat → Nat → Nat
  | 0, i => i
  | n + 1, i =>
    match args[i]? with
    | none => i
    | some arg =>
      if arg.type ≠ ValueType.VAL_STRING then sha1MatchLoop env digest args n (i + 1)
      else if (env.ParseSha1 arg.data).1 ≠ 0 then sha1MatchLoop env digest args n (i + 1)
      else if digestBytes (env.ParseSha1 arg.data).2 = digest then i
      else sha1MatchLoop env digest args n (i + 1)

/-- `Sha1CheckFn`. -/
def Sha1CheckFn (env : Env) (name : String) (state : State) (argv : List Expr)
    (t : Trace) : Outcome :=
  let argc : Int := argv.length
  if argc < 1 then
    ⟨none, ErrorAbort state (name ++ "() expects at least 1 arg"), t⟩
  else
    match ReadValueVarArgs state t argv with
    | (none, state, t) => ⟨none, state, t⟩
    | (some args, state, t) =>
      match args with
      | [] => ⟨none, state, t ++ [Ev.null_dereference "args[0]->size"]⟩
      | data :: _ =>
        if data.size < 0 then ⟨StringValue (some ""), state, t⟩
        else
          let digest := digestBytes (env.SHA data.data data.size)
          if argc = 1 then ⟨StringValue (some (PrintSha1 digest)), state, t⟩
          else
            let i := sha1MatchLoop env digest args (argv.length - 1) 1
            if (i : Int) ≥ argc then
              -- Didn't match any of the hex strings; return false.
              ⟨StringValue (some ""), state, t⟩
            else
              -- Found a match; return the matched one.
              ⟨args[i]?, state, t⟩

/-! ## `set_bootloader_env(env_name, env_val)` -/

/-- `SetBootloaderEnvFn`. -/
def SetBootloaderEnvFn (env : Env) (name : String) (state : State) (argv : List Expr)
    (t : Trace) : Outcome :=
  let argc : Int := argv.length
  if argc ≠ 2 then
    ⟨none, ErrorAbort state (name ++ "() expects 3 args, got " ++ toString argc), t⟩
  else
    match ReadArgs state t (argv.take 2) with
    | (some [env_name, env_val], state, t) =>
      if strlen env_name = 0 then
        ⟨StringValue none,
          ErrorAbort state ("env_name argument to " ++ name ++ "() can't be empty"), t⟩
      else if strlen env_val = 0 then
        ⟨StringValue none,
          ErrorAbort state ("env_val argument to " ++ name ++ "() can't be empty"), t⟩
      else
        let r := env.fw_setenv t 3 ["fw_setenv", env_name, env_val]
        let t := t ++ [Ev.fw_setenv 3 ["fw_setenv", env_name, env_val] r]
        if r = 0 then ⟨StringValue (some env_name), state, t⟩
        else ⟨StringValue none, state, t⟩
    | (_, state, t) => ⟨none, state, t⟩

/-! ## The key map of the recovery menu (`default_recovery_ui.c`) -/

/-- The constants of `recovery_ui.h`, `common.h` and `linux/input.h` that the
built-in key maps use.  The headers are not among the sources: what is proved
holds for every value of the constants. -/
structure UiConstants where
  NO_ACTION : Int
  SELECT_ITEM : Int
  HIGHLIGHT_DOWN : Int
  HIGHLIGHT_UP : Int
  KEY_ENTER : Int
  KEY_TAB : Int
  KEY_BACK : Int
  KEY_DOWN : Int
  KEY_VOLUMEDOWN : Int
  KEY_PAGEDOWN : Int
  KEY_UP : Int
  KEY_VOLUMEUP : Int
  KEY_PAGEUP : Int
  BTN_MOUSE : Int
  BTN_LEFT : Int
  BTN_RIGHT : Int
  VIRTUAL_KEY_MOUSE_DOWN : Int
  VIRTUAL_KEY_MOUSE_WHEEL_DOWN : Int
  VIRTUAL_KEY_TOUCH_DOWN : Int
  VIRTUAL_KEY_MOUSE_UP : Int
  VIRTUAL_KEY_MOUSE_WHEEL_UP : Int
  VIRTUAL_KEY_TOUCH_UP : Int

/-- The record `KeyMapItem`: `{ const char* type; int value; int key[6]; }`. -/
structure KeyMapItem where
  type : String
  value : Int
  key : List Int
  deriving DecidableEq, Repr

/-- The table `g_default_keymap`. -/
def g_default_keymap (k : UiConstants) : List KeyMapItem :=
  [ { type := "select", value := k.SELECT_ITEM,
      key := [k.KEY_ENTER, k.KEY_TAB, k.KEY_BACK, -1, -1, -1] },
    { type := "down", value := k.HIGHLIGHT_DOWN,
      key := [k.KEY_DOWN, k.KEY_VOLUMEDOWN, k.KEY_PAGEDOWN, -1, -1, -1] },
    { type := "up", value := k.HIGHLIGHT_UP,
      key := [k.KEY_UP, k.KEY_VOLUMEUP, k.KEY_PAGEUP, -1, -1, -1] } ]

/-- The table `g_presupposed_keymap`. -/
def g_presupposed_keymap (k : UiConstants) : List KeyMapItem :=
  [ { type := "select", value := k.SELECT_ITEM,
      key := [k.BTN_MOUSE, k.BTN_LEFT, -1, -1, -1, -1] },
    { type := "down", value := k.HIGHLIGHT_DOWN,
      key := [k.VIRTUAL_KEY_MOUSE_DOWN, k.VIRTUAL_KEY_MOUSE_WHEEL_DOWN,
        k.VIRTUAL_KEY_TOUCH_DOWN, k.BTN_RIGHT, -1, -1] },
    { type := "up", value := k.HIGHLIGHT_UP,
      key := [k.VIRTUAL_KEY_MOUSE_UP, k.VIRTUAL_KEY_MOUSE_WHEEL_UP,
        k.VIRTUAL_KEY_TOUCH_UP, -1, -1, -1] } ]

/-- The inner loop `for (j = 0; j < 6; j++) if (v->key[j] == key_code)
return v->value;` of `device_handle_key`: whether it returns.  The first
argument counts the turns that are left. -/
def keySlotLoop (v : KeyMapItem) (key_code : Int) : Nat → Nat → Bool
  | 0, _ => false
  | n + 1, j =>
    match v.key[j]? with
    | none => false
    | some slot => if slot = key_code then true else keySlotLoop v key_code n (j + 1)

/-- The outer loop `for (i = 0; i < num; i++)` of `device_handle_key` over a
table: the value it returns, `none` when it runs to the end.  The first
argument counts the turns that are left. -/
def keyMapLoop (table : List KeyMapItem) (key_code : Int) : Nat → Nat → Option Int
  | 0, _ => none
  | n + 1, i =>
    match table[i]? with
    | none => none
    | some v =>
      if keySlotLoop v key_code 6 0 = true then some v.value
      else keyMapLoop table key_code n (i + 1)

/-- `device_handle_key(key_code, visible)`, with the globals `num_keys` and
`device_keys` that `load_key_map` has set. -/
def device_handle_key (k : UiConstants) (num_keys : Int) (device_keys : List KeyMapItem)
    (key_code visible : Int) : Int :=
  if visible ≠ 0 then
    match keyMapLoop device_keys key_code num_keys.toNat 0 with
    | some value => value
    | none =>
      match keyMapLoop (g_presupposed_keymap k) key_code 3 0 with
      | some value => value
      | none => k.NO_ACTION
  else k.NO_ACTION

/-! ## Notions used to state the properties -/

/-- Whether a character is a hexadecimal digit. -/
def isHexDigit (c : Char) : Bool :=
  ('0' ≤ c && c ≤ '9') || ('a' ≤ c && c ≤ 'f') || ('A' ≤ c && c ≤ 'F')

/-- The value of a hexadecimal digit. -/
def hexValue (c : Char) : Nat :=
  if '0' ≤ c ∧ c ≤ '9' then c.toNat - 48
  else if 'a' ≤ c ∧ c ≤ 'f' then c.toNat - 87
  else if 'A' ≤ c ∧ c ≤ 'F' then c.toNat - 55
  else 0

/-- The bytes a hexadecimal text stands for, two digits a byte, the high
nibble first. -/
def decodeHex : List Char → List Nat
  | hi :: lo :: rest => (hexValue hi * 16 + hexValue lo) :: decodeHex rest
  | _ => []

/-- The lowercase hexadecimal digit of a nibble. -/
def hexDigit (n : Nat) : Char :=
  if n < 10 then Char.ofNat (48 + n) else Char.ofNat (87 + n)

/-- The name of the first empty argument of `mount`, in the order `fs_type`,
`partition_type`, `location`, `mount_point`. -/
def firstEmptyMountArg (fs_type partition_type location : String) : String :=
  if fs_type = "" then "fs_type"
  else if partition_type = "" then "partition_type"
  else if location = "" then "location"
  else "mount_point"

/-- Whether the mount strategy selected by `partition_type` succeeds, when it
is run at history `t` (the history once the mount point has been created).
MTD: the partition is found and the MTD mount primitive returns 0.  UBI: the
attach returns 0 and the mount of the derived node does not fail.  Any other
partition type: the direct mount of `location` does not fail. -/
def mountStrategySucceeds (env : Env) (t : Trace)
    (fs_type partition_type location mount_point : String) : Bool :=
  if partition_type = "MTD" then
    match env.mtd_find_partition_by_name (t ++ [Ev.mtd_scan_partitions]) location with
    | none => false
    | some m =>
      decide (env.mtd_mount_partition
        (t ++ [Ev.mtd_scan_partitions, Ev.mtd_find_partition_by_name location (some m)])
        m mount_point fs_type 0 = 0)
  else if partition_type = "UBI" then
    decide ((UbiAttach env t location "").1 = 0) &&
      decide (0 ≤ env.mount (UbiAttach env t location "").2.2 (UbiAttach env t location "").2.1
        mount_point fs_type mountFlags "")
  else
    decide (0 ≤ env.mount t location mount_point fs_type mountFlags "")

/-- The UBI control operations that `format` issues. -/
inductive UbiOp where
  | detach
  | attach
  | mkvol
  deriving DecidableEq, Repr

/-- The UBI control operation an event stands for, if any. -/
def ubiOpOf : Ev → Option UbiOp
  | Ev.ubi_detach_mtd _ _ _ _ => some UbiOp.detach
  | Ev.ubi_attach _ _ _ _ _ => some UbiOp.attach
  | Ev.ubi_mkvol _ _ _ _ => some UbiOp.mkvol
  | _ => none

/-- The UBI control operations of a trace, in the order they were issued. -/
def ubiOps (evs : Trace) : List UbiOp := evs.filterMap ubiOpOf

/-- The MTD index was resolved: `mtd_get_index_by_name` returned a
non-negative number. -/
def indexResolved (evs : Trace) : Bool :=
  evs.any fun e => match e with
    | Ev.mtd_get_index_by_name _ ret => decide (0 ≤ ret)
    | _ => false

/-- The UBI control interface was opened: `libubi_open` returned a handle. -/
def ubiOpened (evs : Trace) : Bool :=
  evs.any fun e => match e with
    | Ev.libubi_open (some _) => true
    | _ => false

/-- The control interface is capable: `ubi_get_info` returned 0 and the
control major is not -1. -/
def ubiCapable (evs : Trace) : Bool :=
  evs.any fun e => match e with
    | Ev.ubi_get_info _ ret ctrl_major => decide (ret = 0) && decide (ctrl_major ≠ -1)
    | _ => false

/-- The attach succeeded: `ubi_attach` returned 0. -/
def attachOk (evs : Trace) : Bool :=
  evs.any fun e => match e with
    | Ev.ubi_attach _ _ _ ret _ => decide (ret = 0)
    | _ => false

/-- The device-info query succeeded: `ubi_get_dev_info1` returned 0. -/
def devInfoOk (evs : Trace) : Bool :=
  evs.any fun e => match e with
    | Ev.ubi_get_dev_info1 _ _ ret _ => decide (ret = 0)
    | _ => false

/-- The volume creation returned a non-negative status. -/
def mkvolOk (evs : Trace) : Bool :=
  evs.any fun e => match e with
    | Ev.ubi_mkvol _ _ _ ret => decide (0 ≤ ret)
    | _ => false

/-- The event with the result of a `ubi_detach_mtd` blanked. -/
def forgetDetachResult : Ev → Ev
  | Ev.ubi_detach_mtd lib node mtd_num _ => Ev.ubi_detach_mtd lib node mtd_num 0
  | e => e

/-- The MTD partition was resolved by name. -/
def partitionResolved (evs : Trace) : Bool :=
  evs.any fun e => match e with
    | Ev.mtd_find_partition_by_name _ (some _) => true
    | _ => false

/-- The MTD write context was opened. -/
def contextOpened (evs : Trace) : Bool :=
  evs.any fun e => match e with
    | Ev.mtd_write_partition _ (some _) => true
    | _ => false

/-- An erase reported failure: `mtd_erase_blocks` returned -1. -/
def eraseFailed (evs : Trace) : Bool :=
  evs.any fun e => match e with
    | Ev.mtd_erase_blocks _ _ ret => decide (ret = -1)
    | _ => false

/-- A close of the write context returned something other than 0. -/
def closeFailed (evs : Trace) : Bool :=
  evs.any fun e => match e with
    | Ev.mtd_write_close _ ret => decide (ret ≠ 0)
    | _ => false

/-- The events a call added to the trace: what follows the history `t` the
call started from. -/
def eventsSince (t : Trace) (after : Trace) : Trace := after.drop t.length

/-- Every step of the UBI format routine succeeded: index resolved, control
interface opened and capable, attach, device-info query and volume creation
succeeded. -/
def ubiFormatSucceeded (evs : Trace) : Bool :=
  indexResolved evs && ubiOpened evs && ubiCapable evs && attachOk evs && devInfoOk evs
    && mkvolOk evs

/-- Every step of a `format` of an MTD or UBI partition succeeded: partition
resolved by name, write context opened, the erase did not report failure, the
close returned 0 and, for "UBI" only, the UBI format routine succeeded. -/
def formatSucceeded (partition_type : String) (evs : Trace) : Bool :=
  partitionResolved evs && contextOpened evs && !eraseFailed evs && !closeFailed evs
    && (decide (partition_type ≠ "UBI") || ubiFormatSucceeded evs)

/-- The non-empty chunks in which successive `fread(buffer, 1, n, f)` calls
deliver the bytes `rest` of a file; the fuel bounds the number of chunks. -/
def fileChunksAux (n : Nat) : Nat → List Char → List (List Char)
  | 0, _ => []
  | fuel + 1, rest =>
    if (rest.take n).length = 0 then [] else rest.take n :: fileChunksAux n fuel (rest.drop n)

/-- The chunks of a file read `n` bytes at a time. -/
def fileChunks (n : Nat) (bytes : List Char) : List (List Char) :=
  fileChunksAux n bytes.length bytes

/-- The data writes of a trace: payload, length asked and length written. -/
def writeEvents (evs : Trace) : List (Option String × Int × Int) :=
  evs.filterMap fun e => match e with
    | Ev.mtd_write_data _ data len ret => some (data, len, ret)
    | _ => none

/-- Every data write accepted the full chunk. -/
def allWritesFull (evs : Trace) : Bool :=
  evs.all fun e => match e with
    | Ev.mtd_write_data _ _ len ret => decide (ret = len)
    | _ => true

/-- The trace holds nothing but reads of the file and data writes. -/
def onlyReadsAndWrites (evs : Trace) : Bool :=
  evs.all fun e => match e with
    | Ev.fread _ _ _ => true
    | Ev.mtd_write_data _ _ _ _ => true
    | _ => false

/-- The data source was opened: `fopen` returned a stream. -/
def sourceOpened (evs : Trace) : Bool :=
  evs.any fun e => match e with
    | Ev.fopen _ _ (some _) => true
    | _ => false

/-- Number of `mtd_erase_blocks` calls. -/
def eraseCount (evs : Trace) : Nat :=
  evs.countP fun e => match e with
    | Ev.mtd_erase_blocks _ _ _ => true
    | _ => false

/-- Number of `mtd_write_close` calls. -/
def closeCount (evs : Trace) : Nat :=
  evs.countP fun e => match e with
    | Ev.mtd_write_close _ _ => true
    | _ => false

/-- The data of a `write_raw_image` was written in full: the partition was
resolved, the write context was opened, the data source was opened (when the
contents is a file name) and every data write accepted the full chunk. -/
def writeSucceeded (contents : Value) (evs : Trace) : Bool :=
  partitionResolved evs && contextOpened evs
    && (decide (contents.type ≠ ValueType.VAL_STRING) || sourceOpened evs)
    && allWritesFull evs

/-- Whether a list of characters starts with a decimal digit. -/
def startsWithDigit (cs : List Char) : Bool :=
  match cs with
  | c :: _ => c.isDigit
  | [] => false

/-- What is left of a list of characters after an optional sign. -/
def afterSign (cs : List Char) : List Char :=
  match cs with
  | '-' :: rest => rest
  | '+' :: rest => rest
  | rest => rest

/-- Whether a string can be parsed as a decimal byte count: after optional
white space and an optional sign there is at least one decimal digit. -/
def parsesAsByteCount (s : String) : Bool :=
  startsWithDigit (afterSign (s.data.dropWhile isspace))

/-- Whether a year of the Gregorian calendar is a leap year. -/
def isLeapYear (y : Nat) : Bool :=
  (y % 4 = 0 && y % 100 ≠ 0) || y % 400 = 0

/-- The number of days of month `m` (1 to 12) of year `y`. -/
def daysInMonth (y m : Nat) : Nat :=
  if m = 2 then (if isLeapYear y then 29 else 28)
  else if m = 4 ∨ m = 6 ∨ m = 9 ∨ m = 11 then 30
  else 31

/-- The number of days from 1970-01-01 to the first day of year `y`. -/
def daysBeforeYear (y : Nat) : Nat :=
  ((List.range' 1970 (y - 1970)).map fun yr => if isLeapYear yr then 366 else 365).sum

/-- The number of days from the first day of year `y` to the first day of its
month `m`. -/
def daysBeforeMonth (y m : Nat) : Nat :=
  ((List.range' 1 (m - 1)).map (daysInMonth y)).sum

/-- The seconds from the Unix epoch 1970-01-01T00:00:00Z to the UTC instant
given by its calendar date and time of day. -/
def epochOfUtc (year month day hour minute second : Nat) : Nat :=
  ((daysBeforeYear year + daysBeforeMonth year month + (day - 1)) * 24 + hour) * 3600
    + minute * 60 + second

/-- The blob that stands for an absent result: length -1 and no payload. -/
def absentBlob : Value := { type := ValueType.VAL_BLOB, size := -1, data := none }

/-- The per-file retouch calls of a trace, in order: the base offset passed,
the override slot passed (`none` for `NULL`, else the value it holds), the
status returned and the value of `override_base` after the call. -/
def retouchCalls (evs : Trace) : List (Int × Option Int × Bool × Int) :=
  evs.filterMap fun e => match e with
    | Ev.retouch_one_library _ _ offset slot ret after => some (offset, slot, ret, after)
    | _ => none

/-- The entries of `retouch_entries` released in a trace, in order, each with
its index in the array. -/
def freedEntries (evs : Trace) : List (Nat × String) :=
  evs.filterMap fun e => match e with
    | Ev.free_entry i entry => some (i, entry)
    | _ => none

/-- The rule of the override slot in a retouch batch: each call gets the
shared base `base` and the override slot (holding `slot`), until a call
succeeds and leaves a nonzero value in the slot; every later call gets that
value as its base and no override slot. -/
def callsFollowOverride (base : Int) (slot : Int) :
    List (Int × Option Int × Bool × Int) → Bool
  | [] => true
  | c :: cs =>
    decide (c.1 = base) && decide (c.2.1 = some slot) &&
      (if c.2.2.1 = true ∧ c.2.2.2 ≠ 0 then
        cs.all fun d => decide (d.1 = c.2.2.2) && decide (d.2.1 = none)
      else callsFollowOverride base c.2.2.2 cs)

/-- The value `retouch_binaries` returns on failure: a string value with no
payload (`data = NULL`, `size = -1`). -/
def retouchFailure : Value := { type := ValueType.VAL_STRING, size := -1, data := none }

/-- The input paths handed to the per-file retouch in a trace, in order, each
with the status the call returned. -/
def retouchedInputs (evs : Trace) : List (String × Bool) :=
  evs.filterMap fun e => match e with
    | Ev.retouch_one_library input _ _ _ ret _ => some (input, ret)
    | _ => none

/-- How often the entry with index `k` is released in a trace. -/
def timesFreed (k : Nat) (evs : Trace) : Nat :=
  (freedEntries evs).countP fun p => decide (p.1 = k)

/-- Whether a value is a string that parses as a sha-1 equal to `digest`. -/
def matchesDigest (env : Env) (digest : List Nat) (v : Value) : Bool :=
  decide (v.type = ValueType.VAL_STRING) && decide ((env.ParseSha1 v.data).1 = 0)
    && decide (digestBytes (env.ParseSha1 v.data).2 = digest)

/-- The MTD write contexts opened in a trace, in order. -/
def openedContexts (evs : Trace) : List Nat :=
  evs.filterMap fun e => match e with
    | Ev.mtd_write_partition _ (some ctx) => some ctx
    | _ => none

/-- The MTD write contexts closed in a trace, in order. -/
def closedContexts (evs : Trace) : List Nat :=
  evs.filterMap fun e => match e with
    | Ev.mtd_write_close ctx _ => some ctx
    | _ => none

/-- The UBI control handles opened in a trace, in order. -/
def openedControls (evs : Trace) : List Nat :=
  evs.filterMap fun e => match e with
    | Ev.libubi_open (some lib) => some lib
    | _ => none

/-- The UBI control handles closed in a trace, in order. -/
def closedControls (evs : Trace) : List Nat :=
  evs.filterMap fun e => match e with
    | Ev.libubi_close lib => some lib
    | _ => none

/-- Every write context and every control handle opened in the trace is
closed in it, once: the handles closed are the handles opened, in the same
order. -/
def handlesReleased (evs : Trace) : Bool :=
  decide (closedContexts evs = openedContexts evs) &&
    decide (closedControls evs = openedControls evs)

/-- The segments of a text split at its newline characters, the empty ones
included: a text with `n` newlines has `n + 1` segments. -/
def splitAtNewlines : List Char → List (List Char)
  | [] => [[]]
  | c :: cs =>
    if c = '\n' then [] :: splitAtNewlines cs
    else
      match splitAtNewlines cs with
      | seg :: segs => (c :: seg) :: segs
      | [] => [[c]]

/-- The segments of a text split at its newline characters that are not
empty. -/
def linesOf (text : List Char) : List (List Char) :=
  (splitAtNewlines text).filter fun seg => decide (seg ≠ [])

/-- The lines written to the command pipe in a trace, in order. -/
def pipeLines (evs : Trace) : List String :=
  evs.filterMap fun e => match e with
    | Ev.cmd_pipe text => some text
    | _ => none

/-- The arguments of `ui_print` put together in order. -/
def concatenation (args : List String) : List Char :=
  (args.map String.data).flatten

/-- The text a file of `st_size` bytes leaves in the buffer of
`file_getprop`: the bytes read, up to the first zero byte. -/
def propFileText (bytes : String) (st_size : Int) : List Char :=
  (bytes.data.take st_size.toNat).takeWhile fun c => decide (c ≠ Char.ofNat 0)

/-- Whether a line is blank or a `#` comment: after the white space at its
start it is empty or starts with `#`. -/
def isBlankOrComment (line : List Char) : Bool :=
  decide (line.dropWhile isspace = []) || decide ((line.dropWhile isspace).head? = some '#')

/-- Whether a line is blank, a `#` comment or a `key=value` pair. -/
def wellFormedLine (line : List Char) : Bool :=
  isBlankOrComment line || line.contains '='

/-- The key of a `key=value` line: the text before the first `=`, without the
white space at the start of the line and without the white space before the
`=`. -/
def lineKey (line : List Char) : List Char :=
  ((line.dropWhile isspace).takeWhile fun c => decide (c ≠ '=')).rdropWhile isspace

/-- The value of a `key=value` line: the text after the first `=`, without
the white space at its start and at its end. -/
def lineValue (line : List Char) : List Char :=
  ((((line.dropWhile isspace).dropWhile fun c => decide (c ≠ '=')).drop 1).dropWhile
    isspace).rdropWhile isspace

/-- Whether a line is a `key=value` pair that defines the key `key`. -/
def definesKey (key : String) (line : List Char) : Bool :=
  !isBlankOrComment line && decide (lineKey line = key.data)

/-- The value of the first line that defines the key; the empty string when
no line defines it. -/
def lookupProp (key : String) (lines : List (List Char)) : String :=
  match lines.find? (definesKey key) with
  | some line => String.mk (lineValue line)
  | none => ""

/-- The calls of `unlink` and `dirUnlinkHierarchy` in a trace. -/
def removeCalls (evs : Trace) : List String :=
  evs.filterMap fun e => match e with
    | Ev.unlink path _ => some path
    | Ev.dirUnlinkHierarchy path _ => some path
    | _ => none

/-- The keys assigned to an entry of a key map: its slots other than the
filler `-1` of the unused slots. -/
def assignedKeys (item : KeyMapItem) : List Int :=
  item.key.filter fun slot => decide (slot ≠ -1)

/-- The action of the first entry that has the key code among its assigned
keys, searching the `num_keys` entries of the loaded device key map in order
and then the built-in mouse and touch map; `NO_ACTION` when no entry has
it. -/
def keyMapLookup (k : UiConstants) (num_keys : Int) (device_keys : List KeyMapItem)
    (key_code : Int) : Int :=
  match (device_keys.take num_keys.toNat ++ g_presupposed_keymap k).find?
      (fun item => decide (key_code ∈ assignedKeys item)) with
  | some item => item.value
  | none => k.NO_ACTION

/-- The action of the first entry that has an unused slot, a slot that holds
the filler `-1`, searching the `num_keys` entries of the loaded device key map
in order and then the built-in mouse and touch map. -/
def unusedSlotLookup (k : UiConstants) (num_keys : Int) (device_keys : List KeyMapItem) :
    Int :=
  match (device_keys.take num_keys.toNat ++ g_presupposed_keymap k).find?
      (fun item => decide ((-1 : Int) ∈ item.key)) with
  | some item => item.value
  | none => k.NO_ACTION

/-! ## Sample inputs -/

/-- A string literal of the script: it evaluates to itself and touches
nothing. -/
def strExpr (s : String) : Expr :=
  ⟨fun st t => ⟨StringValue (some s), st, t⟩⟩

/-- A device on which every lookup and every operation fails. -/
def deadEnv : Env where
  USE_EXT4 := true
  BUFSIZ := 4
  UBI_DEV_NUM_AUTO := -1
  UBI_VOL_NUM_AUTO := -1
  UBI_DYNAMIC_VOLUME := 3
  mtd_find_partition_by_name := fun _ _ => none
  mtd_get_index_by_name := fun _ _ => -1
  mtd_mount_partition := fun _ _ _ _ _ => -1
  mount := fun _ _ _ _ _ _ => -1
  mtd_write_partition := fun _ _ => none
  mtd_write_data := fun _ _ _ _ => -1
  mtd_erase_blocks := fun _ _ _ => -1
  mtd_write_close := fun _ _ => -1
  make_ext4fs := fun _ _ _ => -1
  libubi_open := fun _ => none
  ubi_get_info := fun _ _ => (-1, -1)
  ubi_attach := fun _ _ _ _ => (-1, -1)
  ubi_detach_mtd := fun _ _ _ _ => -1
  ubi_get_dev_info1 := fun _ _ _ => (-1, ⟨0, 0⟩)
  ubi_mkvol := fun _ _ _ _ => -1
  ubi_probe_node := fun _ _ _ => -1
  ubi_get_dev_info := fun _ _ _ => (-1, -1)
  ubi_get_vol_info := fun _ _ _ => (-1, -1)
  ubi_remove_dev := fun _ _ _ _ => -1
  find_mounted_volume_by_mount_point := fun _ _ => none
  get_filesystem_by_mounted_volume := fun _ _ => none
  get_device_by_mounted_volume := fun _ _ => none
  unmount_mounted_volume := fun _ _ => -1
  fopen := fun _ _ _ => none
  LONG_MAX := 2147483647
  SIZE_MAX := 4294967295
  MZ_EXTRACT_FILES_ONLY := 1
  package_zip := 11
  time := fun _ => 0
  retouch_one_library := fun _ _ _ _ slot => (false, slot.getD 0)
  applypatch := fun _ _ _ _ _ _ _ _ => 1
  CacheSizeCheck := fun _ _ => 1
  mzExtractRecursive := fun _ _ _ _ _ _ _ => false
  mzFindZipEntry := fun _ _ _ => none
  mzGetZipEntryUncompLen := fun _ _ => 0
  malloc := fun _ _ => false
  mzExtractZipEntryToBuffer := fun _ _ _ => (false, "")
  mzExtractZipEntryToFile := fun _ _ _ _ => false
  stat := fun _ _ => none
  strerror_errno := fun _ => "No such file or directory"
  unlink := fun _ _ => -1
  dirUnlinkHierarchy := fun _ _ => -1
  applypatch_check := fun _ _ _ _ => 1
  fw_setenv := fun _ _ _ => -1
  SHA := fun _ _ => []
  ParseSha1 := fun _ => (-1, [])

/-- A device on which every lookup and every operation succeeds.  The file
that `fopen` returns holds the eight bytes `abcdefgh`; with `BUFSIZ = 4` that
is two chunks.  The hash of a buffer is made of the codes of its first 20
characters, and a string parses as a hash when it is 40 hexadecimal digits. -/
def goodEnv : Env where
  USE_EXT4 := true
  BUFSIZ := 4
  UBI_DEV_NUM_AUTO := -1
  UBI_VOL_NUM_AUTO := -1
  UBI_DYNAMIC_VOLUME := 3
  mtd_find_partition_by_name := fun _ _ => some 1
  mtd_get_index_by_name := fun _ _ => 2
  mtd_mount_partition := fun _ _ _ _ _ => 0
  mount := fun _ _ _ _ _ _ => 0
  mtd_write_partition := fun _ _ => some 7
  mtd_write_data := fun _ _ _ len => len
  mtd_erase_blocks := fun _ _ _ => 0
  mtd_write_close := fun _ _ => 0
  make_ext4fs := fun _ _ _ => 0
  libubi_open := fun _ => some 5
  ubi_get_info := fun _ _ => (0, 10)
  ubi_attach := fun _ _ _ _ => (0, 0)
  ubi_detach_mtd := fun _ _ _ _ => 0
  ubi_get_dev_info1 := fun _ _ _ => (0, ⟨0, 4096⟩)
  ubi_mkvol := fun _ _ _ _ => 0
  ubi_probe_node := fun _ _ _ => 1
  ubi_get_dev_info := fun _ _ _ => (0, 0)
  ubi_get_vol_info := fun _ _ _ => (0, 0)
  ubi_remove_dev := fun _ _ _ _ => 0
  find_mounted_volume_by_mount_point := fun _ _ => some 9
  get_filesystem_by_mounted_volume := fun _ _ => some "ubifs"
  get_device_by_mounted_volume := fun _ _ => some "/dev/ubi0_0"
  unmount_mounted_volume := fun _ _ => 0
  fopen := fun _ _ _ => some (3, "abcdefgh")
  LONG_MAX := 2147483647
  SIZE_MAX := 4294967295
  MZ_EXTRACT_FILES_ONLY := 1
  package_zip := 11
  time := fun _ => 1300000000
  retouch_one_library := fun _ _ _ _ slot => (true, slot.getD 0)
  applypatch := fun _ _ _ _ _ _ _ _ => 0
  CacheSizeCheck := fun _ _ => 0
  mzExtractRecursive := fun _ _ _ _ _ _ _ => true
  mzFindZipEntry := fun _ _ _ => some 21
  mzGetZipEntryUncompLen := fun _ _ => 5
  malloc := fun _ _ => true
  mzExtractZipEntryToBuffer := fun _ _ _ => (true, "hello")
  mzExtractZipEntryToFile := fun _ _ _ _ => true
  stat := fun _ _ => some 8
  strerror_errno := fun _ => "Success"
  unlink := fun _ _ => 0
  dirUnlinkHierarchy := fun _ _ => 0
  applypatch_check := fun _ _ _ _ => 0
  fw_setenv := fun _ _ _ => 0
  SHA := fun data _ => (data.getD "").data.map Char.toNat
  ParseSha1 := fun str =>
    if ((str.getD "").data.length = 40 ∧ (str.getD "").data.all isHexDigit) then
      (0, decodeHex (str.getD "").data)
    else (-1, [])

/-- As `goodEnv`, but the kernel refuses every UBI attach. -/
def attachFailEnv : Env :=
  { goodEnv with ubi_attach := fun _ _ _ _ => (-1, -1) }

/-- As `goodEnv`, but the unmount primitive fails. -/
def unmountFailEnv : Env :=
  { goodEnv with unmount_mounted_volume := fun _ _ => -1 }

/-- As `goodEnv`, but the erase of the blocks fails. -/
def eraseFailEnv : Env :=
  { goodEnv with mtd_erase_blocks := fun _ _ _ => -1 }

/-- As `goodEnv`, but every data write accepts one byte less than asked. -/
def shortWriteEnv : Env :=
  { goodEnv with mtd_write_data := fun _ _ _ len => len - 1 }

/-- A device on which every retouch succeeds and, when given the override
slot, leaves `-8192` in it. -/
def overrideEnv : Env :=
  { goodEnv with
    retouch_one_library := fun _ _ _ _ slot => (true, if slot.isSome then -8192 else 0) }

/-- An expression that, if it were evaluated, would read the clock. -/
def clockExpr : Expr :=
  ⟨fun st t => ⟨StringValue (some "x"), st, t ++ [Ev.time 0]⟩⟩

/-- A blob of the script: it evaluates to a blob value with the bytes given
and touches nothing. -/
def blobExpr (bytes : String) : Expr :=
  ⟨fun st t =>
    ⟨some { type := ValueType.VAL_BLOB, size := (strlen bytes : Int), data := some bytes },
      st, t⟩⟩

/-- The arguments of an `apply_patch` call with two candidates. -/
def patchArgs : List Expr :=
  [strExpr "/system/app/A.apk", strExpr "-", strExpr "aa", strExpr "100",
    strExpr "h1", blobExpr "p1", strExpr "h2", blobExpr "p2"]


/-- An expression whose evaluation aborts: it returns `NULL` and records a
message. -/
def abortExpr : Expr :=
  ⟨fun st t => ⟨none, ErrorAbort st "abort() called", t⟩⟩

/-- As `goodEnv`, but no file exists. -/
def noFileEnv : Env :=
  { goodEnv with stat := fun _ _ => none, fopen := fun _ _ _ => none }

/-- Values for the constants of the key maps: the action codes of the stock
`recovery_ui.h`, the key codes of `linux/input.h`, and codes above the key
range for the virtual keys. -/
def sampleUi : UiConstants where
  NO_ACTION := -1
  SELECT_ITEM := -4
  HIGHLIGHT_DOWN := -3
  HIGHLIGHT_UP := -2
  KEY_ENTER := 28
  KEY_TAB := 15
  KEY_BACK := 158
  KEY_DOWN := 108
  KEY_VOLUMEDOWN := 114
  KEY_PAGEDOWN := 109
  KEY_UP := 103
  KEY_VOLUMEUP := 115
  KEY_PAGEUP := 104
  BTN_MOUSE := 272
  BTN_LEFT := 272
  BTN_RIGHT := 273
  VIRTUAL_KEY_MOUSE_DOWN := 1001
  VIRTUAL_KEY_MOUSE_WHEEL_DOWN := 1002
  VIRTUAL_KEY_TOUCH_DOWN := 1003
  VIRTUAL_KEY_MOUSE_UP := 1004
  VIRTUAL_KEY_MOUSE_WHEEL_UP := 1005
  VIRTUAL_KEY_TOUCH_UP := 1006

/-- A device on which the file that is read holds the text `content`. -/
def propFileEnv (content : String) : Env :=
  { goodEnv with
    stat := fun _ _ => some (content.length : Int)
    fopen := fun _ _ _ => some (3, content) }

/-! # Theorems -/

/-! ## Basic facts -/

theorem strlen_eq_zero_iff (s : String) : strlen s = 0 ↔ s = "" := by
  cases s with
  | mk l =>
    constructor
    · intro h
      have hl : l = [] := List.length_eq_zero.mp h
      subst hl
      rfl
    · intro h
      rw [h]
      rfl

/-- C1: when the four arguments of `mount` evaluate and one of them is empty,
`mount` returns `NULL`, records the message naming the first empty argument,
and the trace is the one left by the evaluation of the arguments: no mount
point is created, no MTD rescan, no UBI attach and no mount call is made,
whatever `partition_type` is. -/
theorem MountFn_empty_argument_aborts (env : Env) (name : String) (state : State)
    (argv : List Expr) (t : Trace) (fs_type partition_type location mount_point : String)
    (st : State) (tr : Trace) (hlen : argv.length = 4)
    (hargs : ReadArgs state t (argv.take 4)
      = (some [fs_type, partition_type, location, mount_point], st, tr))
    (hempty : fs_type = "" ∨ partition_type = "" ∨ location = "" ∨ mount_point = "") :
    MountFn env name state argv t
      = ⟨none, ErrorAbort st (firstEmptyMountArg fs_type partition_type location
          ++ " argument to " ++ name ++ "() can't be empty"), tr⟩ := by
  simp only [MountFn, hlen, hargs, strlen_eq_zero_iff, firstEmptyMountArg, StringValue]
  by_cases h1 : fs_type = ""
  · simp [h1]
  · by_cases h2 : partition_type = ""
    · simp [h1, h2]
    · by_cases h3 : location = ""
      · simp [h1, h2, h3]
      · have h4 : mount_point = "" := by
          rcases hempty with h | h | h | h
          · exact absurd h h1
          · exact absurd h h2
          · exact absurd h h3
          · exact h
        simp [h1, h2, h3, h4]

/-- Witness of C1: `mount("ubifs", "", "system", "/system")`. -/
theorem MountFn_empty_argument_aborts_witness :
    MountFn deadEnv "mount" ⟨none⟩
        [strExpr "ubifs", strExpr "", strExpr "system", strExpr "/system"] []
      = ⟨none, ⟨some "partition_type argument to mount() can't be empty"⟩, []⟩ :=
  MountFn_empty_argument_aborts deadEnv "mount" ⟨none⟩
    [strExpr "ubifs", strExpr "", strExpr "system", strExpr "/system"] []
    "ubifs" "" "system" "/system" ⟨none⟩ [] rfl rfl (Or.inr (Or.inl rfl))

/-- C2: with four non-empty arguments `mount` does not abort (it returns a
value and records no message); the value is the string `mount_point` when
the strategy selected by `partition_type` succeeded and the empty string in
every other case. -/
theorem MountFn_result (env : Env) (name : String) (state : State)
    (argv : List Expr) (t : Trace) (fs_type partition_type location mount_point : String)
    (st : State) (tr : Trace) (hlen : argv.length = 4)
    (hargs : ReadArgs state t (argv.take 4)
      = (some [fs_type, partition_type, location, mount_point], st, tr))
    (h1 : fs_type ≠ "") (h2 : partition_type ≠ "") (h3 : location ≠ "")
    (h4 : mount_point ≠ "") :
    (MountFn env name state argv t).state = st ∧
    (MountFn env name state argv t).value
      = StringValue (some
          (if mountStrategySucceeds env (tr ++ [Ev.mkdir mount_point 0o755])
              fs_type partition_type location mount_point
           then mount_point else "")) := by
  simp only [MountFn, hlen, hargs, strlen_eq_zero_iff, mountStrategySucceeds, h1, h2, h3, h4,
    List.append_assoc, List.singleton_append]
  by_cases hm : partition_type = "MTD"
  · simp only [hm]
    cases hf : env.mtd_find_partition_by_name
        (tr ++ [Ev.mkdir mount_point 0o755, Ev.mtd_scan_partitions]) location with
    | none => simp
    | some m =>
      by_cases hr : env.mtd_mount_partition
          (tr ++ [Ev.mkdir mount_point 0o755, Ev.mtd_scan_partitions,
            Ev.mtd_find_partition_by_name location (some m)]) m mount_point fs_type 0 = 0
      · simp [hr]
      · simp [hr]
  · by_cases hu : partition_type = "UBI"
    · simp only [hu]
      rcases hatt : UbiAttach env (tr ++ [Ev.mkdir mount_point 0o755]) location ""
        with ⟨ret, node, t2⟩
      by_cases hret : ret = 0
      · by_cases hr : 0 ≤ env.mount t2 node mount_point fs_type mountFlags ""
        · simp [hret, hr, not_lt.mpr hr]
        · simp [hret, hr, not_le.mp hr]
      · simp [hret]
    · simp only [hm, hu]
      by_cases hr : 0 ≤ env.mount (tr ++ [Ev.mkdir mount_point 0o755]) location mount_point
          fs_type mountFlags ""
      · simp [hr, not_lt.mpr hr]
      · simp [hr, not_le.mp hr]

/-- Witness of C2: `mount("ext4", "EMMC", "/dev/block/system", "/system")` on
a device where the block device does not exist (the mount fails): the result
is the empty string and nothing is recorded as an abort. -/
theorem MountFn_result_witness :
    (MountFn deadEnv "mount" ⟨none⟩
        [strExpr "ext4", strExpr "EMMC", strExpr "/dev/block/system", strExpr "/system"]
        []).state = ⟨none⟩ ∧
    (MountFn deadEnv "mount" ⟨none⟩
        [strExpr "ext4", strExpr "EMMC", strExpr "/dev/block/system", strExpr "/system"]
        []).value = some ⟨ValueType.VAL_STRING, 0, some ""⟩ :=
  MountFn_result deadEnv "mount" ⟨none⟩
    [strExpr "ext4", strExpr "EMMC", strExpr "/dev/block/system", strExpr "/system"] []
    "ext4" "EMMC" "/dev/block/system" "/system" ⟨none⟩ [] rfl rfl
    (by decide) (by decide) (by decide) (by decide)

/-! ## The UBI format routine -/

/-- The six ways a run of `UbiFormat` can go, with the events of each. -/
theorem UbiFormat_cases (env : Env) (t : Trace) (type : Int) (location : String) :
    (∃ mtdn, mtdn < 0 ∧ UbiFormat env t type location
        = (-1, t ++ [Ev.mtd_scan_partitions, Ev.mtd_get_index_by_name location mtdn]))
    ∨ (∃ mtdn, 0 ≤ mtdn ∧ UbiFormat env t type location
        = (-1, t ++ [Ev.mtd_scan_partitions, Ev.mtd_get_index_by_name location mtdn,
            Ev.libubi_open none]))
    ∨ (∃ mtdn lib ret cm, 0 ≤ mtdn ∧ (ret ≠ 0 ∨ cm = -1) ∧ UbiFormat env t type location
        = (-1, t ++ [Ev.mtd_scan_partitions, Ev.mtd_get_index_by_name location mtdn,
            Ev.libubi_open (some lib), Ev.ubi_get_info lib ret cm, Ev.libubi_close lib]))
    ∨ (∃ mtdn lib cm d0 ret dn, 0 ≤ mtdn ∧ cm ≠ -1 ∧ ret ≠ 0 ∧ UbiFormat env t type location
        = (-1, t ++ [Ev.mtd_scan_partitions, Ev.mtd_get_index_by_name location mtdn,
            Ev.libubi_open (some lib), Ev.ubi_get_info lib 0 cm,
            Ev.ubi_detach_mtd lib DEFAULT_CTRL_DEV mtdn d0,
            Ev.ubi_attach lib DEFAULT_CTRL_DEV ⟨env.UBI_DEV_NUM_AUTO, mtdn, 0, none⟩ ret dn,
            Ev.libubi_close lib]))
    ∨ (∃ mtdn lib cm d0 dn ret info d1, 0 ≤ mtdn ∧ cm ≠ -1 ∧ ret ≠ 0 ∧
        UbiFormat env t type location
        = (-1, t ++ [Ev.mtd_scan_partitions, Ev.mtd_get_index_by_name location mtdn,
            Ev.libubi_open (some lib), Ev.ubi_get_info lib 0 cm,
            Ev.ubi_detach_mtd lib DEFAULT_CTRL_DEV mtdn d0,
            Ev.ubi_attach lib DEFAULT_CTRL_DEV ⟨env.UBI_DEV_NUM_AUTO, mtdn, 0, none⟩ 0 dn,
            Ev.ubi_get_dev_info1 lib dn ret info,
            Ev.ubi_detach_mtd lib DEFAULT_CTRL_DEV mtdn d1,
            Ev.libubi_close lib]))
    ∨ (∃ mtdn lib cm d0 dn info err d1, 0 ≤ mtdn ∧ cm ≠ -1 ∧
        UbiFormat env t type location
        = ((if err < 0 then -1 else 0),
            t ++ [Ev.mtd_scan_partitions, Ev.mtd_get_index_by_name location mtdn,
            Ev.libubi_open (some lib), Ev.ubi_get_info lib 0 cm,
            Ev.ubi_detach_mtd lib DEFAULT_CTRL_DEV mtdn d0,
            Ev.ubi_attach lib DEFAULT_CTRL_DEV ⟨env.UBI_DEV_NUM_AUTO, mtdn, 0, none⟩ 0 dn,
            Ev.ubi_get_dev_info1 lib dn 0 info,
            Ev.ubi_mkvol lib ("/dev/ubi" ++ toString info.dev_num)
              ⟨env.UBI_VOL_NUM_AUTO, 1, info.avail_bytes, location, type⟩ err,
            Ev.ubi_detach_mtd lib DEFAULT_CTRL_DEV mtdn d1,
            Ev.libubi_close lib])) := by
  unfold UbiFormat
  simp only []
  generalize env.mtd_get_index_by_name _ _ = mtdn
  by_cases h1 : mtdn < 0
  · left
    exact ⟨mtdn, h1, by simp [h1]⟩
  · right
    have h1' : 0 ≤ mtdn := not_lt.mp h1
    simp only [h1, if_false]
    generalize env.libubi_open _ = libubi
    cases libubi with
    | none =>
      left
      exact ⟨mtdn, h1', by simp⟩
    | some lib =>
      right
      simp only []
      generalize env.ubi_get_info _ _ = info
      rcases info with ⟨ret, cm⟩
      simp only []
      by_cases h2 : ret ≠ 0
      · left
        exact ⟨mtdn, lib, ret, cm, h1', Or.inl h2, by simp [h2]⟩
      · have h2' : ret = 0 := not_not.mp h2
        subst h2'
        by_cases h3 : cm = -1
        · left
          exact ⟨mtdn, lib, 0, cm, h1', Or.inr h3, by simp [h3]⟩
        · right
          simp only [h3, if_false, ne_eq, not_true_eq_false]
          generalize env.ubi_detach_mtd _ _ _ _ = d0
          generalize env.ubi_attach _ _ _ _ = att
          rcases att with ⟨ret, dn⟩
          simp only []
          by_cases h4 : ret = 0
          · right
            subst h4
            simp only [if_false, not_true_eq_false]
            generalize env.ubi_get_dev_info1 _ _ _ = di
            rcases di with ⟨ret, info⟩
            simp only []
            by_cases h5 : ret = 0
            · right
              subst h5
              simp only [if_false, not_true_eq_false]
              generalize env.ubi_mkvol _ _ _ _ = err
              generalize env.ubi_detach_mtd _ _ _ _ = d1
              refine ⟨mtdn, lib, cm, d0, dn, info, err, d1, h1', h3, ?_⟩
              by_cases h6 : err < 0
              · simp [h6]
              · simp [h6]
            · left
              simp only [h5, if_true, not_false_eq_true]
              generalize env.ubi_detach_mtd _ _ _ _ = d1
              exact ⟨mtdn, lib, cm, d0, dn, ret, info, d1, h1', h3, h5, by simp⟩
          · left
            exact ⟨mtdn, lib, cm, d0, ret, dn, h1', h3, h4, by simp [h4]⟩

/-- `UbiFormat` only appends to the trace. -/
theorem UbiFormat_trace (env : Env) (t : Trace) (type : Int) (location : String) :
    (UbiFormat env t type location).2
      = t ++ eventsSince t (UbiFormat env t type location).2 := by
  rcases UbiFormat_cases env t type location with
    ⟨mtdn, h1, h⟩ | ⟨mtdn, h1, h⟩ | ⟨mtdn, lib, ret, cm, h1, h2, h⟩
    | ⟨mtdn, lib, cm, d0, ret, dn, h1, h2, h3, h⟩
    | ⟨mtdn, lib, cm, d0, dn, ret, info, d1, h1, h2, h3, h⟩
    | ⟨mtdn, lib, cm, d0, dn, info, err, d1, h1, h2, h⟩
  all_goals simp [h, eventsSince]

/-- `UbiFormat` returns 0 or -1, and 0 exactly when every step succeeded. -/
theorem UbiFormat_ret (env : Env) (t : Trace) (type : Int) (location : String) :
    ((UbiFormat env t type location).1 = 0 ∨ (UbiFormat env t type location).1 = -1) ∧
    ((UbiFormat env t type location).1 = 0
      ↔ ubiFormatSucceeded (eventsSince t (UbiFormat env t type location).2) = true) := by
  rcases UbiFormat_cases env t type location with
    ⟨mtdn, h1, h⟩ | ⟨mtdn, h1, h⟩ | ⟨mtdn, lib, ret, cm, h1, h2, h⟩
    | ⟨mtdn, lib, cm, d0, ret, dn, h1, h2, h3, h⟩
    | ⟨mtdn, lib, cm, d0, dn, ret, info, d1, h1, h2, h3, h⟩
    | ⟨mtdn, lib, cm, d0, dn, info, err, d1, h1, h2, h⟩
  · simp [h, eventsSince, ubiFormatSucceeded, indexResolved, h1]
  · simp [h, eventsSince, ubiFormatSucceeded, ubiOpened]
  · rcases h2 with h2 | h2 <;>
      simp [h, eventsSince, ubiFormatSucceeded, ubiCapable, h2]
  · simp [h, eventsSince, ubiFormatSucceeded, attachOk, h3]
  · simp [h, eventsSince, ubiFormatSucceeded, devInfoOk, h3]
  · by_cases h6 : err < 0
    · simp [h, eventsSince, ubiFormatSucceeded, mkvolOk, h6]
    · simp [h, eventsSince, ubiFormatSucceeded, indexResolved, ubiOpened, ubiCapable,
        attachOk, devInfoOk, mkvolOk, h6, h1, h2, not_lt.mp h6]

/-- C4: `UbiFormat` reports success (returns 0, otherwise -1) if and only if
the MTD index was resolved, the control interface was opened and is capable,
the attach succeeded, the device-info query succeeded and the volume creation
returned a non-negative status.  The results of the detach calls do not
enter: the same verdict is read from the events with every detach result
blanked.  Once the attach has succeeded, the run ends with a detach of the
MTD index that was attached, followed by the close of the control handle,
whatever the volume creation returned. -/
theorem UbiFormat_success_iff (env : Env) (t : Trace) (type : Int) (location : String) :
    ((UbiFormat env t type location).1 = 0 ∨ (UbiFormat env t type location).1 = -1) ∧
    ((UbiFormat env t type location).1 = 0 ↔
      (indexResolved (eventsSince t (UbiFormat env t type location).2) = true ∧
       ubiOpened (eventsSince t (UbiFormat env t type location).2) = true ∧
       ubiCapable (eventsSince t (UbiFormat env t type location).2) = true ∧
       attachOk (eventsSince t (UbiFormat env t type location).2) = true ∧
       devInfoOk (eventsSince t (UbiFormat env t type location).2) = true ∧
       mkvolOk (eventsSince t (UbiFormat env t type location).2) = true)) ∧
    ((UbiFormat env t type location).1 = 0 ↔
      ubiFormatSucceeded
        ((eventsSince t (UbiFormat env t type location).2).map forgetDetachResult) = true) ∧
    (attachOk (eventsSince t (UbiFormat env t type location).2) = true →
      ∃ pre lib mtdn dn d1,
        eventsSince t (UbiFormat env t type location).2
          = pre ++ [Ev.ubi_detach_mtd lib DEFAULT_CTRL_DEV mtdn d1, Ev.libubi_close lib] ∧
        Ev.ubi_attach lib DEFAULT_CTRL_DEV ⟨env.UBI_DEV_NUM_AUTO, mtdn, 0, none⟩ 0 dn ∈ pre) := by
  rcases UbiFormat_cases env t type location with
    ⟨mtdn, h1, h⟩ | ⟨mtdn, h1, h⟩ | ⟨mtdn, lib, ret, cm, h1, h2, h⟩
    | ⟨mtdn, lib, cm, d0, ret, dn, h1, h2, h3, h⟩
    | ⟨mtdn, lib, cm, d0, dn, ret, info, d1, h1, h2, h3, h⟩
    | ⟨mtdn, lib, cm, d0, dn, info, err, d1, h1, h2, h⟩
  · simp [h, eventsSince, ubiFormatSucceeded, indexResolved, attachOk, forgetDetachResult, h1]
  · simp [h, eventsSince, ubiFormatSucceeded, ubiOpened, attachOk, forgetDetachResult]
  · rcases h2 with h2 | h2 <;>
      simp [h, eventsSince, ubiFormatSucceeded, ubiCapable, attachOk, forgetDetachResult, h2]
  · simp [h, eventsSince, ubiFormatSucceeded, attachOk, forgetDetachResult, h3]
  · refine ⟨?_, ?_, ?_, ?_⟩
    · simp [h]
    · simp [h, eventsSince, devInfoOk, h3]
    · simp [h, eventsSince, ubiFormatSucceeded, devInfoOk, forgetDetachResult, h3]
    · intro _
      refine ⟨[Ev.mtd_scan_partitions, Ev.mtd_get_index_by_name location mtdn,
          Ev.libubi_open (some lib), Ev.ubi_get_info lib 0 cm,
          Ev.ubi_detach_mtd lib DEFAULT_CTRL_DEV mtdn d0,
          Ev.ubi_attach lib DEFAULT_CTRL_DEV ⟨env.UBI_DEV_NUM_AUTO, mtdn, 0, none⟩ 0 dn,
          Ev.ubi_get_dev_info1 lib dn ret info], lib, mtdn, dn, d1, ?_, ?_⟩
      · simp [h, eventsSince]
      · simp
  · refine ⟨?_, ?_, ?_, ?_⟩
    · by_cases h6 : err < 0 <;> simp [h, h6]
    · by_cases h6 : err < 0
      · simp [h, eventsSince, mkvolOk, h6]
      · simp [h, eventsSince, indexResolved, ubiOpened, ubiCapable,
          attachOk, devInfoOk, mkvolOk, h6, h1, h2, not_lt.mp h6]
    · by_cases h6 : err < 0
      · simp [h, eventsSince, ubiFormatSucceeded, mkvolOk, forgetDetachResult, h6]
      · simp [h, eventsSince, ubiFormatSucceeded, indexResolved, ubiOpened, ubiCapable,
          attachOk, devInfoOk, mkvolOk, forgetDetachResult, h6, h1, h2, not_lt.mp h6]
    · intro _
      refine ⟨[Ev.mtd_scan_partitions, Ev.mtd_get_index_by_name location mtdn,
          Ev.libubi_open (some lib), Ev.ubi_get_info lib 0 cm,
          Ev.ubi_detach_mtd lib DEFAULT_CTRL_DEV mtdn d0,
          Ev.ubi_attach lib DEFAULT_CTRL_DEV ⟨env.UBI_DEV_NUM_AUTO, mtdn, 0, none⟩ 0 dn,
          Ev.ubi_get_dev_info1 lib dn 0 info,
          Ev.ubi_mkvol lib ("/dev/ubi" ++ toString info.dev_num)
              ⟨env.UBI_VOL_NUM_AUTO, 1, info.avail_bytes, location, type⟩ err],
          lib, mtdn, dn, d1, ?_, ?_⟩
      · simp [h, eventsSince]
      · simp

/-- The UBI control operations of a run of `UbiFormat` that got past the
capability check. -/
theorem UbiFormat_ubiOps (env : Env) (t : Trace) (type : Int) (location : String)
    (hcap : ubiCapable (eventsSince t (UbiFormat env t type location).2) = true) :
    ubiOps (eventsSince t (UbiFormat env t type location).2)
      = [UbiOp.detach, UbiOp.attach]
        ++ (if attachOk (eventsSince t (UbiFormat env t type location).2) = true then
              (if devInfoOk (eventsSince t (UbiFormat env t type location).2) = true
                then [UbiOp.mkvol] else []) ++ [UbiOp.detach]
            else []) := by
  rcases UbiFormat_cases env t type location with
    ⟨mtdn, h1, h⟩ | ⟨mtdn, h1, h⟩ | ⟨mtdn, lib, ret, cm, h1, h2, h⟩
    | ⟨mtdn, lib, cm, d0, ret, dn, h1, h2, h3, h⟩
    | ⟨mtdn, lib, cm, d0, dn, ret, info, d1, h1, h2, h3, h⟩
    | ⟨mtdn, lib, cm, d0, dn, info, err, d1, h1, h2, h⟩
  · simp [h, eventsSince, ubiCapable] at hcap
  · simp [h, eventsSince, ubiCapable] at hcap
  · rcases h2 with h2 | h2 <;> simp [h, eventsSince, ubiCapable, h2] at hcap
  · simp [h, eventsSince, ubiOps, ubiOpOf, attachOk, h3]
  · simp [h, eventsSince, ubiOps, ubiOpOf, attachOk, devInfoOk, h3]
  · simp [h, eventsSince, ubiOps, ubiOpOf, attachOk, devInfoOk]

/-- `UbiFormat` looks up no partition by name and touches no write context. -/
theorem UbiFormat_no_mtd_write (env : Env) (t : Trace) (type : Int) (location : String) :
    partitionResolved (eventsSince t (UbiFormat env t type location).2) = false ∧
    contextOpened (eventsSince t (UbiFormat env t type location).2) = false ∧
    eraseFailed (eventsSince t (UbiFormat env t type location).2) = false ∧
    closeFailed (eventsSince t (UbiFormat env t type location).2) = false := by
  rcases UbiFormat_cases env t type location with
    ⟨mtdn, h1, h⟩ | ⟨mtdn, h1, h⟩ | ⟨mtdn, lib, ret, cm, h1, h2, h⟩
    | ⟨mtdn, lib, cm, d0, ret, dn, h1, h2, h3, h⟩
    | ⟨mtdn, lib, cm, d0, dn, ret, info, d1, h1, h2, h3, h⟩
    | ⟨mtdn, lib, cm, d0, dn, info, err, d1, h1, h2, h⟩
  all_goals simp [h, eventsSince, partitionResolved, contextOpened, eraseFailed, closeFailed]

/-! ## `format` on MTD and UBI partitions -/

/-- The ways a `format` of an MTD or UBI partition can go, with the events and
the result of each. -/
theorem FormatFn_flash_cases (env : Env) (name : String) (state : State)
    (argv : List Expr) (t : Trace) (fs_type partition_type location fs_size : String)
    (st : State) (tr : Trace) (hlen : argv.length = 4)
    (hargs : ReadArgs state t (argv.take 4)
      = (some [fs_type, partition_type, location, fs_size], st, tr))
    (h1 : fs_type ≠ "") (h3 : location ≠ "")
    (hpt : partition_type = "MTD" ∨ partition_type = "UBI") :
    (FormatFn env name state argv t = ⟨StringValue (some ""), st,
        tr ++ [Ev.mtd_scan_partitions, Ev.mtd_find_partition_by_name location none]⟩)
    ∨ (∃ m, FormatFn env name state argv t = ⟨StringValue (some ""), st,
        tr ++ [Ev.mtd_scan_partitions, Ev.mtd_find_partition_by_name location (some m),
          Ev.mtd_write_partition m none]⟩)
    ∨ (∃ m c cl, FormatFn env name state argv t = ⟨StringValue (some ""), st,
        tr ++ [Ev.mtd_scan_partitions, Ev.mtd_find_partition_by_name location (some m),
          Ev.mtd_write_partition m (some c), Ev.mtd_erase_blocks c (-1) (-1),
          Ev.mtd_write_close c cl]⟩)
    ∨ (∃ m c e cl, e ≠ -1 ∧ cl ≠ 0 ∧
        FormatFn env name state argv t = ⟨StringValue (some ""), st,
        tr ++ [Ev.mtd_scan_partitions, Ev.mtd_find_partition_by_name location (some m),
          Ev.mtd_write_partition m (some c), Ev.mtd_erase_blocks c (-1) e,
          Ev.mtd_write_close c cl]⟩)
    ∨ (∃ m c e, e ≠ -1 ∧ partition_type ≠ "UBI" ∧
        FormatFn env name state argv t = ⟨StringValue (some location), st,
        tr ++ [Ev.mtd_scan_partitions, Ev.mtd_find_partition_by_name location (some m),
          Ev.mtd_write_partition m (some c), Ev.mtd_erase_blocks c (-1) e,
          Ev.mtd_write_close c 0]⟩)
    ∨ (∃ m c e, e ≠ -1 ∧ partition_type = "UBI" ∧
        FormatFn env name state argv t
          = ⟨StringValue (some
              (if (UbiFormat env
                    (tr ++ [Ev.mtd_scan_partitions,
                      Ev.mtd_find_partition_by_name location (some m),
                      Ev.mtd_write_partition m (some c), Ev.mtd_erase_blocks c (-1) e,
                      Ev.mtd_write_close c 0])
                    env.UBI_DYNAMIC_VOLUME location).1 = 0 then location else "")), st,
            (UbiFormat env
                (tr ++ [Ev.mtd_scan_partitions,
                  Ev.mtd_find_partition_by_name location (some m),
                  Ev.mtd_write_partition m (some c), Ev.mtd_erase_blocks c (-1) e,
                  Ev.mtd_write_close c 0])
                env.UBI_DYNAMIC_VOLUME location).2⟩) := by
  have h2 : partition_type ≠ "" := by
    rcases hpt with h | h <;> simp [h]
  simp only [FormatFn, hlen, hargs, strlen_eq_zero_iff, h1, h2, h3, hpt, if_true, if_false,
    Nat.cast_ofNat, ne_eq, not_true_eq_false]
  generalize env.mtd_find_partition_by_name _ _ = mtd
  cases mtd with
  | none => left; simp
  | some m =>
    right
    simp only []
    generalize env.mtd_write_partition _ _ = ctx
    cases ctx with
    | none => left; exact ⟨m, by simp⟩
    | some c =>
      right
      simp only []
      generalize env.mtd_erase_blocks _ _ _ = e
      by_cases he : e = -1
      · left
        subst he
        simp only [if_true]
        generalize env.mtd_write_close _ _ = cl
        exact ⟨m, c, cl, by simp⟩
      · right
        simp only [he, if_false]
        generalize env.mtd_write_close _ _ = cl
        by_cases hc : cl = 0
        · right
          subst hc
          simp only [if_false, not_true_eq_false]
          by_cases hu : partition_type = "UBI"
          · right
            refine ⟨m, c, e, he, hu, ?_⟩
            simp only [hu, if_true, List.append_assoc, List.singleton_append, List.cons_append,
              List.nil_append]
            split <;> simp
          · left
            exact ⟨m, c, e, he, hu, by simp [hu]⟩
        · left
          exact ⟨m, c, e, cl, he, hc, by simp [hc]⟩

/-- The four raw steps of `format` succeeded and what follows neither erases
nor closes: the verdict is that of the UBI part. -/
theorem formatSucceeded_raw_prefix (m c : Nat) (e : Int) (location : String) (E : Trace)
    (he : e ≠ -1) (h1 : eraseFailed E = false) (h2 : closeFailed E = false) :
    formatSucceeded "UBI"
      ([Ev.mtd_scan_partitions, Ev.mtd_find_partition_by_name location (some m),
        Ev.mtd_write_partition m (some c), Ev.mtd_erase_blocks c (-1) e,
        Ev.mtd_write_close c 0] ++ E) = ubiFormatSucceeded E := by
  unfold eraseFailed at h1
  unfold closeFailed at h2
  simp only [formatSucceeded, ubiFormatSucceeded, partitionResolved, contextOpened, eraseFailed,
    closeFailed, indexResolved, ubiOpened, ubiCapable, attachOk, devInfoOk, mkvolOk,
    List.any_append, List.any_cons, List.any_nil, h1, h2, he]
  simp

/-- The flags of a trace that starts with the four successful raw steps of
`format`, when what follows neither erases nor closes. -/
theorem rawFormat_prefix_flags (m c : Nat) (e : Int) (location : String) (E : Trace)
    (he : e ≠ -1) (h1 : eraseFailed E = false) (h2 : closeFailed E = false) :
    partitionResolved
      ([Ev.mtd_scan_partitions, Ev.mtd_find_partition_by_name location (some m),
        Ev.mtd_write_partition m (some c), Ev.mtd_erase_blocks c (-1) e,
        Ev.mtd_write_close c 0] ++ E) = true ∧
    contextOpened
      ([Ev.mtd_scan_partitions, Ev.mtd_find_partition_by_name location (some m),
        Ev.mtd_write_partition m (some c), Ev.mtd_erase_blocks c (-1) e,
        Ev.mtd_write_close c 0] ++ E) = true ∧
    eraseFailed
      ([Ev.mtd_scan_partitions, Ev.mtd_find_partition_by_name location (some m),
        Ev.mtd_write_partition m (some c), Ev.mtd_erase_blocks c (-1) e,
        Ev.mtd_write_close c 0] ++ E) = false ∧
    closeFailed
      ([Ev.mtd_scan_partitions, Ev.mtd_find_partition_by_name location (some m),
        Ev.mtd_write_partition m (some c), Ev.mtd_erase_blocks c (-1) e,
        Ev.mtd_write_close c 0] ++ E) = false := by
  unfold eraseFailed at h1
  unfold closeFailed at h2
  simp only [partitionResolved, contextOpened, eraseFailed, closeFailed,
    List.any_append, List.any_cons, List.any_nil, h1, h2, he]
  simp

/-- C5: a `format` of an MTD or UBI partition with non-empty `fs_type`,
`partition_type` and `location` does not abort; it returns `location` if
every step succeeded and the empty string otherwise; and a failed step is the
last one run, except that the write context is still closed after a failed
erase. -/
theorem FormatFn_mtd_ubi (env : Env) (name : String) (state : State)
    (argv : List Expr) (t : Trace) (fs_type partition_type location fs_size : String)
    (st : State) (tr : Trace) (hlen : argv.length = 4)
    (hargs : ReadArgs state t (argv.take 4)
      = (some [fs_type, partition_type, location, fs_size], st, tr))
    (h1 : fs_type ≠ "") (h3 : location ≠ "")
    (hpt : partition_type = "MTD" ∨ partition_type = "UBI") :
    (FormatFn env name state argv t).state = st ∧
    (FormatFn env name state argv t).value
      = StringValue (some
          (if formatSucceeded partition_type
                (eventsSince tr (FormatFn env name state argv t).trace) = true
           then location else "")) ∧
    (partitionResolved (eventsSince tr (FormatFn env name state argv t).trace) = false →
      eventsSince tr (FormatFn env name state argv t).trace
        = [Ev.mtd_scan_partitions, Ev.mtd_find_partition_by_name location none]) ∧
    (partitionResolved (eventsSince tr (FormatFn env name state argv t).trace) = true →
      contextOpened (eventsSince tr (FormatFn env name state argv t).trace) = false →
      ∃ m, eventsSince tr (FormatFn env name state argv t).trace
        = [Ev.mtd_scan_partitions, Ev.mtd_find_partition_by_name location (some m),
            Ev.mtd_write_partition m none]) ∧
    (eraseFailed (eventsSince tr (FormatFn env name state argv t).trace) = true →
      ∃ m c cl, eventsSince tr (FormatFn env name state argv t).trace
        = [Ev.mtd_scan_partitions, Ev.mtd_find_partition_by_name location (some m),
            Ev.mtd_write_partition m (some c), Ev.mtd_erase_blocks c (-1) (-1),
            Ev.mtd_write_close c cl]) ∧
    (eraseFailed (eventsSince tr (FormatFn env name state argv t).trace) = false →
      closeFailed (eventsSince tr (FormatFn env name state argv t).trace) = true →
      ∃ m c e cl, eventsSince tr (FormatFn env name state argv t).trace
        = [Ev.mtd_scan_partitions, Ev.mtd_find_partition_by_name location (some m),
            Ev.mtd_write_partition m (some c), Ev.mtd_erase_blocks c (-1) e,
            Ev.mtd_write_close c cl]) := by
  rcases FormatFn_flash_cases env name state argv t fs_type partition_type location fs_size
      st tr hlen hargs h1 h3 hpt with
    h | ⟨m, h⟩ | ⟨m, c, cl, h⟩ | ⟨m, c, e, cl, he, hc, h⟩ | ⟨m, c, e, he, hu, h⟩
    | ⟨m, c, e, he, hu, h⟩
  · simp [h, eventsSince, formatSucceeded, partitionResolved, contextOpened, eraseFailed,
      closeFailed]
  · simp [h, eventsSince, formatSucceeded, partitionResolved, contextOpened, eraseFailed,
      closeFailed]
  · simp [h, eventsSince, formatSucceeded, partitionResolved, contextOpened, eraseFailed,
      closeFailed]
  · simp [h, eventsSince, formatSucceeded, partitionResolved, contextOpened, eraseFailed,
      closeFailed, he, hc]
  · simp [h, eventsSince, formatSucceeded, partitionResolved, contextOpened, eraseFailed,
      closeFailed, he, hu]
  · have ht := UbiFormat_trace env
      (tr ++ [Ev.mtd_scan_partitions, Ev.mtd_find_partition_by_name location (some m),
        Ev.mtd_write_partition m (some c), Ev.mtd_erase_blocks c (-1) e,
        Ev.mtd_write_close c 0]) env.UBI_DYNAMIC_VOLUME location
    have hr := (UbiFormat_ret env
      (tr ++ [Ev.mtd_scan_partitions, Ev.mtd_find_partition_by_name location (some m),
        Ev.mtd_write_partition m (some c), Ev.mtd_erase_blocks c (-1) e,
        Ev.mtd_write_close c 0]) env.UBI_DYNAMIC_VOLUME location).2
    have hn := UbiFormat_no_mtd_write env
      (tr ++ [Ev.mtd_scan_partitions, Ev.mtd_find_partition_by_name location (some m),
        Ev.mtd_write_partition m (some c), Ev.mtd_erase_blocks c (-1) e,
        Ev.mtd_write_close c 0]) env.UBI_DYNAMIC_VOLUME location
    rw [h]
    generalize eventsSince _ (UbiFormat env _ env.UBI_DYNAMIC_VOLUME location).2 = E
      at ht hr hn
    have hs := formatSucceeded_raw_prefix m c e location E he hn.2.2.1 hn.2.2.2
    have hp := rawFormat_prefix_flags m c e location E he hn.2.2.1 hn.2.2.2
    simp only [ht, eventsSince, List.append_assoc, List.drop_left, hu, hs, hp]
    refine ⟨trivial, ?_, ?_, ?_, ?_, ?_⟩
    · by_cases hz : (UbiFormat env
          (tr ++ ([Ev.mtd_scan_partitions, Ev.mtd_find_partition_by_name location (some m),
            Ev.mtd_write_partition m (some c), Ev.mtd_erase_blocks c (-1) e,
            Ev.mtd_write_close c 0])) env.UBI_DYNAMIC_VOLUME location).1 = 0
      · simp [hz, hr.mp hz]
      · have hf : ubiFormatSucceeded E = false := by
          cases hb : ubiFormatSucceeded E with
          | false => rfl
          | true => exact absurd (hr.mpr hb) hz
        simp [hz, hf]
    · intro hx; exact absurd hx (by decide)
    · intro _ hx; exact absurd hx (by decide)
    · intro hx; exact absurd hx (by decide)
    · intro _ hx; exact absurd hx (by decide)

/-- The UBI flags and control operations of a trace that starts with the raw
steps of `format` are those of what follows them. -/
theorem rawFormat_prefix_ubi (m c : Nat) (e cl : Int) (location : String) (E : Trace) :
    ubiCapable
      ([Ev.mtd_scan_partitions, Ev.mtd_find_partition_by_name location (some m),
        Ev.mtd_write_partition m (some c), Ev.mtd_erase_blocks c (-1) e,
        Ev.mtd_write_close c cl] ++ E) = ubiCapable E ∧
    attachOk
      ([Ev.mtd_scan_partitions, Ev.mtd_find_partition_by_name location (some m),
        Ev.mtd_write_partition m (some c), Ev.mtd_erase_blocks c (-1) e,
        Ev.mtd_write_close c cl] ++ E) = attachOk E ∧
    devInfoOk
      ([Ev.mtd_scan_partitions, Ev.mtd_find_partition_by_name location (some m),
        Ev.mtd_write_partition m (some c), Ev.mtd_erase_blocks c (-1) e,
        Ev.mtd_write_close c cl] ++ E) = devInfoOk E ∧
    ubiOps
      ([Ev.mtd_scan_partitions, Ev.mtd_find_partition_by_name location (some m),
        Ev.mtd_write_partition m (some c), Ev.mtd_erase_blocks c (-1) e,
        Ev.mtd_write_close c cl] ++ E) = ubiOps E := by
  simp only [ubiCapable, attachOk, devInfoOk, ubiOps, ubiOpOf,
    List.any_append, List.any_cons, List.any_nil, List.filterMap_append, List.filterMap_cons,
    List.filterMap_nil]
  simp

/-- C3 (amended): in a `format` of a UBI partition that reaches the UBI format
sequence (the control interface is opened and capable, which needs the
partition resolved and the raw erase and close done), the UBI control
operations issued are, in order: the stale detach and the attach; then, only
when the attach succeeded, the volume creation (only when the device-info
query succeeded too) and one final detach.  When the attach fails, no volume
is created and no final detach is issued. -/
theorem FormatFn_ubi_control_ops (env : Env) (name : String) (state : State)
    (argv : List Expr) (t : Trace) (fs_type location fs_size : String)
    (st : State) (tr : Trace) (hlen : argv.length = 4)
    (hargs : ReadArgs state t (argv.take 4)
      = (some [fs_type, "UBI", location, fs_size], st, tr))
    (hreach : ubiCapable (eventsSince tr (FormatFn env name state argv t).trace) = true) :
    ubiOps (eventsSince tr (FormatFn env name state argv t).trace)
      = [UbiOp.detach, UbiOp.attach]
        ++ (if attachOk (eventsSince tr (FormatFn env name state argv t).trace) = true then
              (if devInfoOk (eventsSince tr (FormatFn env name state argv t).trace) = true
                then [UbiOp.mkvol] else []) ++ [UbiOp.detach]
            else []) := by
  by_cases h1 : fs_type = ""
  · have h : FormatFn env name state argv t
        = ⟨none, ErrorAbort st ("fs_type argument to " ++ name ++ "() can't be empty"), tr⟩ := by
      simp [FormatFn, hlen, hargs, strlen_eq_zero_iff, h1, StringValue]
    simp [h, eventsSince, ubiCapable] at hreach
  by_cases h3 : location = ""
  · have h : FormatFn env name state argv t
        = ⟨none, ErrorAbort st ("location argument to " ++ name ++ "() can't be empty"), tr⟩ := by
      simp [FormatFn, hlen, hargs, strlen_eq_zero_iff, h1, h3, StringValue]
    simp [h, eventsSince, ubiCapable] at hreach
  rcases FormatFn_flash_cases env name state argv t fs_type "UBI" location fs_size
      st tr hlen hargs h1 h3 (Or.inr rfl) with
    h | ⟨m, h⟩ | ⟨m, c, cl, h⟩ | ⟨m, c, e, cl, he, hc, h⟩ | ⟨m, c, e, he, hu, h⟩
    | ⟨m, c, e, he, hu, h⟩
  · simp [h, eventsSince, ubiCapable] at hreach
  · simp [h, eventsSince, ubiCapable] at hreach
  · simp [h, eventsSince, ubiCapable] at hreach
  · simp [h, eventsSince, ubiCapable] at hreach
  · exact absurd rfl hu
  · have ht := UbiFormat_trace env
      (tr ++ [Ev.mtd_scan_partitions, Ev.mtd_find_partition_by_name location (some m),
        Ev.mtd_write_partition m (some c), Ev.mtd_erase_blocks c (-1) e,
        Ev.mtd_write_close c 0]) env.UBI_DYNAMIC_VOLUME location
    have ho := UbiFormat_ubiOps env
      (tr ++ [Ev.mtd_scan_partitions, Ev.mtd_find_partition_by_name location (some m),
        Ev.mtd_write_partition m (some c), Ev.mtd_erase_blocks c (-1) e,
        Ev.mtd_write_close c 0]) env.UBI_DYNAMIC_VOLUME location
    rw [h] at hreach ⊢
    generalize eventsSince _ (UbiFormat env _ env.UBI_DYNAMIC_VOLUME location).2 = E
      at ht ho
    have hp := rawFormat_prefix_ubi m c e 0 location E
    simp only [ht, eventsSince, List.append_assoc, List.drop_left, hp] at hreach ⊢
    exact ho hreach

/-- Counterexample to C3 as stated: `format("ubifs", "UBI", "system", "0")` on a
device where the attach fails reaches the UBI format sequence, and the UBI
control operations are the stale detach and the attach only: no volume
creation and no final detach. -/
theorem FormatFn_ubi_attach_failure_skips_final_detach :
    ubiCapable (eventsSince [] (FormatFn attachFailEnv "format" ⟨none⟩
        [strExpr "ubifs", strExpr "UBI", strExpr "system", strExpr "0"] []).trace) = true ∧
    ubiOps (eventsSince [] (FormatFn attachFailEnv "format" ⟨none⟩
        [strExpr "ubifs", strExpr "UBI", strExpr "system", strExpr "0"] []).trace)
      = [UbiOp.detach, UbiOp.attach] ∧
    ubiOps (eventsSince [] (FormatFn attachFailEnv "format" ⟨none⟩
        [strExpr "ubifs", strExpr "UBI", strExpr "system", strExpr "0"] []).trace)
      ≠ [UbiOp.detach, UbiOp.attach, UbiOp.mkvol, UbiOp.detach] := by
  decide

/-- Witness of C3 (amended): on a device where every step succeeds the four
operations are issued. -/
theorem FormatFn_ubi_control_ops_witness :
    ubiOps (eventsSince [] (FormatFn goodEnv "format" ⟨none⟩
        [strExpr "ubifs", strExpr "UBI", strExpr "system", strExpr "0"] []).trace)
      = [UbiOp.detach, UbiOp.attach, UbiOp.mkvol, UbiOp.detach] :=
  FormatFn_ubi_control_ops goodEnv "format" ⟨none⟩
    [strExpr "ubifs", strExpr "UBI", strExpr "system", strExpr "0"] []
    "ubifs" "system" "0" ⟨none⟩ [] rfl rfl (by decide)

/-- Witness of C4: on a device where every step succeeds `UbiFormat` returns
0 and ends with the detach of the attached MTD index. -/
theorem UbiFormat_success_iff_witness :
    (UbiFormat goodEnv [] 3 "system").1 = 0 ∧
    ∃ pre lib mtdn dn d1,
      eventsSince [] (UbiFormat goodEnv [] 3 "system").2
        = pre ++ [Ev.ubi_detach_mtd lib DEFAULT_CTRL_DEV mtdn d1, Ev.libubi_close lib] ∧
      Ev.ubi_attach lib DEFAULT_CTRL_DEV ⟨goodEnv.UBI_DEV_NUM_AUTO, mtdn, 0, none⟩ 0 dn ∈ pre :=
  ⟨(UbiFormat_success_iff goodEnv [] 3 "system").2.1.mpr (by decide),
   (UbiFormat_success_iff goodEnv [] 3 "system").2.2.2 (by decide)⟩

/-- Witness of C5: `format("ubifs", "UBI", "system", "0")` on a device where
every step succeeds returns `"system"`. -/
theorem FormatFn_mtd_ubi_witness :
    (FormatFn goodEnv "format" ⟨none⟩
        [strExpr "ubifs", strExpr "UBI", strExpr "system", strExpr "0"] []).state = ⟨none⟩ ∧
    (FormatFn goodEnv "format" ⟨none⟩
        [strExpr "ubifs", strExpr "UBI", strExpr "system", strExpr "0"] []).value
      = StringValue (some "system") :=
  ⟨(FormatFn_mtd_ubi goodEnv "format" ⟨none⟩
      [strExpr "ubifs", strExpr "UBI", strExpr "system", strExpr "0"] []
      "ubifs" "UBI" "system" "0" ⟨none⟩ [] rfl rfl (by decide) (by decide) (Or.inr rfl)).1,
   (FormatFn_mtd_ubi goodEnv "format" ⟨none⟩
      [strExpr "ubifs", strExpr "UBI", strExpr "system", strExpr "0"] []
      "ubifs" "UBI" "system" "0" ⟨none⟩ [] rfl rfl (by decide) (by decide) (Or.inr rfl)).2.1⟩

/-! ## `format` of an unsupported combination -/

/-- C6 (what the code does): for non-empty `fs_type`, `partition_type` and
`location` whose combination is unsupported, `format` performs no device
operation and records no message, but what it returns is `NULL`, the abort
signal, not the empty string: `result` is never assigned on this path. -/
theorem FormatFn_unsupported_returns_null (env : Env) (name : String) (state : State)
    (argv : List Expr) (t : Trace) (fs_type partition_type location fs_size : String)
    (st : State) (tr : Trace) (hlen : argv.length = 4)
    (hargs : ReadArgs state t (argv.take 4)
      = (some [fs_type, partition_type, location, fs_size], st, tr))
    (h1 : fs_type ≠ "") (h2 : partition_type ≠ "") (h3 : location ≠ "")
    (hm : partition_type ≠ "MTD") (hu : partition_type ≠ "UBI")
    (hext : ¬ (env.USE_EXT4 = true ∧ fs_type = "ext4")) :
    FormatFn env name state argv t = ⟨none, st, tr⟩ := by
  have hmu : ¬ (partition_type = "MTD" ∨ partition_type = "UBI") := by simp [hm, hu]
  simp only [FormatFn, hlen, hargs, strlen_eq_zero_iff, h1, h2, h3, if_false, if_neg hmu,
    if_neg hext, StringValue, Nat.cast_ofNat, ne_eq, not_true_eq_false]

/-- The failing input of C6: `format("vfat", "EMMC", "/dev/block/mmcblk0p1", "0")`
returns `NULL` and not the empty string. -/
theorem FormatFn_unsupported_returns_null_witness :
    FormatFn goodEnv "format" ⟨none⟩
        [strExpr "vfat", strExpr "EMMC", strExpr "/dev/block/mmcblk0p1", strExpr "0"] []
      = ⟨none, ⟨none⟩, []⟩ ∧
    (FormatFn goodEnv "format" ⟨none⟩
        [strExpr "vfat", strExpr "EMMC", strExpr "/dev/block/mmcblk0p1", strExpr "0"] []).value
      ≠ StringValue (some "") :=
  ⟨FormatFn_unsupported_returns_null goodEnv "format" ⟨none⟩
      [strExpr "vfat", strExpr "EMMC", strExpr "/dev/block/mmcblk0p1", strExpr "0"] []
      "vfat" "EMMC" "/dev/block/mmcblk0p1" "0" ⟨none⟩ [] rfl rfl
      (by decide) (by decide) (by decide) (by decide) (by decide) (by decide),
   by decide⟩

/-! ## `unmount` -/

/-- `UbiDetach` on a device path always starts by opening the control
interface, so a call of it leaves at least that event. -/
theorem UbiDetach_opens (env : Env) (t : Trace) (device : String) :
    (UbiDetach env t (some device)).2.take (t.length + 1)
      = t ++ [Ev.libubi_open (env.libubi_open t)] := by
  unfold UbiDetach
  simp only []
  generalize env.libubi_open t = lo
  cases lo with
  | none => simp [List.take_append]
  | some lib =>
    simp only []
    generalize env.ubi_get_info _ _ = info
    by_cases h1 : info.1 ≠ 0
    · simp [h1, List.take_append]
    · simp only [h1, if_false]
      by_cases h2 : info.2 = -1
      · simp [h2, List.take_append]
      · simp only [h2, if_false]
        generalize env.ubi_probe_node _ _ _ = err
        by_cases h3 : err = -1
        · simp [h3, List.take_append]
        · simp only [h3, if_false]
          by_cases h4 : err = 1
          · simp only [h4, if_true]
            generalize env.ubi_get_dev_info _ _ _ = r
            by_cases h5 : r.1 ≠ 0
            · simp [h5, List.take_append]
            · simp only [h5, if_false, UbiDetachRemove]
              by_cases h6 : r.2 < 0
              · simp [h6, List.take_append]
              · simp only [h6, if_false]
                generalize env.ubi_remove_dev _ _ _ _ = e
                by_cases h7 : e ≠ 0
                · simp [h7, List.take_append]
                · simp [h7, List.take_append]
          · simp only [h4, if_false]
            generalize env.ubi_get_vol_info _ _ _ = r
            by_cases h5 : r.1 ≠ 0
            · simp [h5, List.take_append]
            · simp only [h5, if_false, UbiDetachRemove]
              by_cases h6 : r.2 < 0
              · simp [h6, List.take_append]
              · simp only [h6, if_false]
                generalize env.ubi_remove_dev _ _ _ _ = e
                by_cases h7 : e ≠ 0
                · simp [h7, List.take_append]
                · simp [h7, List.take_append]

/-- C7 (amended): `unmount` of a mount point found in the mounted-volume
table.  When the filesystem type of the volume is exactly `"ubifs"`, the
backing device path is read from the record before the unmount primitive is
called, and `UbiDetach` is run, on that copy and after the unmount, exactly
when the unmount primitive returned 0 and the record has a device path;
otherwise nothing follows the unmount.  For any other filesystem type the
device path is not read and nothing follows the unmount.  (A run of
`UbiDetach` on a device path always leaves events, so the two cases differ.) -/
theorem UnmountFn_ubifs_detach (env : Env) (name : String) (state : State)
    (argv : List Expr) (t : Trace) (mount_point : String) (st : State) (tr : Trace) (v : Nat)
    (hlen : argv.length = 1)
    (hargs : ReadArgs state t (argv.take 1) = (some [mount_point], st, tr))
    (hne : mount_point ≠ "")
    (hfound : env.find_mounted_volume_by_mount_point (tr ++ [Ev.scan_mounted_volumes])
      mount_point = some v) :
    (env.get_filesystem_by_mounted_volume
        (tr ++ [Ev.scan_mounted_volumes,
          Ev.find_mounted_volume_by_mount_point mount_point (some v)]) v = some "ubifs" →
      ∃ d err,
        d = env.get_device_by_mounted_volume
          (tr ++ [Ev.scan_mounted_volumes,
            Ev.find_mounted_volume_by_mount_point mount_point (some v),
            Ev.get_filesystem_by_mounted_volume v (some "ubifs")]) v ∧
        (UnmountFn env name state argv t).trace
          = (if err = 0 ∧ d.isSome = true then
              (UbiDetach env
                (tr ++ [Ev.scan_mounted_volumes,
                  Ev.find_mounted_volume_by_mount_point mount_point (some v),
                  Ev.get_filesystem_by_mounted_volume v (some "ubifs"),
                  Ev.get_device_by_mounted_volume v d,
                  Ev.unmount_mounted_volume v err]) d).2
             else
              tr ++ [Ev.scan_mounted_volumes,
                Ev.find_mounted_volume_by_mount_point mount_point (some v),
                Ev.get_filesystem_by_mounted_volume v (some "ubifs"),
                Ev.get_device_by_mounted_volume v d,
                Ev.unmount_mounted_volume v err])) ∧
    (env.get_filesystem_by_mounted_volume
        (tr ++ [Ev.scan_mounted_volumes,
          Ev.find_mounted_volume_by_mount_point mount_point (some v)]) v ≠ some "ubifs" →
      ∃ fs err, fs ≠ some "ubifs" ∧
        (UnmountFn env name state argv t).trace
          = tr ++ [Ev.scan_mounted_volumes,
              Ev.find_mounted_volume_by_mount_point mount_point (some v),
              Ev.get_filesystem_by_mounted_volume v fs,
              Ev.unmount_mounted_volume v err]) ∧
    (∀ (h : Trace) (dev : String), (UbiDetach env h (some dev)).2 ≠ h) := by
  simp only [UnmountFn, hlen, hargs, strlen_eq_zero_iff, hne, if_false, hfound,
    List.append_assoc, List.singleton_append, Nat.cast_one, ne_eq, not_true_eq_false]
  generalize env.get_filesystem_by_mounted_volume _ _ = fs
  refine ⟨?_, ?_, ?_⟩
  rotate_left 2
  · intro h dev heq
    have hl := congrArg List.length (UbiDetach_opens env h dev)
    rw [heq] at hl
    simp at hl
  · intro hfs
    subst hfs
    simp only [if_true, List.append_assoc, List.singleton_append, List.cons_append,
      List.nil_append, Bool.true_and]
    generalize env.get_device_by_mounted_volume
      (tr ++ [Ev.scan_mounted_volumes,
        Ev.find_mounted_volume_by_mount_point mount_point (some v),
        Ev.get_filesystem_by_mounted_volume v (some "ubifs")]) v = d
    generalize env.unmount_mounted_volume _ _ = err
    refine ⟨d, err, rfl, ?_⟩
    by_cases he : err = 0
    · cases d with
      | none => simp [he]
      | some dev => simp [he]
    · simp [he]
  · intro hfs
    simp only [hfs, if_false, List.append_assoc, List.singleton_append, List.cons_append,
      List.nil_append]
    generalize env.unmount_mounted_volume _ _ = err
    refine ⟨fs, err, hfs, ?_⟩
    by_cases he : err = 0
    · simp [he]
    · simp [he]

/-- Counterexample to C7 as stated: `unmount("/system")` of a mounted `ubifs`
volume whose unmount fails.  The run ends with the failed unmount: `UbiDetach`
is not invoked (a call would have opened the control interface). -/
theorem UnmountFn_failed_unmount_skips_detach :
    (UnmountFn unmountFailEnv "unmount" ⟨none⟩ [strExpr "/system"] []).trace
      = [Ev.scan_mounted_volumes,
          Ev.find_mounted_volume_by_mount_point "/system" (some 9),
          Ev.get_filesystem_by_mounted_volume 9 (some "ubifs"),
          Ev.get_device_by_mounted_volume 9 (some "/dev/ubi0_0"),
          Ev.unmount_mounted_volume 9 (-1)] ∧
    (UnmountFn unmountFailEnv "unmount" ⟨none⟩ [strExpr "/system"] []).trace
      ≠ (UbiDetach unmountFailEnv
          [Ev.scan_mounted_volumes,
            Ev.find_mounted_volume_by_mount_point "/system" (some 9),
            Ev.get_filesystem_by_mounted_volume 9 (some "ubifs"),
            Ev.get_device_by_mounted_volume 9 (some "/dev/ubi0_0"),
            Ev.unmount_mounted_volume 9 (-1)] (some "/dev/ubi0_0")).2 := by
  decide

/-- Witness of C7 (amended): `unmount("/system")` of a mounted `ubifs` volume on
a device where the unmount succeeds runs `UbiDetach` on the path read before
the unmount. -/
theorem UnmountFn_ubifs_detach_witness :
    ∃ d err,
      d = some "/dev/ubi0_0" ∧
      (UnmountFn goodEnv "unmount" ⟨none⟩ [strExpr "/system"] []).trace
        = (if err = 0 ∧ d.isSome = true then
            (UbiDetach goodEnv
              ([] ++ [Ev.scan_mounted_volumes,
                Ev.find_mounted_volume_by_mount_point "/system" (some 9),
                Ev.get_filesystem_by_mounted_volume 9 (some "ubifs"),
                Ev.get_device_by_mounted_volume 9 d,
                Ev.unmount_mounted_volume 9 err]) d).2
           else
            [] ++ [Ev.scan_mounted_volumes,
              Ev.find_mounted_volume_by_mount_point "/system" (some 9),
              Ev.get_filesystem_by_mounted_volume 9 (some "ubifs"),
              Ev.get_device_by_mounted_volume 9 d,
              Ev.unmount_mounted_volume 9 err]) :=
  (UnmountFn_ubifs_detach goodEnv "unmount" ⟨none⟩ [strExpr "/system"] [] "/system" ⟨none⟩ []
    9 rfl rfl (by decide) rfl).1 rfl

/-! ## `write_raw_image` -/

theorem fileChunksAux_fuel (n : Nat) :
    ∀ (k1 k2 : Nat) (rest : List Char), rest.length ≤ k1 → rest.length ≤ k2 →
      fileChunksAux n k1 rest = fileChunksAux n k2 rest := by
  intro k1
  induction k1 with
  | zero =>
    intro k2 rest h1 _
    have hr : rest = [] := List.length_eq_zero.mp (Nat.le_zero.mp h1)
    subst hr
    cases k2 <;> simp [fileChunksAux]
  | succ k ih =>
    intro k2 rest h1 h2
    cases k2 with
    | zero =>
      have hr : rest = [] := List.length_eq_zero.mp (Nat.le_zero.mp h2)
      subst hr
      simp [fileChunksAux]
    | succ k2 =>
      simp only [fileChunksAux]
      by_cases hz : (rest.take n).length = 0
      · simp [hz]
      · simp only [hz, if_false]
        have hpos : 0 < min n rest.length := by
          rw [List.length_take] at hz
          omega
        have hd : (rest.drop n).length < rest.length := by
          rw [List.length_drop]
          omega
        rw [ih k2 (rest.drop n) (by omega) (by omega)]

/-- The chunks of a file: the first `n` bytes, then the chunks of the rest. -/
theorem fileChunks_unfold (n : Nat) (rest : List Char) :
    fileChunks n rest
      = if (rest.take n).length = 0 then [] else rest.take n :: fileChunks n (rest.drop n) := by
  unfold fileChunks
  cases hrest : rest.length with
  | zero =>
    have hr : rest = [] := List.length_eq_zero.mp hrest
    subst hr
    simp [fileChunksAux]
  | succ k =>
    simp only [fileChunksAux]
    by_cases hz : (rest.take n).length = 0
    · simp [hz]
    · simp only [hz, if_false]
      have hd : (rest.drop n).length ≤ k := by
        rw [List.length_take] at hz
        rw [List.length_drop]
        omega
      rw [fileChunksAux_fuel n k (rest.drop n).length (rest.drop n) hd (le_refl _)]

/-- Once `success` is false the loop stops at once. -/
theorem writeLoop_false (env : Env) (ctx f fuel : Nat) (rest : List Char) (t : Trace) :
    writeLoop env ctx f fuel rest false t = (false, t) := by
  cases fuel <;> simp [writeLoop]

/-- The fuel of the streaming loop is never used up: any two fuels above the
number of bytes left give the same run. -/
theorem writeLoop_fuel (env : Env) (ctx f : Nat) :
    ∀ (k1 k2 : Nat) (rest : List Char) (success : Bool) (t : Trace),
      rest.length < k1 → rest.length < k2 →
      writeLoop env ctx f k1 rest success t = writeLoop env ctx f k2 rest success t := by
  intro k1
  induction k1 with
  | zero => intro k2 rest success t h; exact absurd h (Nat.not_lt_zero _)
  | succ k ih =>
    intro k2 rest success t h1 h2
    cases k2 with
    | zero => exact absurd h2 (Nat.not_lt_zero _)
    | succ k2 =>
      cases success with
      | false => rw [writeLoop_false, writeLoop_false]
      | true =>
        simp only [writeLoop, Bool.true_eq_false, if_false]
        by_cases hz : ((rest.take env.BUFSIZ).length : Int) > 0
        · simp only [hz, if_true]
          have hd : (rest.drop env.BUFSIZ).length < rest.length := by
            have hz' : 0 < (rest.take env.BUFSIZ).length := by exact_mod_cast hz
            rw [List.length_take] at hz'
            rw [List.length_drop]
            omega
          exact ih k2 _ _ _ (by omega) (by omega)
        · simp only [hz, if_false]

/-- What the streaming loop does, for a fuel above the number of bytes left:
its events `L` are reads and data writes only; it returns whether every write
was full; the writes hand over the chunks of the file in order, starting with
the first; when no write is short every chunk is written; and a short write
is the last event of the loop. -/
theorem writeLoop_spec (env : Env) (ctx f : Nat) :
    ∀ (fuel : Nat) (rest : List Char) (t : Trace), rest.length < fuel →
      ∃ L, (writeLoop env ctx f fuel rest true t).2 = t ++ L ∧
        onlyReadsAndWrites L = true ∧
        (writeLoop env ctx f fuel rest true t).1 = allWritesFull L ∧
        (writeEvents L).map (fun w => (w.1, w.2.1))
          = ((fileChunks env.BUFSIZ rest).take (writeEvents L).length).map
              (fun ch => (some (String.mk ch), (ch.length : Int))) ∧
        (allWritesFull L = true →
          (writeEvents L).length = (fileChunks env.BUFSIZ rest).length) ∧
        (allWritesFull L = false →
          ∃ A data len ret, L = A ++ [Ev.mtd_write_data ctx data len ret] ∧ ret ≠ len ∧
            allWritesFull A = true) := by
  intro fuel
  induction fuel with
  | zero => intro rest t h; exact absurd h (Nat.not_lt_zero _)
  | succ k ih =>
    intro rest t hlt
    rw [fileChunks_unfold]
    have hd : (rest.take env.BUFSIZ).length ≠ 0 → (rest.drop env.BUFSIZ).length < k := by
      intro hz
      rw [List.length_take] at hz
      rw [List.length_drop]
      omega
    generalize hb : rest.take env.BUFSIZ = buffer at hd ⊢
    by_cases hz : buffer.length = 0
    · refine ⟨[Ev.fread f env.BUFSIZ ⟨buffer⟩], ?_, ?_, ?_, ?_, ?_, ?_⟩
      · simp [writeLoop, hb, hz]
      · simp [onlyReadsAndWrites]
      · simp [writeLoop, hb, hz, allWritesFull]
      · simp [writeEvents]
      · intro _; simp [writeEvents, hz]
      · intro h; simp [allWritesFull] at h
    · have hpos : (buffer.length : Int) > 0 := by
        have : 0 < buffer.length := Nat.pos_of_ne_zero hz
        exact_mod_cast this
      have hd := hd hz
      simp only [writeLoop, hb, hpos, if_true, hz, if_false, Bool.true_and,
        Bool.true_eq_false]
      generalize env.mtd_write_data _ _ _ _ = wrote
      by_cases hw : wrote = (buffer.length : Int)
      · obtain ⟨L', h1, h2, h3, h4, h5, h6⟩ := ih (rest.drop env.BUFSIZ)
          (t ++ [Ev.fread f env.BUFSIZ ⟨buffer⟩] ++
            [Ev.mtd_write_data ctx (some ⟨buffer⟩) (buffer.length : Int) wrote]) hd
        have ha : allWritesFull ([Ev.fread f env.BUFSIZ ⟨buffer⟩,
            Ev.mtd_write_data ctx (some ⟨buffer⟩) (buffer.length : Int) wrote] ++ L')
              = allWritesFull L' := by
          unfold allWritesFull
          simp only [List.all_append, List.all_cons, List.all_nil, hw, decide_True,
            Bool.and_self, Bool.true_and]
        have hwe : writeEvents ([Ev.fread f env.BUFSIZ ⟨buffer⟩,
            Ev.mtd_write_data ctx (some ⟨buffer⟩) (buffer.length : Int) wrote] ++ L')
              = (some ⟨buffer⟩, (buffer.length : Int), wrote) :: writeEvents L' := by
          unfold writeEvents
          simp only [List.filterMap_append, List.filterMap_cons, List.filterMap_nil,
            List.cons_append, List.nil_append]
        refine ⟨[Ev.fread f env.BUFSIZ ⟨buffer⟩,
            Ev.mtd_write_data ctx (some ⟨buffer⟩) (buffer.length : Int) wrote] ++ L',
            ?_, ?_, ?_, ?_, ?_, ?_⟩
        · simp only [hw, decide_True] at h1 ⊢
          rw [h1]
          simp
        · unfold onlyReadsAndWrites at h2 ⊢
          simp only [List.all_append, List.all_cons, List.all_nil, h2, Bool.and_self]
        · rw [ha]
          simp only [hw, decide_True] at h3 ⊢
          exact h3
        · rw [hwe]
          simp only [List.map_cons, List.length_cons, List.take_succ_cons, h4]
        · rw [ha, hwe]
          intro hfull
          simp only [List.length_cons, h5 hfull]
        · rw [ha]
          intro hshort
          obtain ⟨A, data, len, ret, hA, hne, hAf⟩ := h6 hshort
          refine ⟨[Ev.fread f env.BUFSIZ ⟨buffer⟩,
            Ev.mtd_write_data ctx (some ⟨buffer⟩) (buffer.length : Int) wrote] ++ A,
            data, len, ret, ?_, hne, ?_⟩
          · rw [hA]; simp
          · unfold allWritesFull at hAf ⊢
            simp only [List.all_append, List.all_cons, List.all_nil, hw, decide_True,
              Bool.and_self, Bool.true_and, hAf]
      · refine ⟨[Ev.fread f env.BUFSIZ ⟨buffer⟩,
            Ev.mtd_write_data ctx (some ⟨buffer⟩) (buffer.length : Int) wrote],
            ?_, ?_, ?_, ?_, ?_, ?_⟩
        · simp [hw, writeLoop_false]
        · simp [onlyReadsAndWrites]
        · simp [hw, writeLoop_false, allWritesFull]
        · simp [writeEvents]
        · intro h; simp [allWritesFull, hw] at h
        · intro _
          exact ⟨[Ev.fread f env.BUFSIZ ⟨buffer⟩], _, _, wrote, rfl, hw,
            by simp [allWritesFull]⟩

/-- The ways a `write_raw_image` of a file can go, with the events and the
result of each.  `L` are the events of the streaming loop. -/
theorem WriteRawImageFn_file_cases (env : Env) (name : String) (state : State)
    (argv : List Expr) (t : Trace) (filename partition : String) (sz1 sz2 : Int)
    (st : State) (tr : Trace)
    (hargs : ReadValueArgs state t (argv.take 2)
      = (some [⟨ValueType.VAL_STRING, sz1, some filename⟩,
               ⟨ValueType.VAL_STRING, sz2, some partition⟩], st, tr))
    (hp : partition ≠ "") (hf : filename ≠ "") :
    (WriteRawImageFn env name state argv t = ⟨StringValue (some ""), st,
        tr ++ [Ev.mtd_scan_partitions, Ev.mtd_find_partition_by_name partition none]⟩)
    ∨ (∃ m, WriteRawImageFn env name state argv t = ⟨StringValue (some ""), st,
        tr ++ [Ev.mtd_scan_partitions, Ev.mtd_find_partition_by_name partition (some m),
          Ev.mtd_write_partition m none]⟩)
    ∨ (∃ m c, WriteRawImageFn env name state argv t = ⟨StringValue (some ""), st,
        tr ++ [Ev.mtd_scan_partitions, Ev.mtd_find_partition_by_name partition (some m),
          Ev.mtd_write_partition m (some c), Ev.fopen filename "rb" none]⟩)
    ∨ (∃ m c fh L e cl, onlyReadsAndWrites L = true ∧
        WriteRawImageFn env name state argv t
          = ⟨StringValue (some (if allWritesFull L = true then partition else "")), st,
            tr ++ ([Ev.mtd_scan_partitions, Ev.mtd_find_partition_by_name partition (some m),
              Ev.mtd_write_partition m (some c), Ev.fopen filename "rb" (some fh)] ++ L
              ++ [Ev.fclose fh, Ev.mtd_erase_blocks c (-1) e, Ev.mtd_write_close c cl])⟩) := by
  simp only [WriteRawImageFn, hargs, strlen_eq_zero_iff, hp, hf, if_false, ne_eq,
    not_true_eq_false, Option.getD_some, and_false, true_and, if_true, reduceCtorEq,
    List.append_assoc, List.singleton_append, List.cons_append, List.nil_append]
  generalize env.mtd_find_partition_by_name _ _ = mtd
  cases mtd with
  | none => left; simp
  | some m =>
    right
    simp only []
    generalize env.mtd_write_partition _ _ = ctx
    cases ctx with
    | none => left; exact ⟨m, by simp⟩
    | some c =>
      right
      simp only []
      generalize env.fopen _ _ _ = fo
      cases fo with
      | none => left; exact ⟨m, c, by simp⟩
      | some p =>
        right
        rcases p with ⟨fh, bytes⟩
        simp only [Option.map_some', List.append_assoc, List.singleton_append,
          List.cons_append, List.nil_append]
        obtain ⟨L, h1, h2, h3, -, -, -⟩ := writeLoop_spec env c fh (bytes.length + 1) bytes.data
          (tr ++ [Ev.mtd_scan_partitions, Ev.mtd_find_partition_by_name partition (some m),
            Ev.mtd_write_partition m (some c), Ev.fopen filename "rb" (some fh)])
          (Nat.lt_succ_self _)
        simp only [h1, h3, List.append_assoc, List.singleton_append,
          List.cons_append, List.nil_append]
        generalize env.mtd_erase_blocks _ _ _ = e
        generalize env.mtd_write_close _ _ = cl
        exact ⟨m, c, fh, L, e, cl, h2, by simp⟩

/-- The ways a `write_raw_image` of a blob can go, with the events and the
result of each. -/
theorem WriteRawImageFn_blob_cases (env : Env) (name : String) (state : State)
    (argv : List Expr) (t : Trace) (contents : Value) (partition : String) (sz2 : Int)
    (st : State) (tr : Trace)
    (hargs : ReadValueArgs state t (argv.take 2)
      = (some [contents, ⟨ValueType.VAL_STRING, sz2, some partition⟩], st, tr))
    (hp : partition ≠ "") (hb : contents.type ≠ ValueType.VAL_STRING) :
    (WriteRawImageFn env name state argv t = ⟨StringValue (some ""), st,
        tr ++ [Ev.mtd_scan_partitions, Ev.mtd_find_partition_by_name partition none]⟩)
    ∨ (∃ m, WriteRawImageFn env name state argv t = ⟨StringValue (some ""), st,
        tr ++ [Ev.mtd_scan_partitions, Ev.mtd_find_partition_by_name partition (some m),
          Ev.mtd_write_partition m none]⟩)
    ∨ (∃ m c wrote e cl,
        WriteRawImageFn env name state argv t
          = ⟨StringValue (some (if wrote = contents.size then partition else "")), st,
            tr ++ [Ev.mtd_scan_partitions, Ev.mtd_find_partition_by_name partition (some m),
              Ev.mtd_write_partition m (some c),
              Ev.mtd_write_data c contents.data contents.size wrote,
              Ev.mtd_erase_blocks c (-1) e, Ev.mtd_write_close c cl]⟩) := by
  simp only [WriteRawImageFn, hargs, strlen_eq_zero_iff, hp, hb, if_false, ne_eq,
    not_true_eq_false, false_and, if_true,
    List.append_assoc, List.singleton_append, List.cons_append, List.nil_append]
  generalize env.mtd_find_partition_by_name _ _ = mtd
  cases mtd with
  | none => left; simp
  | some m =>
    right
    simp only []
    generalize env.mtd_write_partition _ _ = ctx
    cases ctx with
    | none => left; exact ⟨m, by simp⟩
    | some c =>
      right
      simp only [List.append_assoc, List.singleton_append, List.cons_append, List.nil_append]
      generalize env.mtd_write_data _ _ _ _ = wrote
      generalize env.mtd_erase_blocks _ _ _ = e
      generalize env.mtd_write_close _ _ = cl
      exact ⟨m, c, wrote, e, cl, by simp⟩

theorem any_false_of_all {p q : Ev → Bool} (L : Trace) (h : L.all p = true)
    (hpq : ∀ e, p e = true → q e = false) : L.any q = false := by
  induction L with
  | nil => rfl
  | cons e L ih =>
    rw [List.all_cons, Bool.and_eq_true] at h
    rw [List.any_cons, hpq e h.1, ih h.2]
    rfl

theorem countP_zero_of_all {p q : Ev → Bool} (L : Trace) (h : L.all p = true)
    (hpq : ∀ e, p e = true → q e = false) : L.countP q = 0 := by
  induction L with
  | nil => rfl
  | cons e L ih =>
    rw [List.all_cons, Bool.and_eq_true] at h
    rw [List.countP_cons_of_neg]
    · exact ih h.2
    · rw [hpq e h.1]
      exact Bool.false_ne_true

/-- A trace of reads and data writes holds no erase and no close, no
partition lookup and no open. -/
theorem onlyReadsAndWrites_counts (L : Trace) (h : onlyReadsAndWrites L = true) :
    eraseCount L = 0 ∧ closeCount L = 0 ∧ partitionResolved L = false ∧
      contextOpened L = false ∧ sourceOpened L = false := by
  unfold onlyReadsAndWrites at h
  refine ⟨?_, ?_, ?_, ?_, ?_⟩
  · exact countP_zero_of_all L h (fun e he => by cases e <;> first | rfl | simp at he)
  · exact countP_zero_of_all L h (fun e he => by cases e <;> first | rfl | simp at he)
  · exact any_false_of_all L h (fun e he => by cases e <;> first | rfl | simp at he)
  · exact any_false_of_all L h (fun e he => by cases e <;> first | rfl | simp at he)
  · exact any_false_of_all L h (fun e he => by cases e <;> first | rfl | simp at he)

/-- C8 (amended): for a non-empty string `partition` and non-empty contents,
`write_raw_image` does not abort, and its result is the partition name if and
only if the partition was resolved, the write context was opened, the data
source was opened and every data write accepted the full chunk; otherwise it
is the empty string.  The outcome of the erase of the remaining blocks and of
the close does not enter the result. -/
theorem WriteRawImageFn_result (env : Env) (name : String) (state : State)
    (argv : List Expr) (t : Trace) (contents : Value) (partition : String) (sz2 : Int)
    (st : State) (tr : Trace)
    (hargs : ReadValueArgs state t (argv.take 2)
      = (some [contents, ⟨ValueType.VAL_STRING, sz2, some partition⟩], st, tr))
    (hp : partition ≠ "")
    (hc : contents.type = ValueType.VAL_STRING →
      ∃ filename, contents.data = some filename ∧ filename ≠ "") :
    (WriteRawImageFn env name state argv t).state = st ∧
    (WriteRawImageFn env name state argv t).value
      = StringValue (some
          (if writeSucceeded contents
                (eventsSince tr (WriteRawImageFn env name state argv t).trace) = true
           then partition else "")) := by
  by_cases hty : contents.type = ValueType.VAL_STRING
  · obtain ⟨filename, hdata, hf⟩ := hc hty
    rcases contents with ⟨ty, sz1, data⟩
    simp only at hty hdata
    subst hty hdata
    rcases WriteRawImageFn_file_cases env name state argv t filename partition sz1 sz2 st tr
        hargs hp hf with h | ⟨m, h⟩ | ⟨m, c, h⟩ | ⟨m, c, fh, L, e, cl, hL, h⟩
    · simp [h, eventsSince, writeSucceeded, partitionResolved]
    · simp [h, eventsSince, writeSucceeded, contextOpened]
    · simp [h, eventsSince, writeSucceeded, sourceOpened]
    · have hn := onlyReadsAndWrites_counts L hL
      rw [h]
      simp only [eventsSince, List.drop_left, writeSucceeded]
      unfold partitionResolved contextOpened sourceOpened allWritesFull
      simp only [List.any_append, List.any_cons, List.any_nil, List.all_append, List.all_cons,
        List.all_nil, Bool.or_true, Bool.true_or, Bool.or_false, Bool.false_or, Bool.and_true,
        Bool.true_and, true_and]
  · rcases WriteRawImageFn_blob_cases env name state argv t contents partition sz2 st tr
        hargs hp hty with h | ⟨m, h⟩ | ⟨m, c, wrote, e, cl, h⟩
    · simp [h, eventsSince, writeSucceeded, partitionResolved]
    · simp [h, eventsSince, writeSucceeded, contextOpened]
    · by_cases hw : wrote = contents.size
      · simp [h, eventsSince, writeSucceeded, partitionResolved, contextOpened, allWritesFull,
          hty, hw]
      · simp [h, eventsSince, writeSucceeded, partitionResolved, contextOpened, allWritesFull,
          hty, hw]

/-- Counterexample to C8 as stated: `write_raw_image("/tmp/boot.img", "boot")`
on a device where the erase of the remaining blocks fails still returns
`"boot"`. -/
theorem WriteRawImageFn_erase_failure_still_succeeds :
    eraseFailed (eventsSince [] (WriteRawImageFn eraseFailEnv "write_raw_image" ⟨none⟩
        [strExpr "/tmp/boot.img", strExpr "boot"] []).trace) = true ∧
    (WriteRawImageFn eraseFailEnv "write_raw_image" ⟨none⟩
        [strExpr "/tmp/boot.img", strExpr "boot"] []).value = StringValue (some "boot") := by
  decide

/-- Witness of C8 (amended): with every write short the result is empty. -/
theorem WriteRawImageFn_result_witness :
    (WriteRawImageFn shortWriteEnv "write_raw_image" ⟨none⟩
        [strExpr "/tmp/boot.img", strExpr "boot"] []).state = ⟨none⟩ ∧
    (WriteRawImageFn shortWriteEnv "write_raw_image" ⟨none⟩
        [strExpr "/tmp/boot.img", strExpr "boot"] []).value = StringValue (some "") :=
  WriteRawImageFn_result shortWriteEnv "write_raw_image" ⟨none⟩
    [strExpr "/tmp/boot.img", strExpr "boot"] []
    ⟨ValueType.VAL_STRING, 13, some "/tmp/boot.img"⟩ "boot" 4 ⟨none⟩ [] rfl (by decide)
    (fun _ => ⟨"/tmp/boot.img", rfl, by decide⟩)

/-- The data writes and the verdict of a trace made of the four opening
events of `write_raw_image`, the loop events and the three closing events are
those of the loop events. -/
theorem writeRawImage_frame (m c fh : Nat) (e cl : Int) (filename partition : String)
    (L : Trace) :
    writeEvents ([Ev.mtd_scan_partitions, Ev.mtd_find_partition_by_name partition (some m),
        Ev.mtd_write_partition m (some c), Ev.fopen filename "rb" (some fh)] ++ L
        ++ [Ev.fclose fh, Ev.mtd_erase_blocks c (-1) e, Ev.mtd_write_close c cl])
      = writeEvents L ∧
    allWritesFull ([Ev.mtd_scan_partitions, Ev.mtd_find_partition_by_name partition (some m),
        Ev.mtd_write_partition m (some c), Ev.fopen filename "rb" (some fh)] ++ L
        ++ [Ev.fclose fh, Ev.mtd_erase_blocks c (-1) e, Ev.mtd_write_close c cl])
      = allWritesFull L := by
  unfold writeEvents allWritesFull
  simp only [List.filterMap_append, List.filterMap_cons, List.filterMap_nil, List.all_append,
    List.all_cons, List.all_nil, List.nil_append, List.append_nil, Bool.and_true,
    Bool.true_and, and_self]

/-- C9 (amended): in a `write_raw_image` of a file, where the partition is
resolved and the write context and the file open, the data writes hand over
the non-empty chunks of the file in order, starting with the first.  The
streaming stops at the first short write: when no write is short every chunk
of the file is written; a short write is followed by no further read or write
(the next events are the close of the file, the erase and the close of the
context).  The result is the partition name when no write was short and the
empty string otherwise. -/
theorem WriteRawImageFn_streams_until_short_write (env : Env) (name : String) (state : State)
    (argv : List Expr) (t : Trace) (filename partition : String) (sz1 sz2 : Int)
    (st : State) (tr : Trace) (m c fh : Nat) (bytes : String)
    (hargs : ReadValueArgs state t (argv.take 2)
      = (some [⟨ValueType.VAL_STRING, sz1, some filename⟩,
               ⟨ValueType.VAL_STRING, sz2, some partition⟩], st, tr))
    (hp : partition ≠ "") (hf : filename ≠ "")
    (hfind : env.mtd_find_partition_by_name (tr ++ [Ev.mtd_scan_partitions]) partition
      = some m)
    (hctx : env.mtd_write_partition
      (tr ++ [Ev.mtd_scan_partitions, Ev.mtd_find_partition_by_name partition (some m)]) m
      = some c)
    (hopen : env.fopen
      (tr ++ [Ev.mtd_scan_partitions, Ev.mtd_find_partition_by_name partition (some m),
        Ev.mtd_write_partition m (some c)]) filename "rb" = some (fh, bytes)) :
    (writeEvents (eventsSince tr (WriteRawImageFn env name state argv t).trace)).map
        (fun w => (w.1, w.2.1))
      = ((fileChunks env.BUFSIZ bytes.data).take
          (writeEvents (eventsSince tr (WriteRawImageFn env name state argv t).trace)).length).map
            (fun ch => (some (String.mk ch), (ch.length : Int))) ∧
    (allWritesFull (eventsSince tr (WriteRawImageFn env name state argv t).trace) = true →
      (writeEvents (eventsSince tr (WriteRawImageFn env name state argv t).trace)).length
        = (fileChunks env.BUFSIZ bytes.data).length) ∧
    (allWritesFull (eventsSince tr (WriteRawImageFn env name state argv t).trace) = false →
      ∃ A data len ret e cl,
        eventsSince tr (WriteRawImageFn env name state argv t).trace
          = A ++ [Ev.mtd_write_data c data len ret, Ev.fclose fh,
                  Ev.mtd_erase_blocks c (-1) e, Ev.mtd_write_close c cl] ∧
        ret ≠ len ∧ allWritesFull A = true) ∧
    (WriteRawImageFn env name state argv t).value
      = StringValue (some
          (if allWritesFull (eventsSince tr (WriteRawImageFn env name state argv t).trace) = true
           then partition else "")) := by
  obtain ⟨L, h1, h2, h3, h4, h5, h6⟩ := writeLoop_spec env c fh (bytes.length + 1) bytes.data
    (tr ++ [Ev.mtd_scan_partitions, Ev.mtd_find_partition_by_name partition (some m),
      Ev.mtd_write_partition m (some c), Ev.fopen filename "rb" (some fh)])
    (Nat.lt_succ_self _)
  have hout : ∃ e cl, WriteRawImageFn env name state argv t
      = ⟨StringValue (some (if allWritesFull L = true then partition else "")), st,
          tr ++ ([Ev.mtd_scan_partitions, Ev.mtd_find_partition_by_name partition (some m),
            Ev.mtd_write_partition m (some c), Ev.fopen filename "rb" (some fh)] ++ L
            ++ [Ev.fclose fh, Ev.mtd_erase_blocks c (-1) e, Ev.mtd_write_close c cl])⟩ := by
    simp only [WriteRawImageFn, hargs, strlen_eq_zero_iff, hp, hf, if_false, ne_eq,
      not_true_eq_false, Option.getD_some, and_false, true_and, if_true, reduceCtorEq,
      List.append_assoc, List.singleton_append, List.cons_append, List.nil_append,
      hfind, hctx, hopen, Option.map_some', h1, h3]
    generalize env.mtd_erase_blocks _ _ _ = e
    generalize env.mtd_write_close _ _ = cl
    exact ⟨e, cl, by simp⟩
  obtain ⟨e, cl, hout⟩ := hout
  have hfr := writeRawImage_frame m c fh e cl filename partition L
  rw [hout]
  simp only [eventsSince, List.drop_left, hfr.1, hfr.2]
  refine ⟨h4, h5, ?_, trivial⟩
  intro hshort
  obtain ⟨A, data, len, ret, hA, hne, hAf⟩ := h6 hshort
  refine ⟨[Ev.mtd_scan_partitions, Ev.mtd_find_partition_by_name partition (some m),
    Ev.mtd_write_partition m (some c), Ev.fopen filename "rb" (some fh)] ++ A,
    data, len, ret, e, cl, ?_, hne, ?_⟩
  · rw [hA]; simp
  · unfold allWritesFull at hAf ⊢
    simp only [List.all_append, List.all_cons, List.all_nil, hAf, Bool.and_self]

/-- Counterexample to C9 as stated: `write_raw_image("/tmp/boot.img", "boot")`
of a file of two chunks on a device whose writes are short.  The loop stops
after the first short write: there is one write call for two chunks. -/
theorem WriteRawImageFn_short_write_stops_streaming :
    (fileChunks shortWriteEnv.BUFSIZ "abcdefgh".data).length = 2 ∧
    (writeEvents (eventsSince [] (WriteRawImageFn shortWriteEnv "write_raw_image" ⟨none⟩
        [strExpr "/tmp/boot.img", strExpr "boot"] []).trace)).length = 1 ∧
    eventsSince [] (WriteRawImageFn shortWriteEnv "write_raw_image" ⟨none⟩
        [strExpr "/tmp/boot.img", strExpr "boot"] []).trace
      = [Ev.mtd_scan_partitions, Ev.mtd_find_partition_by_name "boot" (some 1),
          Ev.mtd_write_partition 1 (some 7), Ev.fopen "/tmp/boot.img" "rb" (some 3),
          Ev.fread 3 4 "abcd", Ev.mtd_write_data 7 (some "abcd") 4 3,
          Ev.fclose 3, Ev.mtd_erase_blocks 7 (-1) 0, Ev.mtd_write_close 7 0] := by
  decide

/-- Witness of C9 (amended): on a device whose writes are all full, the two
chunks of the file are both written. -/
theorem WriteRawImageFn_streams_until_short_write_witness :
    (writeEvents (eventsSince [] (WriteRawImageFn goodEnv "write_raw_image" ⟨none⟩
        [strExpr "/tmp/boot.img", strExpr "boot"] []).trace)).length
      = (fileChunks goodEnv.BUFSIZ "abcdefgh".data).length :=
  (WriteRawImageFn_streams_until_short_write goodEnv "write_raw_image" ⟨none⟩
    [strExpr "/tmp/boot.img", strExpr "boot"] [] "/tmp/boot.img" "boot" 13 4 ⟨none⟩ []
    1 7 3 "abcdefgh" rfl (by decide) (by decide) rfl rfl rfl).2.1 (by decide)

/-- C10: in a `write_raw_image` of a file in which the partition is resolved,
the write context opens and the source file opens, the events are: the four
opening events, the reads and data writes of the streaming loop, the close of
the file, then one erase of the remaining blocks and one close of the write
context; there is exactly one erase and one close in the whole call, whether
or not a write was short.  The call does not abort; the result is the empty
string if a write was short and the partition name if every write was full,
whatever the erase returned. -/
theorem WriteRawImageFn_erase_close_once (env : Env) (name : String) (state : State)
    (argv : List Expr) (t : Trace) (filename partition : String) (sz1 sz2 : Int)
    (st : State) (tr : Trace)
    (hargs : ReadValueArgs state t (argv.take 2)
      = (some [⟨ValueType.VAL_STRING, sz1, some filename⟩,
               ⟨ValueType.VAL_STRING, sz2, some partition⟩], st, tr))
    (hp : partition ≠ "") (hf : filename ≠ "")
    (hres : partitionResolved
      (eventsSince tr (WriteRawImageFn env name state argv t).trace) = true)
    (hctx : contextOpened
      (eventsSince tr (WriteRawImageFn env name state argv t).trace) = true)
    (hsrc : sourceOpened
      (eventsSince tr (WriteRawImageFn env name state argv t).trace) = true) :
    ∃ m c fh L e cl,
      eventsSince tr (WriteRawImageFn env name state argv t).trace
        = [Ev.mtd_scan_partitions, Ev.mtd_find_partition_by_name partition (some m),
            Ev.mtd_write_partition m (some c), Ev.fopen filename "rb" (some fh)] ++ L
          ++ [Ev.fclose fh, Ev.mtd_erase_blocks c (-1) e, Ev.mtd_write_close c cl] ∧
      onlyReadsAndWrites L = true ∧
      eraseCount (eventsSince tr (WriteRawImageFn env name state argv t).trace) = 1 ∧
      closeCount (eventsSince tr (WriteRawImageFn env name state argv t).trace) = 1 ∧
      (WriteRawImageFn env name state argv t).state = st ∧
      (WriteRawImageFn env name state argv t).value
        = StringValue (some (if allWritesFull L = true then partition else "")) := by
  rcases WriteRawImageFn_file_cases env name state argv t filename partition sz1 sz2 st tr
      hargs hp hf with h | ⟨m, h⟩ | ⟨m, c, h⟩ | ⟨m, c, fh, L, e, cl, hL, h⟩
  · simp [h, eventsSince, partitionResolved] at hres
  · simp [h, eventsSince, contextOpened] at hctx
  · simp [h, eventsSince, sourceOpened] at hsrc
  · have hn := onlyReadsAndWrites_counts L hL
    refine ⟨m, c, fh, L, e, cl, ?_, hL, ?_, ?_, ?_, ?_⟩
    · simp [h, eventsSince]
    · have h0 := hn.1
      unfold eraseCount at h0 ⊢
      simp only [h, eventsSince, List.drop_left, List.countP_append, h0]
      simp [List.countP_cons]
    · have h0 := hn.2.1
      unfold closeCount at h0 ⊢
      simp only [h, eventsSince, List.drop_left, List.countP_append, h0]
      simp [List.countP_cons]
    · simp [h]
    · simp [h]

/-- Witness of C10: `write_raw_image("/tmp/boot.img", "boot")` with a write
context that accepts every byte returns `"boot"`. -/
theorem WriteRawImageFn_erase_close_once_witness :
    ∃ m c fh L e cl,
      eventsSince [] (WriteRawImageFn goodEnv "write_raw_image" ⟨none⟩
          [strExpr "/tmp/boot.img", strExpr "boot"] []).trace
        = [Ev.mtd_scan_partitions, Ev.mtd_find_partition_by_name "boot" (some m),
            Ev.mtd_write_partition m (some c), Ev.fopen "/tmp/boot.img" "rb" (some fh)] ++ L
          ++ [Ev.fclose fh, Ev.mtd_erase_blocks c (-1) e, Ev.mtd_write_close c cl] ∧
      onlyReadsAndWrites L = true ∧
      eraseCount (eventsSince [] (WriteRawImageFn goodEnv "write_raw_image" ⟨none⟩
          [strExpr "/tmp/boot.img", strExpr "boot"] []).trace) = 1 ∧
      closeCount (eventsSince [] (WriteRawImageFn goodEnv "write_raw_image" ⟨none⟩
          [strExpr "/tmp/boot.img", strExpr "boot"] []).trace) = 1 ∧
      (WriteRawImageFn goodEnv "write_raw_image" ⟨none⟩
          [strExpr "/tmp/boot.img", strExpr "boot"] []).state = ⟨none⟩ ∧
      (WriteRawImageFn goodEnv "write_raw_image" ⟨none⟩
          [strExpr "/tmp/boot.img", strExpr "boot"] []).value
        = StringValue (some (if allWritesFull L = true then "boot" else "")) :=
  WriteRawImageFn_erase_close_once goodEnv "write_raw_image" ⟨none⟩
    [strExpr "/tmp/boot.img", strExpr "boot"] [] "/tmp/boot.img" "boot" 13 4 ⟨none⟩ []
    rfl (by decide) (by decide) (by decide) (by decide) (by decide)

/-- Events appended to a history are the events since that history. -/
theorem eventsSince_append_left (t E : Trace) : eventsSince t (t ++ E) = E := by
  unfold eventsSince
  exact List.drop_left t E

/-! ## `apply_patch` and `apply_patch_space` -/

/-- The run of leading digits is empty exactly when the list does not start
with a digit. -/
theorem takeWhile_isDigit_length (cs : List Char) :
    (cs.takeWhile Char.isDigit).length = 0 ↔ startsWithDigit cs = false := by
  cases cs with
  | nil => simp [startsWithDigit]
  | cons c cs =>
    cases h : c.isDigit <;> simp [startsWithDigit, List.takeWhile, h]

/-- The digits `strtol` looks at are those the byte-count test looks at. -/
theorem strtolSign_body (rest : List Char) : (strtolSign rest).2.2 = afterSign rest := by
  unfold strtolSign afterSign
  split <;> simp_all

/-- `strtol` converts nothing exactly when the string does not parse as a byte
count, and then its value is 0. -/
theorem strtol_end_zero_iff (L : Int) (s : String) :
    ((strtol L s).2 = 0 ↔ parsesAsByteCount s = false) ∧
    ((strtol L s).2 = 0 → (strtol L s).1 = 0) := by
  unfold strtol parsesAsByteCount
  rw [← strtolSign_body]
  generalize strtolSign (s.data.dropWhile isspace) = sign
  generalize (s.data.takeWhile isspace).length = ws
  by_cases h : (sign.2.2.takeWhile Char.isDigit).length = 0
  · simp [h, (takeWhile_isDigit_length sign.2.2).mp h]
  · have h2 : startsWithDigit sign.2.2 = true := by
      cases hb : startsWithDigit sign.2.2 with
      | true => rfl
      | false => exact absurd ((takeWhile_isDigit_length sign.2.2).mpr hb) h
    simp only [h, if_false, h2]
    constructor
    · constructor
      · intro h0; omega
      · intro h0; exact absurd h0 (by decide)
    · intro h0; omega

/-- C11: an `apply_patch` call with fewer than 6 arguments or an odd number of
them returns `NULL` and records the message stating the count it received;
the state is otherwise untouched and the trace is unchanged, so no argument
is evaluated and the patch subsystem is not invoked; the outcome is the same
for every list of argument expressions of that length. -/
theorem ApplyPatchFn_bad_count_aborts (env : Env) (name : String) (state : State)
    (argv : List Expr) (t : Trace)
    (hbad : argv.length < 6 ∨ argv.length % 2 = 1) :
    ApplyPatchFn env name state argv t
      = ⟨none,
          ErrorAbort state
            (name ++ "(): expected at least 6 args and an even number, got "
              ++ toString (argv.length : Int)), t⟩ ∧
    ∀ argv2 : List Expr, argv2.length = argv.length →
      ApplyPatchFn env name state argv2 t = ApplyPatchFn env name state argv t := by
  have hc : ∀ a : List Expr, a.length = argv.length →
      ((a.length : Int) < 6 ∨ (a.length : Int) % 2 = 1) := by
    intro a ha
    rw [ha]
    rcases hbad with h | h
    · left; exact_mod_cast h
    · right; exact_mod_cast h
  have hval : ∀ a : List Expr, a.length = argv.length →
      ApplyPatchFn env name state a t
        = ⟨none,
            ErrorAbort state
              (name ++ "(): expected at least 6 args and an even number, got "
                ++ toString (argv.length : Int)), t⟩ := by
    intro a ha
    have h := hc a ha
    unfold ApplyPatchFn
    simp only []
    rw [if_pos h, ha]
  exact ⟨hval argv rfl, fun a ha => (hval a ha).trans (hval argv rfl).symm⟩

/-- Witness of C11: `apply_patch` with five arguments that would each leave an
event if evaluated. -/
theorem ApplyPatchFn_bad_count_aborts_witness :
    ApplyPatchFn goodEnv "apply_patch" ⟨none⟩
        [clockExpr, clockExpr, clockExpr, clockExpr, clockExpr] []
      = ⟨none,
          ⟨some "apply_patch(): expected at least 6 args and an even number, got 5"⟩, []⟩ :=
  (ApplyPatchFn_bad_count_aborts goodEnv "apply_patch" ⟨none⟩
    [clockExpr, clockExpr, clockExpr, clockExpr, clockExpr] [] (Or.inl (by decide))).1

/-- `ReadValueArgs` returns one value for each expression. -/
theorem ReadValueArgs_length :
    ∀ (es : List Expr) (st : State) (t : Trace) (vs : List Value) (st2 : State) (t2 : Trace),
      ReadValueArgs st t es = (some vs, st2, t2) → vs.length = es.length := by
  intro es
  induction es with
  | nil =>
    intro st t vs st2 t2 h
    simp only [ReadValueArgs, Prod.mk.injEq, Option.some.injEq] at h
    rw [← h.1]
    rfl
  | cons e es ih =>
    intro st t vs st2 t2 h
    unfold ReadValueArgs at h
    simp only [] at h
    cases hv : (EvaluateValue st t e).value with
    | none =>
      rw [hv] at h
      simp at h
    | some v =>
      rw [hv] at h
      simp only [] at h
      cases hr : ReadValueArgs (EvaluateValue st t e).state (EvaluateValue st t e).trace es with
      | mk o rest =>
        obtain ⟨st3, t3⟩ := rest
        rw [hr] at h
        cases o with
        | none => simp at h
        | some ws =>
          simp only [Prod.mk.injEq, Option.some.injEq] at h
          rw [← h.1, List.length_cons, List.length_cons, ih _ _ ws st3 t3 hr]

/-- The type check of `ApplyPatchFn` runs to the end, leaving the state as it
was, when the candidates it looks at alternate string, blob. -/
theorem typeCheckLoop_ok (name : String) (patches : List Value) :
    ∀ (n i : Nat) (st : State),
      (∀ j, i ≤ j → j < i + n →
        (patches[j * 2]?).map (fun v => v.type) = some ValueType.VAL_STRING ∧
        (patches[j * 2 + 1]?).map (fun v => v.type) = some ValueType.VAL_BLOB) →
      typeCheckLoop name patches n i st = (i + n, st) := by
  intro n
  induction n with
  | zero =>
    intro i st _
    rfl
  | succ n ih =>
    intro i st h
    obtain ⟨h1, h2⟩ := h i (Nat.le_refl i) (by omega)
    cases hs : patches[i * 2]? with
    | none => rw [hs] at h1; simp at h1
    | some sha =>
      cases hp : patches[i * 2 + 1]? with
      | none => rw [hp] at h2; simp at h2
      | some patch =>
        rw [hs] at h1
        rw [hp] at h2
        simp only [Option.map_some', Option.some.injEq] at h1 h2
        unfold typeCheckLoop
        simp only [hs, hp, h1, h2, ne_eq, not_true_eq_false, if_false]
        rw [ih (i + 1) st (fun j hj1 hj2 => h j (by omega) (by omega))]
        congr 1
        omega

/-- The compaction loop of `ApplyPatchFn`, started at turn `i` on an array
that still holds the original values from index `i` on.  The hashes of the
pairs `i`, ..., `i + n - 1` are appended in order; the blob of pair `j` ends
at index `j`; the entries below `i` are not touched. -/
theorem compactLoop_spec (orig : List Value) :
    ∀ (n i : Nat) (shas : List (Option String)) (P : List Value),
      P.length = orig.length → (∀ j, i ≤ j → P[j]? = orig[j]?) →
      2 * (i + n) ≤ orig.length →
      (compactLoop n i shas P).1
          = shas ++ (List.range' i n).map (fun j => (orig[j * 2]?).bind fun v => v.data) ∧
        (compactLoop n i shas P).2.length = orig.length ∧
        (∀ j, j < i → (compactLoop n i shas P).2[j]? = P[j]?) ∧
        (∀ j, i ≤ j → j < i + n → (compactLoop n i shas P).2[j]? = orig[j * 2 + 1]?) := by
  intro n
  induction n with
  | zero =>
    intro i shas P hl hP hb
    refine ⟨by simp [compactLoop], by simp [compactLoop, hl], fun j _ => by simp [compactLoop],
      fun j h1 h2 => by omega⟩
  | succ n ih =>
    intro i shas P hl hP hb
    have hs : P[i * 2]? = some (orig.get ⟨i * 2, by omega⟩) := by
      rw [hP (i * 2) (by omega)]
      exact List.getElem?_eq_getElem (by omega)
    have hp : P[i * 2 + 1]? = some (orig.get ⟨i * 2 + 1, by omega⟩) := by
      rw [hP (i * 2 + 1) (by omega)]
      exact List.getElem?_eq_getElem (by omega)
    have hstep : compactLoop (n + 1) i shas P
        = compactLoop n (i + 1) (shas ++ [(orig.get ⟨i * 2, by omega⟩).data])
            (P.set i (orig.get ⟨i * 2 + 1, by omega⟩)) := by
      conv_lhs => unfold compactLoop
      simp only [hs, hp]
    obtain ⟨e1, e2, e3, e4⟩ := ih (i + 1) (shas ++ [(orig.get ⟨i * 2, by omega⟩).data])
      (P.set i (orig.get ⟨i * 2 + 1, by omega⟩)) (by rw [List.length_set, hl])
      (fun j hj => by rw [List.getElem?_set_ne (by omega)]; exact hP j (by omega))
      (by omega)
    rw [hstep]
    refine ⟨?_, e2, ?_, ?_⟩
    · rw [e1, List.range'_succ, List.map_cons, List.append_assoc]
      have : (orig[i * 2]?).bind (fun v => v.data) = (orig.get ⟨i * 2, by omega⟩).data := by
        rw [List.getElem?_eq_getElem (by omega)]
        rfl
      rw [this]
      rfl
    · intro j hj
      rw [e3 j (by omega), List.getElem?_set_ne (by omega)]
    · intro j hj1 hj2
      by_cases hji : j = i
      · subst hji
        rw [e3 j (by omega), List.getElem?_set, if_pos rfl, if_pos (by omega)]
        exact (List.getElem?_eq_getElem (by omega)).symm
      · exact e4 j (by omega) (by omega)

/-- C12: for every `apply_patch` call with an even argument count `n >= 6`
whose four leading arguments evaluate to strings, whose size argument parses
as a byte count, whose candidate arguments evaluate (to `vals`) and alternate
string, blob: the only event after the evaluation of the arguments is one
call of `applypatch`, with candidate count `(n - 4) / 2`, a hash list whose
`i`-th element is the payload of the value of argument `4 + 2i` and a blob
list whose `i`-th element is the value of argument `5 + 2i`; the result is
`"t"` if the call returns 0 and the empty string otherwise, and no message is
recorded. -/
theorem ApplyPatchFn_invokes_patch_once (env : Env) (name : String) (state : State)
    (argv : List Expr) (tr : Trace) (src tgt sha1 size_str : String) (st1 : State)
    (t1 : Trace) (vals : List Value) (st2 : State) (t2 : Trace)
    (hlen : 6 ≤ argv.length) (heven : argv.length % 2 = 0)
    (hargs : ReadArgs state tr (argv.take 4) = (some [src, tgt, sha1, size_str], st1, t1))
    (hparse : parsesAsByteCount size_str = true)
    (hvals : ReadValueVarArgs st1 t1 (argv.drop 4) = (some vals, st2, t2))
    (halt : ∀ i, i < (argv.length - 4) / 2 →
      (vals[i * 2]?).map (fun v => v.type) = some ValueType.VAL_STRING ∧
      (vals[i * 2 + 1]?).map (fun v => v.type) = some ValueType.VAL_BLOB) :
    ∃ (shas : List (Option String)) (blobs : List Value) (ret : Int),
      eventsSince t2 (ApplyPatchFn env name state argv tr).trace
        = [Ev.applypatch src tgt sha1
            (toSizeT env.SIZE_MAX (strtol env.LONG_MAX size_str).1)
            (((argv.length - 4) / 2 : Nat) : Int) shas blobs ret] ∧
      ret = env.applypatch t2 src tgt sha1
            (toSizeT env.SIZE_MAX (strtol env.LONG_MAX size_str).1)
            (((argv.length - 4) / 2 : Nat) : Int) shas blobs ∧
      vals.length = argv.length - 4 ∧
      shas.length = (argv.length - 4) / 2 ∧
      blobs.length = (argv.length - 4) / 2 ∧
      (∀ i, i < (argv.length - 4) / 2 →
        shas[i]? = (vals[2 * i]?).map (fun v => v.data) ∧ blobs[i]? = vals[2 * i + 1]?) ∧
      (ApplyPatchFn env name state argv tr).value
        = StringValue (some (if ret = 0 then "t" else "")) ∧
      (ApplyPatchFn env name state argv tr).state = st2 := by
  have hc : ¬ (((argv.length : Nat) : Int) < 6 ∨ ((argv.length : Nat) : Int) % 2 = 1) := by
    omega
  have hp : ¬ (toSizeT env.SIZE_MAX (strtol env.LONG_MAX size_str).1 = 0
      ∧ (strtol env.LONG_MAX size_str).2 = 0) := by
    intro h
    have := (strtol_end_zero_iff env.LONG_MAX size_str).1.mp h.2
    rw [hparse] at this
    exact absurd this (by decide)
  have hvl : vals.length = argv.length - 4 := by
    have := ReadValueArgs_length (argv.drop 4) st1 t1 vals st2 t2 hvals
    rw [this, List.length_drop]
  have htc := typeCheckLoop_ok name vals ((argv.length - 4) / 2) 0 st2
    (fun j _ hj => halt j (by omega))
  obtain ⟨c1, c2, _, c4⟩ := compactLoop_spec vals ((argv.length - 4) / 2) 0 [] vals rfl
    (fun _ _ => rfl) (by omega)
  have hout : ApplyPatchFn env name state argv tr
      = ⟨StringValue (some (if env.applypatch t2 src tgt sha1
              (toSizeT env.SIZE_MAX (strtol env.LONG_MAX size_str).1)
              (((argv.length - 4) / 2 : Nat) : Int)
              (compactLoop ((argv.length - 4) / 2) 0 [] vals).1
              ((compactLoop ((argv.length - 4) / 2) 0 [] vals).2.take
                ((argv.length - 4) / 2)) = 0 then "t" else "")),
          st2,
          t2 ++ [Ev.applypatch src tgt sha1
            (toSizeT env.SIZE_MAX (strtol env.LONG_MAX size_str).1)
            (((argv.length - 4) / 2 : Nat) : Int)
            (compactLoop ((argv.length - 4) / 2) 0 [] vals).1
            ((compactLoop ((argv.length - 4) / 2) 0 [] vals).2.take
              ((argv.length - 4) / 2))
            (env.applypatch t2 src tgt sha1
              (toSizeT env.SIZE_MAX (strtol env.LONG_MAX size_str).1)
              (((argv.length - 4) / 2 : Nat) : Int)
              (compactLoop ((argv.length - 4) / 2) 0 [] vals).1
              ((compactLoop ((argv.length - 4) / 2) 0 [] vals).2.take
                ((argv.length - 4) / 2)))]⟩ := by
    unfold ApplyPatchFn
    simp only []
    rw [if_neg hc, hargs]
    simp only []
    rw [if_neg hp, hvals]
    simp only []
    rw [htc]
    simp only [zero_add, ne_eq, not_true_eq_false, if_false]
  refine ⟨(compactLoop ((argv.length - 4) / 2) 0 [] vals).1,
    (compactLoop ((argv.length - 4) / 2) 0 [] vals).2.take ((argv.length - 4) / 2),
    env.applypatch t2 src tgt sha1
      (toSizeT env.SIZE_MAX (strtol env.LONG_MAX size_str).1)
      (((argv.length - 4) / 2 : Nat) : Int)
      (compactLoop ((argv.length - 4) / 2) 0 [] vals).1
      ((compactLoop ((argv.length - 4) / 2) 0 [] vals).2.take ((argv.length - 4) / 2)),
    ?_, rfl, hvl, ?_, ?_, ?_, ?_, ?_⟩
  · rw [hout]
    exact eventsSince_append_left t2 _
  · rw [c1]
    simp
  · rw [List.length_take, c2]
    omega
  · intro i hi
    constructor
    · rw [c1, List.nil_append, List.getElem?_map, List.getElem?_range' 0 1 hi]
      have h2 : 2 * i < vals.length := by omega
      simp only [Option.map_some', zero_add, one_mul, Nat.mul_comm i 2,
        List.getElem?_eq_getElem h2, Option.some_bind]
    · rw [List.getElem?_take_of_lt hi, c4 i (Nat.zero_le i) (by omega), Nat.mul_comm i 2]
  · rw [hout]
  · rw [hout]

/-- Witness of C12: `apply_patch` with two candidates on a device where the
patch applies.  The one call gets the hashes `h1`, `h2` and the blobs `p1`,
`p2`, in script order, and the result is `"t"`. -/
theorem ApplyPatchFn_invokes_patch_once_witness :
    (ApplyPatchFn goodEnv "apply_patch" ⟨none⟩ patchArgs []).trace
      = [Ev.applypatch "/system/app/A.apk" "-" "aa" 100 2 [some "h1", some "h2"]
          [{ type := ValueType.VAL_BLOB, size := 2, data := some "p1" },
            { type := ValueType.VAL_BLOB, size := 2, data := some "p2" }] 0] ∧
    (ApplyPatchFn goodEnv "apply_patch" ⟨none⟩ patchArgs []).value = StringValue (some "t") ∧
    ∃ (shas : List (Option String)) (blobs : List Value) (ret : Int),
      eventsSince [] (ApplyPatchFn goodEnv "apply_patch" ⟨none⟩ patchArgs []).trace
        = [Ev.applypatch "/system/app/A.apk" "-" "aa"
            (toSizeT goodEnv.SIZE_MAX (strtol goodEnv.LONG_MAX "100").1)
            (((patchArgs.length - 4) / 2 : Nat) : Int) shas blobs ret] ∧
      ret = goodEnv.applypatch [] "/system/app/A.apk" "-" "aa"
            (toSizeT goodEnv.SIZE_MAX (strtol goodEnv.LONG_MAX "100").1)
            (((patchArgs.length - 4) / 2 : Nat) : Int) shas blobs ∧
      [({ type := ValueType.VAL_STRING, size := 2, data := some "h1" } : Value),
          { type := ValueType.VAL_BLOB, size := 2, data := some "p1" },
          { type := ValueType.VAL_STRING, size := 2, data := some "h2" },
          { type := ValueType.VAL_BLOB, size := 2, data := some "p2" }].length
        = patchArgs.length - 4 ∧
      shas.length = (patchArgs.length - 4) / 2 ∧
      blobs.length = (patchArgs.length - 4) / 2 ∧
      (∀ i, i < (patchArgs.length - 4) / 2 →
        shas[i]? = ([({ type := ValueType.VAL_STRING, size := 2, data := some "h1" } : Value),
            { type := ValueType.VAL_BLOB, size := 2, data := some "p1" },
            { type := ValueType.VAL_STRING, size := 2, data := some "h2" },
            { type := ValueType.VAL_BLOB, size := 2, data := some "p2" }][2 * i]?).map
              (fun v => v.data) ∧
        blobs[i]? = [({ type := ValueType.VAL_STRING, size := 2, data := some "h1" } : Value),
            { type := ValueType.VAL_BLOB, size := 2, data := some "p1" },
            { type := ValueType.VAL_STRING, size := 2, data := some "h2" },
            { type := ValueType.VAL_BLOB, size := 2, data := some "p2" }][2 * i + 1]?) ∧
      (ApplyPatchFn goodEnv "apply_patch" ⟨none⟩ patchArgs []).value
        = StringValue (some (if ret = 0 then "t" else "")) ∧
      (ApplyPatchFn goodEnv "apply_patch" ⟨none⟩ patchArgs []).state = ⟨none⟩ :=
  ⟨by decide, by decide,
    ApplyPatchFn_invokes_patch_once goodEnv "apply_patch" ⟨none⟩ patchArgs []
      "/system/app/A.apk" "-" "aa" "100" ⟨none⟩ []
      [{ type := ValueType.VAL_STRING, size := 2, data := some "h1" },
        { type := ValueType.VAL_BLOB, size := 2, data := some "p1" },
        { type := ValueType.VAL_STRING, size := 2, data := some "h2" },
        { type := ValueType.VAL_BLOB, size := 2, data := some "p2" }] ⟨none⟩ []
      (by decide) (by decide) rfl (by decide) rfl (by decide)⟩

/-- C13: when its argument evaluates, `apply_patch_space` aborts, without
consulting the capacity check, if the string cannot be parsed as a decimal
byte count; otherwise it consults the capacity check once, for the parsed
count, and returns `"t"` exactly when the check reports sufficient space
(returns 0) and the empty string when it reports insufficient space. -/
theorem ApplyPatchSpaceFn_result (env : Env) (name : String) (state : State)
    (argv : List Expr) (t : Trace) (bytes_str : String) (st : State) (tr : Trace)
    (hargs : ReadArgs state t (argv.take 1) = (some [bytes_str], st, tr)) :
    (parsesAsByteCount bytes_str = false →
      ApplyPatchSpaceFn env name state argv t
        = ⟨none,
            ErrorAbort st
              (name ++ "(): can't parse \"" ++ bytes_str ++ "\" as byte count\n\n"), tr⟩) ∧
    (parsesAsByteCount bytes_str = true →
      ApplyPatchSpaceFn env name state argv t
        = ⟨StringValue (some
              (if env.CacheSizeCheck tr
                    (toSizeT env.SIZE_MAX (strtol env.LONG_MAX bytes_str).1) = 0
               then "t" else "")), st,
            tr ++ [Ev.CacheSizeCheck (toSizeT env.SIZE_MAX (strtol env.LONG_MAX bytes_str).1)
              (env.CacheSizeCheck tr
                (toSizeT env.SIZE_MAX (strtol env.LONG_MAX bytes_str).1))]⟩) := by
  have hs := strtol_end_zero_iff env.LONG_MAX bytes_str
  constructor
  · intro hp
    have h0 : (strtol env.LONG_MAX bytes_str).2 = 0 := hs.1.mpr hp
    have h1 : (strtol env.LONG_MAX bytes_str).1 = 0 := hs.2 h0
    simp [ApplyPatchSpaceFn, hargs, h0, h1, toSizeT]
  · intro hp
    have h0 : (strtol env.LONG_MAX bytes_str).2 ≠ 0 := by
      intro h
      rw [hs.1.mp h] at hp
      exact absurd hp (by decide)
    by_cases hc : env.CacheSizeCheck tr
        (toSizeT env.SIZE_MAX (strtol env.LONG_MAX bytes_str).1) = 0
    · simp [ApplyPatchSpaceFn, hargs, h0, hc]
    · simp [ApplyPatchSpaceFn, hargs, h0, hc]

/-- Witness of C13: `apply_patch_space("x")` aborts and adds no event. -/
theorem ApplyPatchSpaceFn_result_witness :
    ApplyPatchSpaceFn goodEnv "apply_patch_space" ⟨none⟩ [strExpr "x"] []
      = ⟨none, ⟨some "apply_patch_space(): can't parse \"x\" as byte count\n\n"⟩, []⟩ ∧
    ApplyPatchSpaceFn goodEnv "apply_patch_space" ⟨none⟩ [strExpr "4096"] []
      = ⟨StringValue (some "t"), ⟨none⟩, [Ev.CacheSizeCheck 4096 0]⟩ ∧
    ApplyPatchSpaceFn deadEnv "apply_patch_space" ⟨none⟩ [strExpr "4096"] []
      = ⟨StringValue (some ""), ⟨none⟩, [Ev.CacheSizeCheck 4096 1]⟩ :=
  ⟨(ApplyPatchSpaceFn_result goodEnv "apply_patch_space" ⟨none⟩ [strExpr "x"] [] "x" ⟨none⟩ []
      rfl).1 (by decide),
   (ApplyPatchSpaceFn_result goodEnv "apply_patch_space" ⟨none⟩ [strExpr "4096"] [] "4096"
      ⟨none⟩ [] rfl).2 (by decide),
   (ApplyPatchSpaceFn_result deadEnv "apply_patch_space" ⟨none⟩ [strExpr "4096"] [] "4096"
      ⟨none⟩ [] rfl).2 (by decide)⟩

/-! ## `package_extract_dir` -/

/-- Counterexample to C15 as stated: the epoch value of 2008-08-01T00:00:00Z is
1217548800, not the 1217592000 of the code. -/
theorem extractTimestamp_not_midnight :
    epochOfUtc 2008 8 1 0 0 0 = 1217548800 ∧
    extractTimestamp.modtime ≠ (epochOfUtc 2008 8 1 0 0 0 : Int) := by
  decide

/-- C15 (amended): the access and modification time that `package_extract_dir`
forces, 1217592000 seconds since the Unix epoch, is the instant
2008-08-01T12:00:00Z, noon of the day named in the code. -/
theorem extractTimestamp_instant :
    extractTimestamp.modtime = 1217592000 ∧
    extractTimestamp.actime = 1217592000 ∧
    extractTimestamp.modtime = (epochOfUtc 2008 8 1 12 0 0 : Int) := by
  decide

/-- C16: a one-argument `package_extract_file` whose path evaluates does not
abort and returns a blob.  The blob carries the uncompressed length of the
entry and the extracted bytes when the entry is found, the buffer is
allocated and the decompression succeeds; in every other case it is the
absent blob (length -1, no payload).  No returned blob lacks its payload
while keeping a length other than -1. -/
theorem PackageExtractFileFn_one_arg (env : Env) (name : String) (state : State)
    (argv : List Expr) (t : Trace) (zip_path : String) (st : State) (tr : Trace)
    (hlen : argv.length = 1)
    (hargs : ReadArgs state t (argv.take 1) = (some [zip_path], st, tr)) :
    ((PackageExtractFileFn env name state argv t
        = ⟨some absentBlob, st, tr ++ [Ev.mzFindZipEntry env.package_zip zip_path none]⟩)
     ∨ (∃ en len, PackageExtractFileFn env name state argv t
        = ⟨some absentBlob, st,
            tr ++ [Ev.mzFindZipEntry env.package_zip zip_path (some en),
              Ev.mzGetZipEntryUncompLen en len, Ev.malloc len false]⟩)
     ∨ (∃ en len bytes, PackageExtractFileFn env name state argv t
        = ⟨some absentBlob, st,
            tr ++ [Ev.mzFindZipEntry env.package_zip zip_path (some en),
              Ev.mzGetZipEntryUncompLen en len, Ev.malloc len true,
              Ev.mzExtractZipEntryToBuffer env.package_zip en false bytes]⟩)
     ∨ (∃ en len bytes, PackageExtractFileFn env name state argv t
        = ⟨some ⟨ValueType.VAL_BLOB, len, some bytes⟩, st,
            tr ++ [Ev.mzFindZipEntry env.package_zip zip_path (some en),
              Ev.mzGetZipEntryUncompLen en len, Ev.malloc len true,
              Ev.mzExtractZipEntryToBuffer env.package_zip en true bytes]⟩)) ∧
    (∃ v, (PackageExtractFileFn env name state argv t).value = some v ∧
      v.type = ValueType.VAL_BLOB ∧ (v.data = none → v.size = -1)) ∧
    (PackageExtractFileFn env name state argv t).state = st := by
  have hcases :
      (PackageExtractFileFn env name state argv t
        = ⟨some absentBlob, st, tr ++ [Ev.mzFindZipEntry env.package_zip zip_path none]⟩)
     ∨ (∃ en len, PackageExtractFileFn env name state argv t
        = ⟨some absentBlob, st,
            tr ++ [Ev.mzFindZipEntry env.package_zip zip_path (some en),
              Ev.mzGetZipEntryUncompLen en len, Ev.malloc len false]⟩)
     ∨ (∃ en len bytes, PackageExtractFileFn env name state argv t
        = ⟨some absentBlob, st,
            tr ++ [Ev.mzFindZipEntry env.package_zip zip_path (some en),
              Ev.mzGetZipEntryUncompLen en len, Ev.malloc len true,
              Ev.mzExtractZipEntryToBuffer env.package_zip en false bytes]⟩)
     ∨ (∃ en len bytes, PackageExtractFileFn env name state argv t
        = ⟨some ⟨ValueType.VAL_BLOB, len, some bytes⟩, st,
            tr ++ [Ev.mzFindZipEntry env.package_zip zip_path (some en),
              Ev.mzGetZipEntryUncompLen en len, Ev.malloc len true,
              Ev.mzExtractZipEntryToBuffer env.package_zip en true bytes]⟩) := by
    simp only [PackageExtractFileFn, hlen, hargs, Nat.cast_one, ne_eq, not_true_eq_false,
      false_and, if_false, OfNat.one_ne_ofNat, List.append_assoc, List.singleton_append,
      List.cons_append, List.nil_append, absentBlob]
    generalize env.mzFindZipEntry _ _ _ = entry
    cases entry with
    | none => left; rfl
    | some en =>
      right
      simp only []
      generalize env.mzGetZipEntryUncompLen _ _ = len
      generalize env.malloc _ _ = buffer
      cases buffer with
      | false => left; exact ⟨en, len, by simp⟩
      | true =>
        right
        simp only [Bool.true_eq_false, if_false]
        generalize env.mzExtractZipEntryToBuffer _ _ _ = r
        rcases r with ⟨ok, bytes⟩
        cases ok with
        | false => left; exact ⟨en, len, bytes, by simp⟩
        | true => right; exact ⟨en, len, bytes, by simp⟩
  refine ⟨hcases, ?_, ?_⟩
  · rcases hcases with h | ⟨en, len, h⟩ | ⟨en, len, bytes, h⟩ | ⟨en, len, bytes, h⟩
    · exact ⟨absentBlob, by rw [h], rfl, fun _ => rfl⟩
    · exact ⟨absentBlob, by rw [h], rfl, fun _ => rfl⟩
    · exact ⟨absentBlob, by rw [h], rfl, fun _ => rfl⟩
    · exact ⟨⟨ValueType.VAL_BLOB, len, some bytes⟩, by rw [h], rfl,
        fun hd => absurd hd (by simp)⟩
  · rcases hcases with h | ⟨en, len, h⟩ | ⟨en, len, bytes, h⟩ | ⟨en, len, bytes, h⟩ <;>
      rw [h]

/-- Witness of C16: `package_extract_file("boot.img")` on a package that holds
the entry, and on one that does not. -/
theorem PackageExtractFileFn_one_arg_witness :
    (PackageExtractFileFn goodEnv "package_extract_file" ⟨none⟩ [strExpr "boot.img"] []).value
      = some ⟨ValueType.VAL_BLOB, 5, some "hello"⟩ ∧
    (PackageExtractFileFn deadEnv "package_extract_file" ⟨none⟩ [strExpr "boot.img"] []).value
      = some absentBlob ∧
    (PackageExtractFileFn deadEnv "package_extract_file" ⟨none⟩ [strExpr "boot.img"]
      []).state = ⟨none⟩ :=
  ⟨by decide, by decide,
   (PackageExtractFileFn_one_arg deadEnv "package_extract_file" ⟨none⟩ [strExpr "boot.img"] []
      "boot.img" ⟨none⟩ [] rfl rfl).2.2⟩

/-! ## `retouch_binaries` -/

/-- C17: for every non-negative clock value, the base offset that
`retouch_binaries` computes before its loop is `-4096 * max 1 (now mod 1024)`:
it is not zero, it is negative, a multiple of the 4096-byte page, within
`[-1023 * 4096, -4096]`, and nothing overflows a signed 32-bit integer (the
remainder and the product lie in the 32-bit range, so storing them changes
nothing). -/
theorem retouchBase_spec (now : Int) (hnow : 0 ≤ now) :
    retouchBase now = -4096 * max 1 (now % 1024) ∧
    retouchBase now ≠ 0 ∧
    retouchBase now < 0 ∧
    (4096 : Int) ∣ retouchBase now ∧
    -1023 * 4096 ≤ retouchBase now ∧ retouchBase now ≤ -4096 ∧
    wrapInt32 (Int.tmod now 1024) = Int.tmod now 1024 ∧
    -2147483648 ≤ max 1 (now % 1024) * (-4096) ∧
    max 1 (now % 1024) * (-4096) ≤ 2147483647 := by
  have htm : Int.tmod now 1024 = now % 1024 := Int.tmod_eq_emod hnow (by decide)
  have h0 : 0 ≤ now % 1024 := Int.emod_nonneg now (by decide)
  have h1 : now % 1024 < 1024 := Int.emod_lt_of_pos now (by decide)
  have hw : ∀ x : Int, -2147483648 ≤ x → x < 2147483648 → wrapInt32 x = x := by
    intro x hx1 hx2
    unfold wrapInt32
    omega
  have hr : retouchRandomOffset now = now % 1024 := by
    unfold retouchRandomOffset
    simp only [htm]
    rw [hw (now % 1024) (by omega) (by omega)]
    rw [Int.tmod_eq_emod h0 (by decide), hw _ (by omega) (by omega)]
    omega
  have hb : retouchBase now = -4096 * max 1 (now % 1024) := by
    unfold retouchBase
    simp only [hr]
    by_cases hz : now % 1024 = 0
    · simp [hz, wrapInt32]
    · have hm : max 1 (now % 1024) = now % 1024 := max_eq_right (by omega)
      rw [if_neg hz, hm, hw _ (by omega) (by omega)]
      ring
  have hmax : 1 ≤ max 1 (now % 1024) ∧ max 1 (now % 1024) ≤ 1023 := by
    constructor
    · exact le_max_left _ _
    · exact max_le (by decide) (by omega)
  refine ⟨hb, ?_, ?_, ?_, ?_, ?_, ?_, ?_, ?_⟩
  · rw [hb]; omega
  · rw [hb]; omega
  · rw [hb]; exact ⟨-(max 1 (now % 1024)), by ring⟩
  · rw [hb]; omega
  · rw [hb]; omega
  · rw [htm]; exact hw _ (by omega) (by omega)
  · omega
  · omega

/-- Witness of C17: a clock value that is a multiple of 1024 gives the base
`-4096`, not 0. -/
theorem retouchBase_spec_witness :
    retouchBase 1024 = -4096 * max 1 (1024 % 1024) ∧ retouchBase 1024 = -4096 :=
  ⟨(retouchBase_spec 1024 (by decide)).1, by decide⟩

/-- One turn of the retouch loop when `success` is already false: the pair is
not retouched, its input path is named in the error message and both its
entries are released. -/
theorem retouchLoop_pair_failed (env : Env) (a b : String) (rest : List String) (i : Nat)
    (rb ob : Int) (set : Bool) (st : State) (t : Trace) :
    retouchLoop env (a :: b :: rest) i false rb ob set st t
      = retouchLoop env rest (i + 2) false rb ob set
          (ErrorAbort st ("Failed to retouch '" ++ a ++ "'."))
          (t ++ [Ev.free_entry i a, Ev.free_entry (i + 1) b]) := by
  simp [retouchLoop]

/-- One turn of the retouch loop while `success` is true. -/
theorem retouchLoop_pair_ok (env : Env) (a b : String) (rest : List String) (i : Nat)
    (rb ob : Int) (set : Bool) (st : State) (t : Trace) :
    ∃ ret after,
      (set = true → after = ob) ∧
      retouchLoop env (a :: b :: rest) i true rb ob set st t
        = retouchLoop env rest (i + 2) ret
            (if ret = true ∧ after ≠ 0 then after else rb) after
            (if ret = true ∧ after ≠ 0 then true else set)
            (if ret = false then ErrorAbort st ("Failed to retouch '" ++ a ++ "'.") else st)
            (t ++ [Ev.retouch_one_library a b rb (if set = true then none else some ob)
                ret after,
              Ev.free_entry i a, Ev.free_entry (i + 1) b]) := by
  refine ⟨(env.retouch_one_library t a b rb (if set = true then none else some ob)).1,
    (if set = true then ob
      else (env.retouch_one_library t a b rb (if set = true then none else some ob)).2),
    ?_, ?_⟩
  · intro h; simp [h]
  · cases set with
    | true =>
      by_cases h : (env.retouch_one_library t a b rb none).1 = true ∧ ob ≠ 0
      · simp [retouchLoop, h]
      · simp only [retouchLoop, if_true, h, if_false, List.append_assoc,
          List.singleton_append, List.cons_append, List.nil_append]
    | false =>
      by_cases h : (env.retouch_one_library t a b rb (some ob)).1 = true
          ∧ (env.retouch_one_library t a b rb (some ob)).2 ≠ 0
      · simp [retouchLoop, h]
      · simp only [retouchLoop, if_true, h, if_false, Bool.false_eq_true, List.append_assoc,
          List.singleton_append, List.cons_append, List.nil_append]

/-- Induction over a list two elements at a time. -/
theorem list_pair_induction {α : Type} {P : List α → Prop} (h0 : P [])
    (h1 : ∀ a, P [a]) (h2 : ∀ a b rest, P rest → P (a :: b :: rest)) : ∀ l, P l
  | [] => h0
  | [a] => h1 a
  | a :: b :: rest => h2 a b rest (list_pair_induction h0 h1 h2 rest)

/-- What the retouch loop does.  Its events `E` follow the history; the
entries left are what remains after the pairs; every entry of a pair is
released once, in order; `success` at the end says that it was true at the
start and every retouch call succeeded; no call is made once `success` is
false; when `success` is true at the end every pair was retouched; and the
calls follow the rule of the override slot. -/
theorem retouchLoop_spec (env : Env) :
    ∀ (l : List String) (i : Nat) (s : Bool) (rb ob : Int) (set : Bool) (st : State)
      (t : Trace),
      ∃ E,
        (retouchLoop env l i s rb ob set st t).2.2.2.2 = t ++ E ∧
        (retouchLoop env l i s rb ob set st t).1 = l.drop (2 * (l.length / 2)) ∧
        (retouchLoop env l i s rb ob set st t).2.1 = i + 2 * (l.length / 2) ∧
        freedEntries E = (l.take (2 * (l.length / 2))).enumFrom i ∧
        (retouchLoop env l i s rb ob set st t).2.2.1
          = (s && (retouchCalls E).all fun c => c.2.2.1) ∧
        (s = false → retouchCalls E = []) ∧
        ((retouchLoop env l i s rb ob set st t).2.2.1 = true →
          (retouchCalls E).length = l.length / 2) ∧
        (set = true → rb = ob →
          ((retouchCalls E).all fun d => decide (d.1 = rb) && decide (d.2.1 = none)) = true) ∧
        (set = false → callsFollowOverride rb ob (retouchCalls E) = true) := by
  intro l
  induction l using list_pair_induction with
  | h0 =>
    intro i s rb ob set st t
    refine ⟨[], ?_⟩
    simp [retouchLoop, freedEntries, retouchCalls, callsFollowOverride]
  | h1 a =>
    intro i s rb ob set st t
    refine ⟨[], ?_⟩
    simp [retouchLoop, freedEntries, retouchCalls, callsFollowOverride]
  | h2 a b rest ih =>
    intro i s rb ob set st t
    have hlen : (a :: b :: rest).length / 2 = rest.length / 2 + 1 := by
      simp only [List.length_cons]
      omega
    have hdrop : (a :: b :: rest).drop (2 * ((a :: b :: rest).length / 2))
        = rest.drop (2 * (rest.length / 2)) := by
      rw [hlen]
      rfl
    have htake : ((a :: b :: rest).take (2 * ((a :: b :: rest).length / 2))).enumFrom i
        = (i, a) :: (i + 1, b) :: (rest.take (2 * (rest.length / 2))).enumFrom (i + 2) := by
      rw [hlen]
      rfl
    cases s with
    | false =>
      obtain ⟨E', e1, e2, e3, e4, e5, e6, e7, e8, e9⟩ := ih (i + 2) false rb ob set
        (ErrorAbort st ("Failed to retouch '" ++ a ++ "'."))
        (t ++ [Ev.free_entry i a, Ev.free_entry (i + 1) b])
      have hc : retouchCalls ([Ev.free_entry i a, Ev.free_entry (i + 1) b] ++ E') = [] := by
        have := e6 rfl
        unfold retouchCalls at this ⊢
        simp only [List.filterMap_append, List.filterMap_cons, List.filterMap_nil, this,
          List.append_nil]
      refine ⟨[Ev.free_entry i a, Ev.free_entry (i + 1) b] ++ E', ?_, ?_, ?_, ?_, ?_, ?_, ?_,
        ?_, ?_⟩
      · rw [retouchLoop_pair_failed, e1]; simp
      · rw [retouchLoop_pair_failed, e2, hdrop]
      · rw [retouchLoop_pair_failed, e3, hlen]; omega
      · rw [htake, ← e4]
        unfold freedEntries
        simp only [List.filterMap_append, List.filterMap_cons, List.filterMap_nil,
          List.cons_append, List.nil_append]
      · rw [retouchLoop_pair_failed, e5]; simp
      · intro _; exact hc
      · rw [retouchLoop_pair_failed, e5]; simp
      · intro _ _; rw [hc]; rfl
      · intro _; rw [hc]; rfl
    | true =>
      obtain ⟨ret, after, hset, heq⟩ := retouchLoop_pair_ok env a b rest i rb ob set st t
      obtain ⟨E', e1, e2, e3, e4, e5, e6, e7, e8, e9⟩ := ih (i + 2) ret
        (if ret = true ∧ after ≠ 0 then after else rb) after
        (if ret = true ∧ after ≠ 0 then true else set)
        (if ret = false then ErrorAbort st ("Failed to retouch '" ++ a ++ "'.") else st)
        (t ++ [Ev.retouch_one_library a b rb (if set = true then none else some ob) ret after,
          Ev.free_entry i a, Ev.free_entry (i + 1) b])
      have hc : retouchCalls
          ([Ev.retouch_one_library a b rb (if set = true then none else some ob) ret after,
            Ev.free_entry i a, Ev.free_entry (i + 1) b] ++ E')
          = (rb, (if set = true then none else some ob), ret, after) :: retouchCalls E' := by
        unfold retouchCalls
        simp only [List.filterMap_append, List.filterMap_cons, List.filterMap_nil,
          List.cons_append, List.nil_append]
      refine ⟨[Ev.retouch_one_library a b rb (if set = true then none else some ob) ret after,
          Ev.free_entry i a, Ev.free_entry (i + 1) b] ++ E', ?_, ?_, ?_, ?_, ?_, ?_, ?_,
        ?_, ?_⟩
      · rw [heq, e1]; simp
      · rw [heq, e2, hdrop]
      · rw [heq, e3, hlen]; omega
      · rw [htake, ← e4]
        unfold freedEntries
        simp only [List.filterMap_append, List.filterMap_cons, List.filterMap_nil,
          List.cons_append, List.nil_append]
      · rw [heq, e5, hc]; simp
      · intro h; exact absurd h (by decide)
      · rw [heq, e5, hc]
        intro h
        have hr : ret = true := by
          cases ret with
          | true => rfl
          | false => simp at h
        have := e7 (by rw [e5, hr]; simpa [hr] using h)
        simp only [List.length_cons, this]
        omega
      · intro hs hrb
        have ha : after = ob := hset hs
        have hrb' : (if ret = true ∧ after ≠ 0 then after else rb) = after := by
          split
          · rfl
          · rw [ha, hrb]
        have hset' : (if ret = true ∧ after ≠ 0 then true else set) = true := by
          split
          · rfl
          · exact hs
        have h8 := e8 hset' hrb'
        rw [hrb', ha, ← hrb] at h8
        rw [hc]
        simp only [List.all_cons, h8, hs, if_true, decide_True, Bool.and_self]
      · intro hs
        rw [hc]
        subst hs
        simp only [Bool.false_eq_true, if_false] at e8 e9 ⊢
        by_cases hcond : ret = true ∧ after ≠ 0
        · have h8 := e8 (by simp [hcond]) (by simp [hcond])
          simp only [hcond.1, hcond.2, ne_eq, not_false_eq_true, and_self, if_true] at h8
          simp only [callsFollowOverride, hcond.1, hcond.2, ne_eq, not_false_eq_true, and_self,
            if_true, h8, decide_True, Bool.and_self]
        · have h9 := e9 (by simp [hcond])
          rw [if_neg hcond] at h9
          simp only [callsFollowOverride, decide_True, Bool.and_self, Bool.true_and]
          rw [if_neg hcond]
          exact h9

/-- A list with fewer than two entries holds no pair: the retouch loop does
not run. -/
theorem retouchLoop_short (env : Env) (l : List String) (hl : l.length < 2) (i : Nat)
    (s : Bool) (rb ob : Int) (set : Bool) (st : State) (t : Trace) :
    retouchLoop env l i s rb ob set st t = (l, i, s, st, t) := by
  match l, hl with
  | [], _ => simp [retouchLoop]
  | [a], _ => simp [retouchLoop]
  | _ :: _ :: _, h => exact absurd h (by simp only [List.length_cons]; omega)

/-- Once `success` is false it stays false to the end of the retouch loop. -/
theorem retouchLoop_success_mono (env : Env) (l : List String) (i : Nat) (s : Bool)
    (rb ob : Int) (set : Bool) (st : State) (t : Trace)
    (h : (retouchLoop env l i s rb ob set st t).2.2.1 = true) : s = true := by
  obtain ⟨E, _, _, _, _, e5, _⟩ := retouchLoop_spec env l i s rb ob set st t
  rw [e5] at h
  cases s with
  | true => rfl
  | false => simp at h

/-- The message left by the retouch loop.  When the loop ends with `success`
false and held at least one pair, the recorded message names the input path
of the last pair of the list, whichever pair failed; otherwise the state is
unchanged. -/
theorem retouchLoop_state (env : Env) :
    ∀ (l : List String) (i : Nat) (s : Bool) (rb ob : Int) (set : Bool) (st : State)
      (t : Trace),
      (retouchLoop env l i s rb ob set st t).2.2.2.1 =
        if (retouchLoop env l i s rb ob set st t).2.2.1 = false ∧ 2 ≤ l.length then
          ErrorAbort st ("Failed to retouch '" ++ l.getD (2 * (l.length / 2) - 2) "" ++ "'.")
        else st := by
  intro l
  induction l using list_pair_induction with
  | h0 =>
    intro i s rb ob set st t
    simp [retouchLoop]
  | h1 a =>
    intro i s rb ob set st t
    simp [retouchLoop]
  | h2 a b rest ih =>
    intro i s rb ob set st t
    have hlen : 2 ≤ (a :: b :: rest).length := by simp
    have key : ∀ (s2 : Bool) (rb2 ob2 : Int) (set2 : Bool) (st2 : State) (t2 : Trace),
        (s2 = false → st2 = ErrorAbort st ("Failed to retouch '" ++ a ++ "'.")) →
        (s2 = true → st2 = st) →
        (retouchLoop env rest (i + 2) s2 rb2 ob2 set2 st2 t2).2.2.2.1 =
          if (retouchLoop env rest (i + 2) s2 rb2 ob2 set2 st2 t2).2.2.1 = false
              ∧ 2 ≤ (a :: b :: rest).length then
            ErrorAbort st ("Failed to retouch '"
              ++ (a :: b :: rest).getD (2 * ((a :: b :: rest).length / 2) - 2) "" ++ "'.")
          else st := by
      intro s2 rb2 ob2 set2 st2 t2 hf ht
      by_cases hr : 2 ≤ rest.length
      · rw [ih (i + 2) s2 rb2 ob2 set2 st2 t2]
        have hidx : (a :: b :: rest).getD (2 * ((a :: b :: rest).length / 2) - 2) ""
            = rest.getD (2 * (rest.length / 2) - 2) "" := by
          have h1 : 2 * ((a :: b :: rest).length / 2) - 2
              = (2 * (rest.length / 2) - 2) + 1 + 1 := by
            simp only [List.length_cons]
            omega
          rw [h1]
          rfl
        rw [hidx]
        by_cases hF : (retouchLoop env rest (i + 2) s2 rb2 ob2 set2 st2 t2).2.2.1 = false
        · rw [if_pos ⟨hF, hr⟩, if_pos ⟨hF, hlen⟩]
          cases s2 with
          | true => rw [ht rfl]
          | false => rw [hf rfl]; rfl
        · have hs2 := retouchLoop_success_mono env rest (i + 2) s2 rb2 ob2 set2 st2 t2
            (by simpa using hF)
          rw [if_neg (fun h => hF h.1), if_neg (fun h => hF h.1)]
          exact ht hs2
      · have hshort := retouchLoop_short env rest (by omega) (i + 2) s2 rb2 ob2 set2 st2 t2
        rw [hshort]
        have hidx : (a :: b :: rest).getD (2 * ((a :: b :: rest).length / 2) - 2) "" = a := by
          have h1 : 2 * ((a :: b :: rest).length / 2) - 2 = 0 := by
            simp only [List.length_cons]
            omega
          rw [h1]
          rfl
        rw [hidx]
        cases s2 with
        | true => simp [ht rfl]
        | false => simp [hf rfl]
    cases s with
    | false =>
      rw [retouchLoop_pair_failed]
      exact key false rb ob set _ _ (fun _ => rfl) (fun h => absurd h (by decide))
    | true =>
      obtain ⟨ret, after, _, heq⟩ := retouchLoop_pair_ok env a b rest i rb ob set st t
      rw [heq]
      exact key ret _ _ _ _ _ (fun h => by simp [h]) (fun h => by simp [h])

/-- The run of `RetouchBinariesFn` once its arguments are evaluated, in terms
of the run of its loop. -/
theorem RetouchBinariesFn_eq (env : Env) (name : String) (state : State) (argv : List Expr)
    (tr : Trace) (entries : List String) (st : State) (t0 : Trace)
    (hargs : ReadVarArgs state tr argv = (some entries, st, t0))
    (r : List String × Nat × Bool × State × Trace)
    (hr : retouchLoop env entries 0 true (retouchBase (env.time t0))
        (retouchBase (env.time t0)) false st
        (t0 ++ [Ev.time (env.time t0),
          Ev.cmd_pipe ("ui_print Random offset: 0x"
            ++ hexOfInt32 (retouchRandomOffset (env.time t0)) ++ "\n"),
          Ev.cmd_pipe "ui_print\n"]) = r) :
    RetouchBinariesFn env name state argv tr
      = ⟨(if r.1 = [] ∧ r.2.2.1 = true then StringValue (some "t") else some retouchFailure),
          r.2.2.2.1,
          r.2.2.2.2 ++ (match r.1 with
            | trailing :: _ => [Ev.free_entry r.2.1 trailing]
            | [] => [])⟩ := by
  unfold RetouchBinariesFn
  rw [hargs]
  simp only [List.append_assoc, List.singleton_append, List.cons_append, List.nil_append]
  rw [hr]
  obtain ⟨rest, i, s, st2, t2⟩ := r
  cases rest with
  | nil => cases s <;> simp [retouchFailure]
  | cons x xs => simp [retouchFailure]

/-- What `RetouchBinariesFn` does once its arguments are evaluated.  Its
events `E` follow the history of the evaluation; every entry is released
once, in order; the value is `"t"` when the count is even and every retouch
call succeeded and the payload-less string otherwise; when every call
succeeded every pair was retouched; the calls follow the rule of the override
slot; and when some call failed the message names the input path of the last
pair. -/
theorem RetouchBinariesFn_run (env : Env) (name : String) (state : State) (argv : List Expr)
    (tr : Trace) (entries : List String) (st : State) (t0 : Trace)
    (hargs : ReadVarArgs state tr argv = (some entries, st, t0)) :
    ∃ E : Trace,
      (RetouchBinariesFn env name state argv tr).trace = t0 ++ E ∧
      freedEntries E = entries.enumFrom 0 ∧
      (RetouchBinariesFn env name state argv tr).value
        = (if entries.length % 2 = 0 ∧ ((retouchCalls E).all fun c => c.2.2.1) = true
            then StringValue (some "t") else some retouchFailure) ∧
      (((retouchCalls E).all fun c => c.2.2.1) = true →
        (retouchCalls E).length = entries.length / 2) ∧
      callsFollowOverride (retouchBase (env.time t0)) (retouchBase (env.time t0))
        (retouchCalls E) = true ∧
      (RetouchBinariesFn env name state argv tr).state
        = (if ((retouchCalls E).all fun c => c.2.2.1) = false then
            ErrorAbort st ("Failed to retouch '"
              ++ entries.getD (2 * (entries.length / 2) - 2) "" ++ "'.")
          else st) := by
  generalize hr : retouchLoop env entries 0 true (retouchBase (env.time t0))
        (retouchBase (env.time t0)) false st
        (t0 ++ [Ev.time (env.time t0),
          Ev.cmd_pipe ("ui_print Random offset: 0x"
            ++ hexOfInt32 (retouchRandomOffset (env.time t0)) ++ "\n"),
          Ev.cmd_pipe "ui_print\n"]) = r
  have heq := RetouchBinariesFn_eq env name state argv tr entries st t0 hargs r hr
  obtain ⟨E, e1, e2, e3, e4, e5, e6, e7, e8, e9⟩ :=
    retouchLoop_spec env entries 0 true (retouchBase (env.time t0))
      (retouchBase (env.time t0)) false st
      (t0 ++ [Ev.time (env.time t0),
          Ev.cmd_pipe ("ui_print Random offset: 0x"
            ++ hexOfInt32 (retouchRandomOffset (env.time t0)) ++ "\n"),
          Ev.cmd_pipe "ui_print\n"])
  have hst := retouchLoop_state env entries 0 true (retouchBase (env.time t0))
      (retouchBase (env.time t0)) false st
      (t0 ++ [Ev.time (env.time t0),
          Ev.cmd_pipe ("ui_print Random offset: 0x"
            ++ hexOfInt32 (retouchRandomOffset (env.time t0)) ++ "\n"),
          Ev.cmd_pipe "ui_print\n"])
  rw [hr] at e1 e2 e3 e5 e7 hst
  obtain ⟨rest, i, s, st2, t2⟩ := r
  simp only [Bool.true_and, zero_add] at e1 e2 e3 e5 e7 hst heq
  have hpre : ∀ X : Trace, retouchCalls ([Ev.time (env.time t0),
          Ev.cmd_pipe ("ui_print Random offset: 0x"
            ++ hexOfInt32 (retouchRandomOffset (env.time t0)) ++ "\n"),
          Ev.cmd_pipe "ui_print\n"] ++ X) = retouchCalls X := by
    intro X
    unfold retouchCalls
    simp only [List.filterMap_append, List.filterMap_cons, List.filterMap_nil,
      List.nil_append]
  have hpref : ∀ X : Trace, freedEntries ([Ev.time (env.time t0),
          Ev.cmd_pipe ("ui_print Random offset: 0x"
            ++ hexOfInt32 (retouchRandomOffset (env.time t0)) ++ "\n"),
          Ev.cmd_pipe "ui_print\n"] ++ X) = freedEntries X := by
    intro X
    unfold freedEntries
    simp only [List.filterMap_append, List.filterMap_cons, List.filterMap_nil,
      List.nil_append]
  have hsplit : entries.enumFrom 0
      = (entries.take (2 * (entries.length / 2))).enumFrom 0
        ++ rest.enumFrom (2 * (entries.length / 2)) := by
    conv_lhs => rw [← List.take_append_drop (2 * (entries.length / 2)) entries]
    rw [List.enumFrom_append, e2, List.length_take]
    congr 2
    omega
  have hrestlen : rest.length = entries.length % 2 := by
    rw [e2, List.length_drop]
    omega
  have hstate : st2 = (if ((retouchCalls E).all fun c => c.2.2.1) = false then
        ErrorAbort st ("Failed to retouch '"
          ++ entries.getD (2 * (entries.length / 2) - 2) "" ++ "'.")
      else st) := by
    rw [hst, e5]
    by_cases hall : ((retouchCalls E).all fun c => c.2.2.1) = false
    · have h2 : 2 ≤ entries.length := by
        by_contra hlt
        have hshort := retouchLoop_short env entries (by omega) 0 true
          (retouchBase (env.time t0)) (retouchBase (env.time t0)) false st
          (t0 ++ [Ev.time (env.time t0),
            Ev.cmd_pipe ("ui_print Random offset: 0x"
              ++ hexOfInt32 (retouchRandomOffset (env.time t0)) ++ "\n"),
            Ev.cmd_pipe "ui_print\n"])
        rw [hr] at hshort
        have hs : s = true := by
          have := congrArg (fun x => x.2.2.1) hshort
          simpa using this
        rw [e5] at hs
        rw [hs] at hall
        exact absurd hall (by decide)
      rw [if_pos ⟨hall, h2⟩, if_pos hall]
    · rw [if_neg (fun h => hall h.1), if_neg hall]
  cases rest with
  | nil =>
    have heven : entries.length % 2 = 0 := by simpa using hrestlen.symm
    refine ⟨[Ev.time (env.time t0),
          Ev.cmd_pipe ("ui_print Random offset: 0x"
            ++ hexOfInt32 (retouchRandomOffset (env.time t0)) ++ "\n"),
          Ev.cmd_pipe "ui_print\n"] ++ E, ?_, ?_, ?_, ?_, ?_, ?_⟩
    · rw [heq]
      simp only [e1, List.append_nil, List.append_assoc]
    · rw [hpref, e4, hsplit]
      simp
    · rw [heq, hpre]
      simp only [heven, e5, true_and]
    · rw [hpre]
      intro h
      exact e7 (by rw [e5]; exact h)
    · rw [hpre]
      exact e9 rfl
    · rw [heq, hpre]
      exact hstate
  | cons x xs =>
    have hodd : entries.length % 2 = 1 := by
      have : (x :: xs).length ≤ 1 := by rw [hrestlen]; omega
      have h1 : (x :: xs).length = 1 := by
        simp only [List.length_cons] at this ⊢
        omega
      rw [← hrestlen, h1]
    have hxs : xs = [] := by
      have : (x :: xs).length = 1 := by rw [hrestlen, hodd]
      simpa using this
    subst hxs
    have hcalls : retouchCalls ([Ev.time (env.time t0),
        Ev.cmd_pipe ("ui_print Random offset: 0x"
          ++ hexOfInt32 (retouchRandomOffset (env.time t0)) ++ "\n"),
        Ev.cmd_pipe "ui_print\n"] ++ E ++ [Ev.free_entry i x]) = retouchCalls E := by
      unfold retouchCalls
      simp only [List.filterMap_append, List.filterMap_cons, List.filterMap_nil,
        List.nil_append, List.append_nil]
    refine ⟨[Ev.time (env.time t0),
          Ev.cmd_pipe ("ui_print Random offset: 0x"
            ++ hexOfInt32 (retouchRandomOffset (env.time t0)) ++ "\n"),
          Ev.cmd_pipe "ui_print\n"] ++ E ++ [Ev.free_entry i x], ?_, ?_, ?_, ?_, ?_, ?_⟩
    · rw [heq]
      simp only [e1, List.append_assoc]
    · have hf : freedEntries ([Ev.time (env.time t0),
          Ev.cmd_pipe ("ui_print Random offset: 0x"
            ++ hexOfInt32 (retouchRandomOffset (env.time t0)) ++ "\n"),
          Ev.cmd_pipe "ui_print\n"] ++ E ++ [Ev.free_entry i x])
          = freedEntries E ++ [(i, x)] := by
        unfold freedEntries
        simp only [List.filterMap_append, List.filterMap_cons, List.filterMap_nil,
          List.nil_append]
      rw [hf, e4, hsplit, e3]
      rfl
    · rw [heq, hcalls]
      simp [hodd]
    · rw [hcalls]
      intro h
      exact e7 (by rw [e5]; exact h)
    · rw [hcalls]
      exact e9 rfl
    · rw [heq, hcalls]
      exact hstate

/-- Every index of an enumerated list occurs once. -/
theorem enumFrom_countP_index {α : Type} (l : List α) :
    ∀ (n k : Nat), n ≤ k → k < n + l.length →
      (l.enumFrom n).countP (fun p => decide (p.1 = k)) = 1 := by
  induction l with
  | nil =>
    intro n k h1 h2
    simp only [List.length_nil] at h2
    omega
  | cons x xs ih =>
    intro n k h1 h2
    simp only [List.length_cons] at h2
    rw [List.enumFrom_cons, List.countP_cons]
    by_cases hk : n = k
    · subst hk
      have h0 : (xs.enumFrom (n + 1)).countP (fun p => decide (p.1 = n)) = 0 := by
        rw [List.countP_eq_zero]
        intro p hp
        have := List.le_fst_of_mem_enumFrom hp
        simp only [decide_eq_true_eq]
        omega
      simp [h0]
    · have := ih (n + 1) k (by omega) (by omega)
      simp [this, hk]

/-- C18: in a `retouch_binaries` batch whose arguments evaluate, whatever the
per-file retouch returns, the retouch calls made follow the rule of the
override slot: each call gets the shared initial base and the override slot
until a call succeeds and leaves a nonzero value in the slot; every later
call gets exactly that value as its base and no override slot.  The rule is
not empty: when every call succeeds, every pair is retouched. -/
theorem RetouchBinariesFn_override_rule (env : Env) (name : String) (state : State)
    (argv : List Expr) (tr : Trace) (entries : List String) (st : State) (t0 : Trace)
    (hargs : ReadVarArgs state tr argv = (some entries, st, t0)) :
    callsFollowOverride (retouchBase (env.time t0)) (retouchBase (env.time t0))
        (retouchCalls (eventsSince t0 (RetouchBinariesFn env name state argv tr).trace))
      = true ∧
    (((retouchCalls (eventsSince t0 (RetouchBinariesFn env name state argv tr).trace)).all
        fun c => c.2.2.1) = true →
      (retouchCalls (eventsSince t0 (RetouchBinariesFn env name state argv tr).trace)).length
        = entries.length / 2) := by
  obtain ⟨E, h1, _, _, h4, h5, _⟩ :=
    RetouchBinariesFn_run env name state argv tr entries st t0 hargs
  rw [h1, eventsSince_append_left]
  exact ⟨h5, h4⟩

/-- Witness of C18: three pairs on a device whose first retouch leaves
`-8192` in the override slot.  The first call gets the base drawn from the
clock and the slot, the two later calls get `-8192` and no slot. -/
theorem RetouchBinariesFn_override_rule_witness :
    ReadVarArgs ⟨none⟩ []
        [strExpr "a", strExpr "a.sha", strExpr "b", strExpr "b.sha", strExpr "c",
          strExpr "c.sha"]
      = (some ["a", "a.sha", "b", "b.sha", "c", "c.sha"], ⟨none⟩, []) ∧
    retouchCalls (eventsSince [] (RetouchBinariesFn overrideEnv "retouch_binaries" ⟨none⟩
        [strExpr "a", strExpr "a.sha", strExpr "b", strExpr "b.sha", strExpr "c",
          strExpr "c.sha"] []).trace)
      = [(retouchBase 1300000000, some (retouchBase 1300000000), true, -8192),
          (-8192, none, true, -8192), (-8192, none, true, -8192)] ∧
    callsFollowOverride (retouchBase (overrideEnv.time [])) (retouchBase (overrideEnv.time []))
        (retouchCalls (eventsSince [] (RetouchBinariesFn overrideEnv "retouch_binaries" ⟨none⟩
          [strExpr "a", strExpr "a.sha", strExpr "b", strExpr "b.sha", strExpr "c",
            strExpr "c.sha"] []).trace))
      = true :=
  ⟨rfl, by decide,
    (RetouchBinariesFn_override_rule overrideEnv "retouch_binaries" ⟨none⟩
      [strExpr "a", strExpr "a.sha", strExpr "b", strExpr "b.sha", strExpr "c",
        strExpr "c.sha"] [] ["a", "a.sha", "b", "b.sha", "c", "c.sha"] ⟨none⟩ [] rfl).1⟩

/-- C19: what the code does when a per-file retouch fails in a
`retouch_binaries` batch whose arguments evaluate.  Every entry is still
released, once and in order; but the message recorded when the builtin
returns names the input path of the last pair of the batch, whichever pair
failed: every pair visited after the failure records the message again
with its own input path. -/
theorem RetouchBinariesFn_failure_names_last_pair (env : Env) (name : String)
    (state : State) (argv : List Expr) (tr : Trace) (entries : List String) (st : State)
    (t0 : Trace)
    (hargs : ReadVarArgs state tr argv = (some entries, st, t0))
    (hfail : ((retouchCalls
        (eventsSince t0 (RetouchBinariesFn env name state argv tr).trace)).all
          fun c => c.2.2.1) = false) :
    (RetouchBinariesFn env name state argv tr).state
      = ErrorAbort st ("Failed to retouch '"
          ++ entries.getD (2 * (entries.length / 2) - 2) "" ++ "'.") ∧
    freedEntries (eventsSince t0 (RetouchBinariesFn env name state argv tr).trace)
      = entries.enumFrom 0 := by
  obtain ⟨E, h1, h2, _, _, _, h6⟩ :=
    RetouchBinariesFn_run env name state argv tr entries st t0 hargs
  rw [h1, eventsSince_append_left] at hfail ⊢
  rw [h6, if_pos hfail]
  exact ⟨rfl, h2⟩

/-- Witness of C19: `retouch_binaries("a", "a.sha", "b", "b.sha")` on a device
where every retouch fails.  Only `a` is retouched, and fails; the message
recorded at the end names `b`. -/
theorem RetouchBinariesFn_failure_names_last_pair_witness :
    retouchedInputs (eventsSince [] (RetouchBinariesFn deadEnv "retouch_binaries" ⟨none⟩
        [strExpr "a", strExpr "a.sha", strExpr "b", strExpr "b.sha"] []).trace)
      = [("a", false)] ∧
    (RetouchBinariesFn deadEnv "retouch_binaries" ⟨none⟩
        [strExpr "a", strExpr "a.sha", strExpr "b", strExpr "b.sha"] []).state
      = ⟨some "Failed to retouch 'b'."⟩ ∧
    freedEntries (eventsSince [] (RetouchBinariesFn deadEnv "retouch_binaries" ⟨none⟩
        [strExpr "a", strExpr "a.sha", strExpr "b", strExpr "b.sha"] []).trace)
      = [(0, "a"), (1, "a.sha"), (2, "b"), (3, "b.sha")] :=
  ⟨by decide,
    RetouchBinariesFn_failure_names_last_pair deadEnv "retouch_binaries" ⟨none⟩
      [strExpr "a", strExpr "a.sha", strExpr "b", strExpr "b.sha"] []
      ["a", "a.sha", "b", "b.sha"] ⟨none⟩ [] rfl (by decide)⟩

/-- C20 as stated does not hold: `retouch_binaries("a")`, an odd count, on a
device where every retouch succeeds does not return the empty string; it
returns the string value without payload. -/
theorem RetouchBinariesFn_odd_count_not_empty_string :
    (RetouchBinariesFn goodEnv "retouch_binaries" ⟨none⟩ [strExpr "a"] []).value
      ≠ StringValue (some "") ∧
    (RetouchBinariesFn goodEnv "retouch_binaries" ⟨none⟩ [strExpr "a"] []).value
      = some { type := ValueType.VAL_STRING, size := -1, data := none } := by
  decide

/-- C20 (amended): for every `retouch_binaries` call whose arguments evaluate,
the value is `"t"` when the argument count is even and the per-file retouch
of every pair succeeded (so also for the empty batch), and otherwise the
string value without payload (`data = NULL`, `size = -1`), which is not the
empty string; with an odd count the value is that failure value whatever the
retouch calls return; and every entry, the unpaired trailing one included,
is released exactly once. -/
theorem RetouchBinariesFn_result (env : Env) (name : String) (state : State)
    (argv : List Expr) (tr : Trace) (entries : List String) (st : State) (t0 : Trace)
    (hargs : ReadVarArgs state tr argv = (some entries, st, t0)) :
    (RetouchBinariesFn env name state argv tr).value
      = (if entries.length % 2 = 0 ∧
            (retouchCalls (eventsSince t0
              (RetouchBinariesFn env name state argv tr).trace)).length = entries.length / 2 ∧
            ((retouchCalls (eventsSince t0
              (RetouchBinariesFn env name state argv tr).trace)).all fun c => c.2.2.1) = true
          then StringValue (some "t") else some retouchFailure) ∧
    (entries.length % 2 = 1 →
      (RetouchBinariesFn env name state argv tr).value = some retouchFailure) ∧
    (entries = [] → (RetouchBinariesFn env name state argv tr).value = StringValue (some "t")) ∧
    (RetouchBinariesFn env name state argv tr).value ≠ StringValue (some "") ∧
    freedEntries (eventsSince t0 (RetouchBinariesFn env name state argv tr).trace)
      = entries.enumFrom 0 ∧
    (∀ k, k < entries.length →
      timesFreed k (eventsSince t0 (RetouchBinariesFn env name state argv tr).trace) = 1) := by
  obtain ⟨E, h1, h2, h3, h4, _, _⟩ :=
    RetouchBinariesFn_run env name state argv tr entries st t0 hargs
  have hempty : entries = [] →
      (RetouchBinariesFn env name state argv tr).value = StringValue (some "t") := by
    intro hnil
    subst hnil
    simp [RetouchBinariesFn, hargs, retouchLoop]
  rw [h1, eventsSince_append_left]
  refine ⟨?_, ?_, hempty, ?_, h2, ?_⟩
  all_goals try rw [h3]
  have hv : (if entries.length % 2 = 0 ∧ ((retouchCalls E).all fun c => c.2.2.1) = true
        then StringValue (some "t") else some retouchFailure)
      = (if entries.length % 2 = 0 ∧ (retouchCalls E).length = entries.length / 2 ∧
            ((retouchCalls E).all fun c => c.2.2.1) = true
          then StringValue (some "t") else some retouchFailure) := by
    by_cases hall : ((retouchCalls E).all fun c => c.2.2.1) = true
    · by_cases heven : entries.length % 2 = 0
      · rw [if_pos ⟨heven, hall⟩, if_pos ⟨heven, h4 hall, hall⟩]
      · rw [if_neg (fun h => heven h.1), if_neg (fun h => heven h.1)]
    · rw [if_neg (fun h => hall h.2), if_neg (fun h => hall h.2.2)]
  · exact hv
  · intro hodd
    simp [hodd]
  · split
    · decide
    · decide
  · intro k hk
    unfold timesFreed
    rw [h2]
    exact enumFrom_countP_index entries 0 k (by omega) (by omega)

/-- Witness of C20: `retouch_binaries("a", "a.sha", "b")` on a device where
every retouch succeeds.  The pair is retouched with success, yet the value is
the failure value, and the unpaired entry `b` (index 2) is released once. -/
theorem RetouchBinariesFn_result_witness :
    ReadVarArgs ⟨none⟩ [] [strExpr "a", strExpr "a.sha", strExpr "b"]
      = (some ["a", "a.sha", "b"], ⟨none⟩, []) ∧
    retouchedInputs (eventsSince [] (RetouchBinariesFn goodEnv "retouch_binaries" ⟨none⟩
        [strExpr "a", strExpr "a.sha", strExpr "b"] []).trace) = [("a", true)] ∧
    (RetouchBinariesFn goodEnv "retouch_binaries" ⟨none⟩
        [strExpr "a", strExpr "a.sha", strExpr "b"] []).value = some retouchFailure ∧
    timesFreed 2 (eventsSince [] (RetouchBinariesFn goodEnv "retouch_binaries" ⟨none⟩
        [strExpr "a", strExpr "a.sha", strExpr "b"] []).trace) = 1 :=
  ⟨rfl, by decide,
    (RetouchBinariesFn_result goodEnv "retouch_binaries" ⟨none⟩
      [strExpr "a", strExpr "a.sha", strExpr "b"] [] ["a", "a.sha", "b"] ⟨none⟩ []
      rfl).2.1 (by decide),
    (RetouchBinariesFn_result goodEnv "retouch_binaries" ⟨none⟩
      [strExpr "a", strExpr "a.sha", strExpr "b"] [] ["a", "a.sha", "b"] ⟨none⟩ []
      rfl).2.2.2.2.2 2 (by decide)⟩

/-! ## `sha1_check` -/

/-- The loop of `PrintSha1` appends, for each byte it looks at, the digit of
the high nibble and the digit of the low nibble. -/
theorem printSha1Loop_spec (digest : List Nat) :
    ∀ (n i : Nat) (buffer : List Char),
      printSha1Loop digest n i buffer
        = buffer ++ ((List.range' i n).map fun j =>
            [alphabet.getD ((digest.getD j 0 >>> 4) &&& 0xf) '0',
              alphabet.getD (digest.getD j 0 &&& 0xf) '0']).flatten := by
  intro n
  induction n with
  | zero => intro i buffer; simp [printSha1Loop]
  | succ n ih =>
    intro i buffer
    unfold printSha1Loop
    rw [ih, List.range'_succ, List.map_cons, List.flatten_cons, List.append_assoc]

/-- The entry of `alphabet` for a nibble is its lowercase hexadecimal digit. -/
theorem alphabet_nibble (n : Nat) (h : n < 16) : alphabet.getD n '0' = hexDigit n := by
  interval_cases n <;> rfl

/-- The two characters `PrintSha1` writes for a byte. -/
theorem alphabet_byte (d : Nat) (h : d < 256) :
    alphabet.getD ((d >>> 4) &&& 0xf) '0' = hexDigit (d / 16) ∧
    alphabet.getD (d &&& 0xf) '0' = hexDigit (d % 16) := by
  have h1 : (d >>> 4) &&& 0xf = d / 16 := by
    rw [Nat.shiftRight_eq_div_pow]
    have : (0xf : Nat) = 2 ^ 4 - 1 := rfl
    rw [this, Nat.and_pow_two_sub_one_eq_mod]
    exact Nat.mod_eq_of_lt (by omega)
  have h2 : d &&& 0xf = d % 16 := by
    have : (0xf : Nat) = 2 ^ 4 - 1 := rfl
    rw [this, Nat.and_pow_two_sub_one_eq_mod]
  rw [h1, h2]
  exact ⟨alphabet_nibble _ (by omega), alphabet_nibble _ (Nat.mod_lt _ (by decide))⟩

/-- Decoding the two digits of a byte gives the byte back. -/
theorem hexValue_hexDigit (n : Nat) (h : n < 16) : hexValue (hexDigit n) = n := by
  interval_cases n <;> rfl

/-- A digest buffer holds `SHA_DIGEST_SIZE` bytes. -/
theorem digestBytes_spec (raw : List Nat) :
    (digestBytes raw).length = 20 ∧ ∀ d ∈ digestBytes raw, d < 256 := by
  unfold digestBytes
  refine ⟨by simp [SHA_DIGEST_SIZE], ?_⟩
  intro d hd
  rw [List.mem_map] at hd
  obtain ⟨i, _, rfl⟩ := hd
  exact Nat.mod_lt _ (by decide)

/-- Reading a list by index, from its first to its last element, goes through
its elements in order. -/
theorem map_range_getD (f : Nat → List Char) :
    ∀ (l pre : List Nat),
      (List.range' pre.length l.length).map (fun j => f ((pre ++ l).getD j 0)) = l.map f := by
  intro l
  induction l with
  | nil => intro pre; rfl
  | cons a l ih =>
    intro pre
    rw [List.length_cons, List.range'_succ, List.map_cons, List.map_cons]
    have h0 : (pre ++ a :: l).getD pre.length 0 = a := by
      rw [List.getD_eq_getElem?_getD, List.getElem?_append_right (Nat.le_refl _), Nat.sub_self]
      simp
    have h1 := ih (pre ++ [a])
    rw [List.length_append, List.length_singleton, List.append_assoc,
      List.singleton_append] at h1
    rw [h0, h1]

/-- The hexadecimal text of a list of bytes, two digits a byte. -/
theorem hexPairs_spec :
    ∀ (l : List Nat), (∀ d ∈ l, d < 256) →
      ((l.map fun d => [hexDigit (d / 16), hexDigit (d % 16)]).flatten).length = 2 * l.length ∧
      (∀ c ∈ (l.map fun d => [hexDigit (d / 16), hexDigit (d % 16)]).flatten,
        c ∈ "0123456789abcdef".data) ∧
      (∀ i, i < l.length →
        ((l.map fun d => [hexDigit (d / 16), hexDigit (d % 16)]).flatten)[2 * i]?
          = some (hexDigit (l.getD i 0 / 16)) ∧
        ((l.map fun d => [hexDigit (d / 16), hexDigit (d % 16)]).flatten)[2 * i + 1]?
          = some (hexDigit (l.getD i 0 % 16))) ∧
      decodeHex ((l.map fun d => [hexDigit (d / 16), hexDigit (d % 16)]).flatten) = l := by
  intro l
  induction l with
  | nil =>
    intro _
    refine ⟨rfl, ?_, ?_, rfl⟩
    · intro c hc; simp at hc
    · intro i hi; simp at hi
  | cons a l ih =>
    intro hb
    have ha : a < 256 := hb a (List.mem_cons_self a l)
    obtain ⟨i1, i2, i3, i4⟩ := ih (fun d hd => hb d (List.mem_cons_of_mem a hd))
    have hdig : ∀ n, n < 16 → hexDigit n ∈ "0123456789abcdef".data := by
      intro n hn
      interval_cases n <;> decide
    have hq : a / 16 < 16 := by omega
    have hr : a % 16 < 16 := Nat.mod_lt _ (by decide)
    rw [List.map_cons, List.flatten_cons, List.cons_append, List.cons_append, List.nil_append]
    refine ⟨?_, ?_, ?_, ?_⟩
    · rw [List.length_cons, List.length_cons, i1, List.length_cons]
      omega
    · intro c hc
      rw [List.mem_cons, List.mem_cons] at hc
      rcases hc with rfl | rfl | hc
      · exact hdig _ hq
      · exact hdig _ hr
      · exact i2 c hc
    · intro i hi
      cases i with
      | zero => constructor <;> simp
      | succ i =>
        have hi2 : i < l.length := by
          simp only [List.length_cons] at hi
          omega
        have e1 : 2 * (i + 1) = 2 * i + 1 + 1 := by omega
        have e2 : 2 * (i + 1) + 1 = 2 * i + 1 + 1 + 1 := by omega
        rw [e2, e1, List.getElem?_cons_succ, List.getElem?_cons_succ, List.getElem?_cons_succ,
          List.getElem?_cons_succ]
        exact i3 i hi2
    · rw [decodeHex, i4, hexValue_hexDigit _ hq, hexValue_hexDigit _ hr]
      congr 1
      omega

/-- The text `PrintSha1` returns for a digest buffer: the two lowercase
hexadecimal digits of each byte, the high nibble first. -/
theorem PrintSha1_spec (digest : List Nat) (hl : digest.length = 20)
    (hb : ∀ d ∈ digest, d < 256) :
    PrintSha1 digest
      = String.mk ((digest.map fun d => [hexDigit (d / 16), hexDigit (d % 16)]).flatten) := by
  unfold PrintSha1
  rw [printSha1Loop_spec, List.nil_append]
  have h := map_range_getD
    (fun d => [alphabet.getD ((d >>> 4) &&& 0xf) '0', alphabet.getD (d &&& 0xf) '0']) digest []
  rw [List.length_nil, List.nil_append, hl] at h
  have hs : SHA_DIGEST_SIZE = 20 := rfl
  rw [hs, h]
  congr 2
  apply List.map_congr_left
  intro d hd
  rw [(alphabet_byte d (hb d hd)).1, (alphabet_byte d (hb d hd)).2]

/-- C21: for every data value that is present (its size is not negative),
`sha1_check` with that single argument does not abort and returns the text
`PrintSha1` makes of the 20-byte digest of the data.  The text has exactly 40
characters, all of them among `0123456789abcdef`; the characters `2i` and
`2i+1` are the digits of the high and the low nibble of byte `i` of the
digest; decoding the text as hexadecimal gives the digest back. -/
theorem Sha1CheckFn_single_argument (env : Env) (name : String) (state : State)
    (argv : List Expr) (t : Trace) (data : Value) (st : State) (tr : Trace)
    (hargs : ReadValueVarArgs state t argv = (some [data], st, tr))
    (hsize : 0 ≤ data.size) :
    Sha1CheckFn env name state argv t
      = ⟨StringValue (some (PrintSha1 (digestBytes (env.SHA data.data data.size)))), st, tr⟩ ∧
    (digestBytes (env.SHA data.data data.size)).length = 20 ∧
    (∀ d ∈ digestBytes (env.SHA data.data data.size), d < 256) ∧
    (PrintSha1 (digestBytes (env.SHA data.data data.size))).data.length = 40 ∧
    (∀ c ∈ (PrintSha1 (digestBytes (env.SHA data.data data.size))).data,
      c ∈ "0123456789abcdef".data) ∧
    (∀ i, i < 20 →
      (PrintSha1 (digestBytes (env.SHA data.data data.size))).data[2 * i]?
        = some (hexDigit ((digestBytes (env.SHA data.data data.size)).getD i 0 / 16)) ∧
      (PrintSha1 (digestBytes (env.SHA data.data data.size))).data[2 * i + 1]?
        = some (hexDigit ((digestBytes (env.SHA data.data data.size)).getD i 0 % 16))) ∧
    decodeHex (PrintSha1 (digestBytes (env.SHA data.data data.size))).data
      = digestBytes (env.SHA data.data data.size) := by
  obtain ⟨hl, hb⟩ := digestBytes_spec (env.SHA data.data data.size)
  have hlen : argv.length = 1 := by
    have := ReadValueArgs_length argv state t [data] st tr hargs
    rw [← this]
    rfl
  obtain ⟨p1, p2, p3, p4⟩ := hexPairs_spec (digestBytes (env.SHA data.data data.size)) hb
  have hP := PrintSha1_spec (digestBytes (env.SHA data.data data.size)) hl hb
  refine ⟨?_, hl, hb, ?_, ?_, ?_, ?_⟩
  · have hc : ¬ ((argv.length : Nat) : Int) < 1 := by omega
    have hs : ¬ data.size < 0 := by omega
    have h1 : ((argv.length : Nat) : Int) = 1 := by omega
    unfold Sha1CheckFn
    simp only []
    rw [if_neg hc, hargs]
    simp only []
    rw [if_neg hs, if_pos h1]
  · rw [hP, p1, hl]
  · rw [hP]
    exact p2
  · intro i hi
    rw [hP]
    exact p3 i (by omega)
  · rw [hP]
    exact p4

/-- Witness of C21: `sha1_check` of the two bytes `AB` on a device whose hash
of a buffer is made of the codes of its characters. -/
theorem Sha1CheckFn_single_argument_witness :
    Sha1CheckFn goodEnv "sha1_check" ⟨none⟩ [blobExpr "AB"] []
      = ⟨StringValue (some "4142000000000000000000000000000000000000"), ⟨none⟩, []⟩ ∧
    decodeHex (PrintSha1 (digestBytes (goodEnv.SHA (some "AB") 2))).data
      = digestBytes (goodEnv.SHA (some "AB") 2) :=
  ⟨by decide,
    (Sha1CheckFn_single_argument goodEnv "sha1_check" ⟨none⟩ [blobExpr "AB"] []
      ⟨ValueType.VAL_BLOB, 2, some "AB"⟩ ⟨none⟩ [] rfl (by decide)).2.2.2.2.2.2⟩

/-- The loop of `Sha1CheckFn` stops at the first argument, from index `i` on,
that is a string parsing as a sha-1 equal to the digest; when there is none
it runs to the end of the arguments. -/
theorem sha1MatchLoop_spec (env : Env) (digest : List Nat) (args : List Value) :
    ∀ (n i : Nat), i + n = args.length →
      args[sha1MatchLoop env digest args n i]? = (args.drop i).find? (matchesDigest env digest) ∧
      sha1MatchLoop env digest args n i ≤ args.length := by
  intro n
  induction n with
  | zero =>
    intro i hi
    have hi2 : i = args.length := by omega
    subst hi2
    simp [sha1MatchLoop]
  | succ n ih =>
    intro i hi
    have hlt : i < args.length := by omega
    have hd : args.drop i = args.get ⟨i, hlt⟩ :: args.drop (i + 1) :=
      List.drop_eq_getElem_cons hlt
    have hg : args[i]? = some (args.get ⟨i, hlt⟩) := List.getElem?_eq_getElem hlt
    obtain ⟨ih1, ih2⟩ := ih (i + 1) (by omega)
    unfold sha1MatchLoop
    rw [hg, hd, List.find?_cons]
    simp only []
    generalize args.get ⟨i, hlt⟩ = a at hg ⊢
    unfold matchesDigest
    by_cases h1 : a.type ≠ ValueType.VAL_STRING
    · rw [if_pos h1]
      have : a.type = ValueType.VAL_STRING ↔ False := ⟨fun h => h1 h, False.elim⟩
      simp only [this, decide_False, Bool.false_and]
      exact ⟨ih1, ih2⟩
    · rw [if_neg h1]
      have h1' : a.type = ValueType.VAL_STRING := by
        by_contra h
        exact h1 h
      by_cases h2 : (env.ParseSha1 a.data).1 ≠ 0
      · rw [if_pos h2]
        have : (env.ParseSha1 a.data).1 = 0 ↔ False := ⟨fun h => h2 h, False.elim⟩
        simp only [this, decide_False, Bool.and_false, Bool.false_and]
        exact ⟨ih1, ih2⟩
      · rw [if_neg h2]
        have h2' : (env.ParseSha1 a.data).1 = 0 := by
          by_contra h
          exact h2 h
        by_cases h3 : digestBytes (env.ParseSha1 a.data).2 = digest
        · rw [if_pos h3]
          simp only [h1', h2', h3, decide_True, Bool.and_self]
          exact ⟨hg, Nat.le_of_lt hlt⟩
        · rw [if_neg h3]
          simp only [h3, decide_False, Bool.and_false]
          exact ⟨ih1, ih2⟩

/-- C22: for every `sha1_check` call whose arguments evaluate, with a data
value that is present and one or more further arguments, the call does not
abort and records no message.  The result is the empty string if no further
argument is a string that parses as a sha-1 equal to the digest of the data;
otherwise it is the first such argument in argument order, the value that was
supplied.  Arguments that are not strings or do not parse are passed over. -/
theorem Sha1CheckFn_match (env : Env) (name : String) (state : State)
    (argv : List Expr) (t : Trace) (data : Value) (rest : List Value) (st : State)
    (tr : Trace)
    (hargs : ReadValueVarArgs state t argv = (some (data :: rest), st, tr))
    (hsize : 0 ≤ data.size) (hrest : rest ≠ []) :
    Sha1CheckFn env name state argv t
      = ⟨(match rest.find?
              (matchesDigest env (digestBytes (env.SHA data.data data.size))) with
          | some hash => some hash
          | none => StringValue (some "")), st, tr⟩ ∧
    (∀ hash, rest.find? (matchesDigest env (digestBytes (env.SHA data.data data.size)))
        = some hash →
      hash ∈ rest ∧ hash.type = ValueType.VAL_STRING ∧ (env.ParseSha1 hash.data).1 = 0 ∧
        digestBytes (env.ParseSha1 hash.data).2
          = digestBytes (env.SHA data.data data.size)) := by
  have hlen : (data :: rest).length = argv.length :=
    ReadValueArgs_length argv state t (data :: rest) st tr hargs
  have hr : 0 < rest.length := List.length_pos.mpr hrest
  have hlen2 : argv.length = rest.length + 1 := by
    rw [← hlen, List.length_cons]
  constructor
  · obtain ⟨l1, l2⟩ := sha1MatchLoop_spec env (digestBytes (env.SHA data.data data.size))
      (data :: rest) (argv.length - 1) 1 (by rw [hlen]; omega)
    have hc : ¬ ((argv.length : Nat) : Int) < 1 := by omega
    have hs : ¬ data.size < 0 := by omega
    have h1 : ¬ ((argv.length : Nat) : Int) = 1 := by omega
    unfold Sha1CheckFn
    simp only []
    rw [if_neg hc, hargs]
    simp only []
    rw [if_neg hs, if_neg h1]
    rw [List.drop_succ_cons, List.drop_zero] at l1
    generalize sha1MatchLoop env (digestBytes (env.SHA data.data data.size)) (data :: rest)
      (argv.length - 1) 1 = i at l1 l2
    cases hf : rest.find? (matchesDigest env (digestBytes (env.SHA data.data data.size))) with
    | none =>
      rw [hf] at l1
      have hi : (data :: rest).length ≤ i := List.getElem?_eq_none_iff.mp l1
      have hge : ((i : Nat) : Int) ≥ ((argv.length : Nat) : Int) := by
        rw [hlen] at hi
        exact_mod_cast hi
      rw [if_pos hge]
    | some hash =>
      rw [hf] at l1
      have hi : i < (data :: rest).length := by
        by_contra hcon
        rw [List.getElem?_eq_none_iff.mpr (Nat.le_of_not_lt hcon)] at l1
        exact absurd l1 (by simp)
      have hge : ¬ ((i : Nat) : Int) ≥ ((argv.length : Nat) : Int) := by
        rw [hlen] at hi
        omega
      rw [if_neg hge, l1]
  · intro hash hf
    have hm := List.find?_some hf
    have hmem := List.mem_of_find?_eq_some hf
    unfold matchesDigest at hm
    simp only [Bool.and_eq_true, decide_eq_true_eq] at hm
    exact ⟨hmem, hm.1.1, hm.1.2, hm.2⟩

/-- Witness of C22: the digest of `AB` is given after a text that is no sha-1
and a blob; the result is the hash string that was supplied. -/
theorem Sha1CheckFn_match_witness :
    Sha1CheckFn goodEnv "sha1_check" ⟨none⟩
        [blobExpr "AB", strExpr "zz", blobExpr "q",
          strExpr "4142000000000000000000000000000000000000"] []
      = ⟨StringValue (some "4142000000000000000000000000000000000000"), ⟨none⟩, []⟩ ∧
    Sha1CheckFn goodEnv "sha1_check" ⟨none⟩
        [blobExpr "AB", strExpr "zz", blobExpr "q",
          strExpr "4142000000000000000000000000000000000000"] []
      = ⟨(match [(⟨ValueType.VAL_STRING, 2, some "zz"⟩ : Value),
              ⟨ValueType.VAL_BLOB, 1, some "q"⟩,
              ⟨ValueType.VAL_STRING, 40, some "4142000000000000000000000000000000000000"⟩].find?
              (matchesDigest goodEnv (digestBytes (goodEnv.SHA (some "AB") 2))) with
          | some hash => some hash
          | none => StringValue (some "")), ⟨none⟩, []⟩ :=
  ⟨by decide,
    (Sha1CheckFn_match goodEnv "sha1_check" ⟨none⟩
      [blobExpr "AB", strExpr "zz", blobExpr "q",
        strExpr "4142000000000000000000000000000000000000"] []
      ⟨ValueType.VAL_BLOB, 2, some "AB"⟩
      [⟨ValueType.VAL_STRING, 2, some "zz"⟩, ⟨ValueType.VAL_BLOB, 1, some "q"⟩,
        ⟨ValueType.VAL_STRING, 40, some "4142000000000000000000000000000000000000"⟩]
      ⟨none⟩ [] rfl (by decide) (by decide)).1⟩

/-! ## The arity checks -/

/-- C23: what the code does where the claim fails.  `set_bootloader_env`
accepts two arguments, and rejects every other count with a message that
states 3 as the expected count.  `file_getprop`, `write_raw_image`,
`apply_patch_space` and `is_file_exist` do not look at the count: a call with
arguments in excess runs as the call without them, the arguments in excess
are not evaluated and nothing is rejected. -/
theorem arity_check_wrong_or_missing (env : Env) (name : String) (state : State)
    (t : Trace) :
    (∀ argv : List Expr, argv.length ≠ 2 →
      SetBootloaderEnvFn env name state argv t
        = ⟨none,
            ErrorAbort state
              (name ++ "() expects 3 args, got " ++ toString (argv.length : Int)), t⟩) ∧
    (∀ argv extra : List Expr, argv.length = 2 →
      FileGetPropFn env name state (argv ++ extra) t = FileGetPropFn env name state argv t) ∧
    (∀ argv extra : List Expr, argv.length = 2 →
      WriteRawImageFn env name state (argv ++ extra) t
        = WriteRawImageFn env name state argv t) ∧
    (∀ argv extra : List Expr, argv.length = 1 →
      ApplyPatchSpaceFn env name state (argv ++ extra) t
        = ApplyPatchSpaceFn env name state argv t) ∧
    (∀ argv extra : List Expr, argv.length = 1 →
      IsFileExistFn env name state (argv ++ extra) t
        = IsFileExistFn env name state argv t) := by
  refine ⟨?_, ?_, ?_, ?_, ?_⟩
  · intro argv h
    have hc : ((argv.length : Nat) : Int) ≠ 2 := by exact_mod_cast h
    unfold SetBootloaderEnvFn
    simp only []
    rw [if_pos hc]
  · intro argv extra h
    unfold FileGetPropFn
    rw [List.take_append_of_le_length (Nat.le_of_eq h.symm)]
  · intro argv extra h
    unfold WriteRawImageFn
    rw [List.take_append_of_le_length (Nat.le_of_eq h.symm)]
  · intro argv extra h
    unfold ApplyPatchSpaceFn
    rw [List.take_append_of_le_length (Nat.le_of_eq h.symm)]
  · intro argv extra h
    unfold IsFileExistFn
    rw [List.take_append_of_le_length (Nat.le_of_eq h.symm)]

/-- Witness of C23: `set_bootloader_env` with three arguments is rejected with
"expects 3 args, got 3", and `is_file_exist` with three arguments is not
rejected: it answers for the first and never evaluates the others. -/
theorem arity_check_wrong_or_missing_witness :
    SetBootloaderEnvFn goodEnv "set_bootloader_env" ⟨none⟩
        [strExpr "bootcmd", strExpr "run", strExpr "x"] []
      = ⟨none, ⟨some "set_bootloader_env() expects 3 args, got 3"⟩, []⟩ ∧
    IsFileExistFn goodEnv "is_file_exist" ⟨none⟩ ([strExpr "/a"] ++ [abortExpr, clockExpr]) []
      = IsFileExistFn goodEnv "is_file_exist" ⟨none⟩ [strExpr "/a"] [] ∧
    IsFileExistFn goodEnv "is_file_exist" ⟨none⟩ [strExpr "/a", abortExpr, clockExpr] []
      = ⟨StringValue (some "/a"), ⟨none⟩, [Ev.stat "/a" (some 8)]⟩ :=
  ⟨(arity_check_wrong_or_missing goodEnv "set_bootloader_env" ⟨none⟩ []).1
      [strExpr "bootcmd", strExpr "run", strExpr "x"] (by decide),
    (arity_check_wrong_or_missing goodEnv "is_file_exist" ⟨none⟩ []).2.2.2.2
      [strExpr "/a"] [abortExpr, clockExpr] rfl,
    by decide⟩

/-! ## Failure of the variadic reader -/

/-- The variadic reader fails only when there is something to read. -/
theorem ReadArgs_none_length (state : State) (t : Trace) (argv : List Expr) (st : State)
    (tr : Trace) (h : ReadArgs state t argv = (none, st, tr)) : 0 < argv.length := by
  cases argv with
  | nil => simp [ReadArgs] at h
  | cons e es => simp

/-- C24: what the code does when the variadic reader reports failure.
`retouch_binaries` and `undo_retouch_binaries` do not pass the abort on: they
return the value `"t"` (and call the per-file routine for no file).
`apply_patch_check` does not test what the reader returned: it calls the
verify subsystem, with a `NULL` list of hashes, and then reads through that
`NULL`.  `apply_patch` does not test it either and reads through the `NULL`
in its type check, before the patch subsystem is called, when its own
reader, the reader of values, reports failure. -/
theorem variadic_reader_failure_not_propagated (env : Env) (name : String)
    (state : State) (argv : List Expr) (t : Trace) (st : State) (tr : Trace)
    (hfail : ReadVarArgs state t argv = (none, st, tr)) :
    RetouchBinariesFn env name state argv t = ⟨StringValue (some "t"), st, tr⟩ ∧
    UndoRetouchBinariesFn env name state argv t = ⟨StringValue (some "t"), st, tr⟩ ∧
    (∀ (file : Expr) (state0 : State) (t0 : Trace) (filename : String),
      ReadArgs state0 t0 [file] = (some [filename], state, t) →
      ApplyPatchCheckFn env name state0 (file :: argv) t0
        = ⟨none, st,
            tr ++ [Ev.applypatch_check filename (argv.length : Int) none
                (env.applypatch_check tr filename (argv.length : Int) none),
              Ev.null_dereference "sha1s[0]"]⟩) ∧
    (∀ (lead : List Expr) (state0 : State) (t0 : Trace) (src tgt sha1 size_str : String)
      (st2 : State) (tr2 : Trace),
      lead.length = 4 → 2 ≤ argv.length → argv.length % 2 = 0 →
      ReadArgs state0 t0 lead = (some [src, tgt, sha1, size_str], state, t) →
      parsesAsByteCount size_str = true →
      ReadValueVarArgs state t argv = (none, st2, tr2) →
      ApplyPatchFn env name state0 (lead ++ argv) t0
        = ⟨none, st2, tr2 ++ [Ev.null_dereference "patches[0]->type"]⟩) := by
  have hpos := ReadArgs_none_length state t argv st tr hfail
  refine ⟨?_, ?_, ?_, ?_⟩
  · simp only [RetouchBinariesFn, hfail]
  · simp only [UndoRetouchBinariesFn, hfail]
  · intro file state0 t0 filename hfile
    have hc : ¬ (((file :: argv).length : Nat) : Int) < 1 := by
      simp only [List.length_cons]
      omega
    have hpc : (((file :: argv).length : Nat) : Int) - 1 = (argv.length : Int) := by
      simp only [List.length_cons]
      omega
    have hpp : (0 : Int) < (argv.length : Int) := by exact_mod_cast hpos
    unfold ApplyPatchCheckFn
    simp only []
    rw [if_neg hc]
    simp only [List.take_succ_cons, List.take_zero, hfile, List.drop_succ_cons, List.drop_zero,
      hfail, hpc, true_and, hpp, if_true, List.append_assoc, List.singleton_append]
  · intro lead state0 t0 src tgt sha1 size_str st2 tr2 hl h2 heven hlead hparse hvfail
    have hc : ¬ ((((lead ++ argv).length : Nat) : Int) < 6
        ∨ (((lead ++ argv).length : Nat) : Int) % 2 = 1) := by
      rw [List.length_append, hl]
      omega
    have hp : ¬ (toSizeT env.SIZE_MAX (strtol env.LONG_MAX size_str).1 = 0
        ∧ (strtol env.LONG_MAX size_str).2 = 0) := by
      intro h
      have := (strtol_end_zero_iff env.LONG_MAX size_str).1.mp h.2
      rw [hparse] at this
      exact absurd this (by decide)
    unfold ApplyPatchFn
    simp only []
    rw [if_neg hc, List.take_left' hl, hlead]
    simp only []
    rw [if_neg hp, List.drop_left' hl, hvfail]

/-- Witness of C24: `retouch_binaries("a", abort())` returns `"t"`, and
`apply_patch_check("f", abort())` calls the verify subsystem. -/
theorem variadic_reader_failure_not_propagated_witness :
    RetouchBinariesFn goodEnv "retouch_binaries" ⟨none⟩ [strExpr "a", abortExpr] []
      = ⟨StringValue (some "t"), ⟨some "abort() called"⟩, []⟩ ∧
    ApplyPatchCheckFn goodEnv "apply_patch_check" ⟨none⟩ [strExpr "f", strExpr "a", abortExpr] []
      = ⟨none, ⟨some "abort() called"⟩,
          [Ev.applypatch_check "f" 2 none 0, Ev.null_dereference "sha1s[0]"]⟩ :=
  ⟨(variadic_reader_failure_not_propagated goodEnv "retouch_binaries" ⟨none⟩
      [strExpr "a", abortExpr] [] ⟨some "abort() called"⟩ [] rfl).1,
    (variadic_reader_failure_not_propagated goodEnv "apply_patch_check" ⟨none⟩
      [strExpr "a", abortExpr] [] ⟨some "abort() called"⟩ [] rfl).2.2.1
      (strExpr "f") ⟨none⟩ [] "f" rfl⟩

/-! ## Release of the handles -/

/-- The handle lists of two traces in a row. -/
theorem handles_append (A B : Trace) :
    openedContexts (A ++ B) = openedContexts A ++ openedContexts B ∧
    closedContexts (A ++ B) = closedContexts A ++ closedContexts B ∧
    openedControls (A ++ B) = openedControls A ++ openedControls B ∧
    closedControls (A ++ B) = closedControls A ++ closedControls B := by
  simp [openedContexts, closedContexts, openedControls, closedControls]

/-- `UbiAttach` closes the control handle it opened. -/
theorem UbiAttach_releases (env : Env) (t : Trace) (location out_node : String) :
    handlesReleased (eventsSince t (UbiAttach env t location out_node).2.2) = true := by
  unfold UbiAttach
  simp only [List.append_assoc, List.singleton_append, List.cons_append, List.nil_append]
  generalize env.mtd_get_index_by_name _ _ = mtdn
  by_cases h1 : mtdn < 0
  · simp [h1, eventsSince, handlesReleased, closedContexts, openedContexts, closedControls,
      openedControls]
  · simp only [h1, if_false]
    generalize env.libubi_open _ = lo
    cases lo with
    | none =>
      simp [eventsSince, handlesReleased, closedContexts, openedContexts, closedControls,
        openedControls]
    | some lib =>
      simp only []
      generalize env.ubi_get_info _ _ = info
      by_cases h2 : info.1 ≠ 0
      · simp [h2, eventsSince, handlesReleased, closedContexts, openedContexts, closedControls,
          openedControls]
      · simp only [h2, if_false]
        by_cases h3 : info.2 = -1
        · simp [h3, eventsSince, handlesReleased, closedContexts, openedContexts,
            closedControls, openedControls]
        · simp only [h3, if_false]
          generalize env.ubi_attach _ _ _ _ = r
          by_cases h4 : r.1 ≠ 0
          · simp [h4, eventsSince, handlesReleased, closedContexts, openedContexts,
              closedControls, openedControls]
          · simp [h4, eventsSince, handlesReleased, closedContexts, openedContexts,
              closedControls, openedControls]

/-- The last steps of `UbiDetach` close the control handle, and do nothing
else to the handles. -/
theorem UbiDetachRemove_trace (env : Env) (t : Trace) (lib : Nat) (devn : Int) :
    ∃ E, (UbiDetachRemove env t lib devn).2 = t ++ E ∧ closedControls E = [lib] ∧
      openedControls E = [] ∧ closedContexts E = [] ∧ openedContexts E = [] := by
  unfold UbiDetachRemove
  by_cases h1 : devn < 0
  · exact ⟨[Ev.libubi_close lib], by simp [h1], rfl, rfl, rfl, rfl⟩
  · simp only [h1, if_false]
    generalize env.ubi_remove_dev _ _ _ _ = err
    by_cases h2 : err ≠ 0
    · exact ⟨[Ev.ubi_remove_dev lib DEFAULT_CTRL_DEV devn err, Ev.libubi_close lib],
        by simp [h2], rfl, rfl, rfl, rfl⟩
    · exact ⟨[Ev.ubi_remove_dev lib DEFAULT_CTRL_DEV devn err, Ev.libubi_close lib],
        by simp [h2], rfl, rfl, rfl, rfl⟩

/-- `UbiDetach` closes the control handle it opened. -/
theorem UbiDetach_releases (env : Env) (t : Trace) (device : Option String) :
    handlesReleased (eventsSince t (UbiDetach env t device).2) = true := by
  unfold UbiDetach
  cases device with
  | none => simp [eventsSince, handlesReleased, closedContexts, openedContexts, closedControls,
      openedControls]
  | some device =>
    simp only [List.append_assoc, List.singleton_append, List.cons_append, List.nil_append]
    generalize env.libubi_open _ = lo
    cases lo with
    | none =>
      simp [eventsSince, handlesReleased, closedContexts, openedContexts, closedControls,
        openedControls]
    | some lib =>
      simp only []
      generalize env.ubi_get_info _ _ = info
      by_cases h2 : info.1 ≠ 0
      · simp [h2, eventsSince, handlesReleased, closedContexts, openedContexts, closedControls,
          openedControls]
      · simp only [h2, if_false]
        by_cases h3 : info.2 = -1
        · simp [h3, eventsSince, handlesReleased, closedContexts, openedContexts,
            closedControls, openedControls]
        · simp only [h3, if_false]
          generalize (if device.data.head? ≠ some '/' then
            (⟨("/dev/" ++ device).data.take 63⟩ : String) else ⟨device.data.take 63⟩) = devpath
          generalize env.ubi_probe_node _ _ _ = err
          by_cases h4 : err = -1
          · simp [h4, eventsSince, handlesReleased, closedContexts, openedContexts,
              closedControls, openedControls]
          · simp only [h4, if_false]
            by_cases h5 : err = 1
            · simp only [h5, if_true]
              generalize env.ubi_get_dev_info _ _ _ = r
              by_cases h6 : r.1 ≠ 0
              · simp [h6, eventsSince, handlesReleased, closedContexts, openedContexts,
                  closedControls, openedControls]
              · simp only [h6, if_false]
                obtain ⟨E, e1, e2, e3, e4, e5⟩ := UbiDetachRemove_trace env
                  (t ++ [Ev.libubi_open (some lib), Ev.ubi_get_info lib info.1 info.2,
                    Ev.ubi_probe_node lib devpath 1, Ev.ubi_get_dev_info lib devpath r.1 r.2])
                  lib r.2
                rw [e1, List.append_assoc, eventsSince_append_left]
                unfold handlesReleased
                rw [(handles_append _ E).1, (handles_append _ E).2.1, (handles_append _ E).2.2.1,
                  (handles_append _ E).2.2.2, e2, e3, e4, e5]
                simp [closedContexts, openedContexts, closedControls, openedControls]
            · simp only [h5, if_false]
              generalize env.ubi_get_vol_info _ _ _ = r
              by_cases h6 : r.1 ≠ 0
              · simp [h6, eventsSince, handlesReleased, closedContexts, openedContexts,
                  closedControls, openedControls]
              · simp only [h6, if_false]
                obtain ⟨E, e1, e2, e3, e4, e5⟩ := UbiDetachRemove_trace env
                  (t ++ [Ev.libubi_open (some lib), Ev.ubi_get_info lib info.1 info.2,
                    Ev.ubi_probe_node lib devpath err, Ev.ubi_get_vol_info lib devpath r.1 r.2])
                  lib r.2
                rw [e1, List.append_assoc, eventsSince_append_left]
                unfold handlesReleased
                rw [(handles_append _ E).1, (handles_append _ E).2.1, (handles_append _ E).2.2.1,
                  (handles_append _ E).2.2.2, e2, e3, e4, e5]
                simp [closedContexts, openedContexts, closedControls, openedControls]

/-- `UbiFormat` closes the control handle it opened. -/
theorem UbiFormat_releases (env : Env) (t : Trace) (type : Int) (location : String) :
    handlesReleased (eventsSince t (UbiFormat env t type location).2) = true := by
  rcases UbiFormat_cases env t type location with
    ⟨mtdn, h1, h⟩ | ⟨mtdn, h1, h⟩ | ⟨mtdn, lib, ret, cm, h1, h2, h⟩
    | ⟨mtdn, lib, cm, d0, ret, dn, h1, h2, h3, h⟩
    | ⟨mtdn, lib, cm, d0, dn, ret, info, d1, h1, h2, h3, h⟩
    | ⟨mtdn, lib, cm, d0, dn, info, err, d1, h1, h2, h⟩
  all_goals
    simp [h, eventsSince, handlesReleased, closedContexts, openedContexts, closedControls,
      openedControls]

/-- Two traces in a row release their handles when each of them does. -/
theorem handlesReleased_append (A B : Trace) (hA : handlesReleased A = true)
    (hB : handlesReleased B = true) : handlesReleased (A ++ B) = true := by
  unfold handlesReleased at hA hB ⊢
  simp only [Bool.and_eq_true, decide_eq_true_eq] at hA hB ⊢
  rw [(handles_append A B).1, (handles_append A B).2.1, (handles_append A B).2.2.1,
    (handles_append A B).2.2.2, hA.1, hA.2, hB.1, hB.2]
  exact ⟨rfl, rfl⟩

/-- A map that gives nothing on the events a trace is made of gives nothing
on the trace. -/
theorem filterMap_nil_of_all {p : Ev → Bool} {f : Ev → Option Nat} (L : Trace)
    (h : L.all p = true) (hpf : ∀ e, p e = true → f e = none) : L.filterMap f = [] := by
  induction L with
  | nil => rfl
  | cons e L ih =>
    rw [List.all_cons, Bool.and_eq_true] at h
    rw [List.filterMap_cons, hpf e h.1]
    exact ih h.2

/-- A trace of reads and data writes opens and closes no handle. -/
theorem onlyReadsAndWrites_handles (L : Trace) (h : onlyReadsAndWrites L = true) :
    openedContexts L = [] ∧ closedContexts L = [] ∧ openedControls L = [] ∧
      closedControls L = [] := by
  unfold onlyReadsAndWrites at h
  refine ⟨?_, ?_, ?_, ?_⟩
  · exact filterMap_nil_of_all L h (fun e he => by cases e <;> first | rfl | simp at he)
  · exact filterMap_nil_of_all L h (fun e he => by cases e <;> first | rfl | simp at he)
  · exact filterMap_nil_of_all L h (fun e he => by cases e <;> first | rfl | simp at he)
  · exact filterMap_nil_of_all L h (fun e he => by cases e <;> first | rfl | simp at he)

/-- A `format` of an MTD or UBI partition closes the write context and the
control handle it opened, on each of its paths. -/
theorem FormatFn_flash_releases (env : Env) (name : String) (state : State)
    (argv : List Expr) (t : Trace) (fs_type partition_type location fs_size : String)
    (st : State) (tr : Trace) (hlen : argv.length = 4)
    (hargs : ReadArgs state t (argv.take 4)
      = (some [fs_type, partition_type, location, fs_size], st, tr))
    (h1 : fs_type ≠ "") (h3 : location ≠ "")
    (hpt : partition_type = "MTD" ∨ partition_type = "UBI") :
    handlesReleased (eventsSince tr (FormatFn env name state argv t).trace) = true := by
  rcases FormatFn_flash_cases env name state argv t fs_type partition_type location fs_size
      st tr hlen hargs h1 h3 hpt with
    h | ⟨m, h⟩ | ⟨m, c, cl, h⟩ | ⟨m, c, e, cl, _, _, h⟩ | ⟨m, c, e, _, _, h⟩ | ⟨m, c, e, _, _, h⟩
  · simp [h, eventsSince, handlesReleased, closedContexts, openedContexts, closedControls,
      openedControls]
  · simp [h, eventsSince, handlesReleased, closedContexts, openedContexts, closedControls,
      openedControls]
  · simp [h, eventsSince, handlesReleased, closedContexts, openedContexts, closedControls,
      openedControls]
  · simp [h, eventsSince, handlesReleased, closedContexts, openedContexts, closedControls,
      openedControls]
  · simp [h, eventsSince, handlesReleased, closedContexts, openedContexts, closedControls,
      openedControls]
  · rw [h]
    simp only []
    rw [UbiFormat_trace, List.append_assoc, eventsSince_append_left]
    exact handlesReleased_append _ _
      (by simp [handlesReleased, closedContexts, openedContexts, closedControls,
        openedControls])
      (UbiFormat_releases env _ _ _)

/-- C25: what the code does with its handles.  `UbiAttach`, `UbiDetach` and
`UbiFormat`, a `format` of an MTD or UBI partition and a `write_raw_image` of
a blob close every write context and every control handle they opened, once,
on each of their paths.  A `write_raw_image` of a file does so on each path
but one: when the write context is opened and the file cannot be opened, the
call returns the empty string with the write context still open. -/
theorem handles_released_unless_source_open_fails (env : Env) (name : String)
    (state : State) (argv : List Expr) (t : Trace) (filename partition : String)
    (sz1 sz2 : Int) (st : State) (tr : Trace)
    (hargs : ReadValueArgs state t (argv.take 2)
      = (some [⟨ValueType.VAL_STRING, sz1, some filename⟩,
               ⟨ValueType.VAL_STRING, sz2, some partition⟩], st, tr))
    (hp : partition ≠ "") (hf : filename ≠ "") :
    handlesReleased (eventsSince tr (WriteRawImageFn env name state argv t).trace)
      = (!contextOpened (eventsSince tr (WriteRawImageFn env name state argv t).trace)
          || sourceOpened (eventsSince tr (WriteRawImageFn env name state argv t).trace)) ∧
    (contextOpened (eventsSince tr (WriteRawImageFn env name state argv t).trace) = true →
      sourceOpened (eventsSince tr (WriteRawImageFn env name state argv t).trace) = false →
      (∃ ctx, openedContexts (eventsSince tr (WriteRawImageFn env name state argv t).trace)
          = [ctx]) ∧
        closedContexts (eventsSince tr (WriteRawImageFn env name state argv t).trace) = [] ∧
        WriteRawImageFn env name state argv t
          = ⟨StringValue (some ""), st,
              tr ++ eventsSince tr (WriteRawImageFn env name state argv t).trace⟩) ∧
    (∀ (t2 : Trace) (location out_node : String),
      handlesReleased (eventsSince t2 (UbiAttach env t2 location out_node).2.2) = true) ∧
    (∀ (t2 : Trace) (device : Option String),
      handlesReleased (eventsSince t2 (UbiDetach env t2 device).2) = true) ∧
    (∀ (t2 : Trace) (type : Int) (location : String),
      handlesReleased (eventsSince t2 (UbiFormat env t2 type location).2) = true) ∧
    (∀ (argv2 : List Expr) (state2 : State) (t2 : Trace)
      (fs_type partition_type location fs_size : String) (st2 : State) (tr2 : Trace),
      argv2.length = 4 →
      ReadArgs state2 t2 (argv2.take 4)
        = (some [fs_type, partition_type, location, fs_size], st2, tr2) →
      fs_type ≠ "" → location ≠ "" → (partition_type = "MTD" ∨ partition_type = "UBI") →
      handlesReleased (eventsSince tr2 (FormatFn env name state2 argv2 t2).trace) = true) ∧
    (∀ (argv2 : List Expr) (state2 : State) (t2 : Trace) (contents : Value)
      (partition2 : String) (sz : Int) (st2 : State) (tr2 : Trace),
      ReadValueArgs state2 t2 (argv2.take 2)
        = (some [contents, ⟨ValueType.VAL_STRING, sz, some partition2⟩], st2, tr2) →
      partition2 ≠ "" → contents.type ≠ ValueType.VAL_STRING →
      handlesReleased (eventsSince tr2 (WriteRawImageFn env name state2 argv2 t2).trace)
        = true) := by
  refine ⟨?_, ?_, UbiAttach_releases env, UbiDetach_releases env, UbiFormat_releases env,
    ?_, ?_⟩
  · rcases WriteRawImageFn_file_cases env name state argv t filename partition sz1 sz2 st tr
        hargs hp hf with h | ⟨m, h⟩ | ⟨m, c, h⟩ | ⟨m, c, fh, L, e, cl, hL, h⟩
    · simp [h, eventsSince, handlesReleased, closedContexts, openedContexts, closedControls,
        openedControls, contextOpened, sourceOpened]
    · simp [h, eventsSince, handlesReleased, closedContexts, openedContexts, closedControls,
        openedControls, contextOpened, sourceOpened]
    · simp [h, eventsSince, handlesReleased, closedContexts, openedContexts, closedControls,
        openedControls, contextOpened, sourceOpened]
    · obtain ⟨l1, l2, l3, l4⟩ := onlyReadsAndWrites_handles L hL
      rw [h]
      simp only []
      rw [eventsSince_append_left]
      have hs : sourceOpened ([Ev.mtd_scan_partitions,
          Ev.mtd_find_partition_by_name partition (some m),
          Ev.mtd_write_partition m (some c), Ev.fopen filename "rb" (some fh)] ++ L
          ++ [Ev.fclose fh, Ev.mtd_erase_blocks c (-1) e, Ev.mtd_write_close c cl]) = true := by
        simp [sourceOpened]
      rw [hs, Bool.or_true]
      unfold handlesReleased
      simp only [(handles_append _ _).1, (handles_append _ _).2.1, (handles_append _ _).2.2.1,
        (handles_append _ _).2.2.2, l1, l2, l3, l4]
      simp [closedContexts, openedContexts, closedControls, openedControls]
  · intro hctx hsrc
    rcases WriteRawImageFn_file_cases env name state argv t filename partition sz1 sz2 st tr
        hargs hp hf with h | ⟨m, h⟩ | ⟨m, c, h⟩ | ⟨m, c, fh, L, e, cl, hL, h⟩
    · simp [h, eventsSince, contextOpened] at hctx
    · simp [h, eventsSince, contextOpened] at hctx
    · refine ⟨⟨c, ?_⟩, ?_, ?_⟩
      · simp [h, eventsSince, openedContexts]
      · simp [h, eventsSince, closedContexts]
      · simp [h, eventsSince]
    · simp [h, eventsSince, sourceOpened] at hsrc
  · intro argv2 state2 t2 fs_type partition_type location fs_size st2 tr2 hlen ha h1 h3 hpt
    exact FormatFn_flash_releases env name state2 argv2 t2 fs_type partition_type location
      fs_size st2 tr2 hlen ha h1 h3 hpt
  · intro argv2 state2 t2 contents partition2 sz st2 tr2 ha hp2 hb
    rcases WriteRawImageFn_blob_cases env name state2 argv2 t2 contents partition2 sz st2 tr2
        ha hp2 hb with h | ⟨m, h⟩ | ⟨m, c, wrote, e, cl, h⟩
    · simp [h, eventsSince, handlesReleased, closedContexts, openedContexts, closedControls,
        openedControls]
    · simp [h, eventsSince, handlesReleased, closedContexts, openedContexts, closedControls,
        openedControls]
    · simp [h, eventsSince, handlesReleased, closedContexts, openedContexts, closedControls,
        openedControls]

/-- Witness of C25: `write_raw_image("/tmp/boot.img", "boot")` when the file
does not exist: the write context 7 is opened and never closed. -/
theorem handles_released_unless_source_open_fails_witness :
    eventsSince [] (WriteRawImageFn noFileEnv "write_raw_image" ⟨none⟩
        [strExpr "/tmp/boot.img", strExpr "boot"] []).trace
      = [Ev.mtd_scan_partitions, Ev.mtd_find_partition_by_name "boot" (some 1),
          Ev.mtd_write_partition 1 (some 7), Ev.fopen "/tmp/boot.img" "rb" none] ∧
    handlesReleased (eventsSince [] (WriteRawImageFn noFileEnv "write_raw_image" ⟨none⟩
        [strExpr "/tmp/boot.img", strExpr "boot"] []).trace) = false ∧
    closedContexts (eventsSince [] (WriteRawImageFn noFileEnv "write_raw_image" ⟨none⟩
        [strExpr "/tmp/boot.img", strExpr "boot"] []).trace) = [] :=
  ⟨by decide, by decide,
    ((handles_released_unless_source_open_fails noFileEnv "write_raw_image" ⟨none⟩
      [strExpr "/tmp/boot.img", strExpr "boot"] [] "/tmp/boot.img" "boot" 13 4 ⟨none⟩ []
      rfl (by decide) (by decide)).2.1 (by decide) (by decide)).2.1⟩

/-! ## `ui_print` -/

/-- A text always splits into at least one segment. -/
theorem splitAtNewlines_ne_nil (text : List Char) : splitAtNewlines text ≠ [] := by
  cases text with
  | nil => simp [splitAtNewlines]
  | cons c cs =>
    unfold splitAtNewlines
    by_cases h : c = '\n'
    · simp [h]
    · rw [if_neg h]
      cases splitAtNewlines cs <;> simp

/-- The newlines at the start of a text add no line. -/
theorem linesOf_dropWhile (text : List Char) :
    linesOf (text.dropWhile fun c => ['\n'].contains c) = linesOf text := by
  induction text with
  | nil => rfl
  | cons c cs ih =>
    by_cases h : c = '\n'
    · have hc : ['\n'].contains c = true := by simp [h]
      rw [List.dropWhile_cons_of_pos hc, ih]
      unfold linesOf
      conv_rhs => unfold splitAtNewlines
      rw [if_pos h, List.filter_cons_of_neg (by simp)]
    · have hc : ¬ (['\n'].contains c = true) := by simp [h]
      rw [List.dropWhile_cons_of_neg hc]

/-- The first segment of a text, and the segments of what follows the newline
that ends it. -/
theorem splitAtNewlines_takeWhile (text : List Char) :
    splitAtNewlines text
      = text.takeWhile (fun c => !(['\n'].contains c))
        :: (if text.dropWhile (fun c => !(['\n'].contains c)) = [] then []
            else splitAtNewlines ((text.dropWhile fun c => !(['\n'].contains c)).drop 1)) := by
  induction text with
  | nil => rfl
  | cons c cs ih =>
    by_cases h : c = '\n'
    · have hc : (!(['\n'].contains c)) = false := by simp [h]
      simp only [List.takeWhile_cons, List.dropWhile_cons, hc]
      conv_lhs => unfold splitAtNewlines
      rw [if_pos h]
      simp
    · have hc : (!(['\n'].contains c)) = true := by simp [h]
      simp only [List.takeWhile_cons, List.dropWhile_cons, hc, if_true]
      conv_lhs => unfold splitAtNewlines
      rw [if_neg h, ih]

/-- Dropping the start of a list does not make it longer. -/
theorem length_dropWhile_le (p : Char → Bool) (l : List Char) :
    (l.dropWhile p).length ≤ l.length := by
  induction l with
  | nil => exact Nat.le_refl _
  | cons c cs ih =>
    rw [List.dropWhile_cons]
    split
    · exact Nat.le_succ_of_le ih
    · exact Nat.le_refl _

/-- What is left after dropping the start of a list does not start with a
dropped element. -/
theorem dropWhile_head (p : Char → Bool) (l : List Char) (c : Char) (cs : List Char)
    (h : l.dropWhile p = c :: cs) : p c = false := by
  induction l with
  | nil => simp at h
  | cons a l ih =>
    rw [List.dropWhile_cons] at h
    by_cases ha : p a = true
    · rw [if_pos ha] at h
      exact ih h
    · rw [if_neg ha] at h
      have hac : a = c := (List.cons.inj h).1
      rw [← hac]
      simpa using ha

/-- What `strtok` gives on a text, in terms of its lines: `NULL` when the text
has no line, and otherwise its first line, leaving a text that holds the
other lines and is shorter. -/
theorem strtok_newline (text : List Char) :
    (strtok ['\n'] text = none ∧ linesOf text = []) ∨
    (∃ line rest, strtok ['\n'] text = some (line, rest) ∧
      linesOf text = line :: linesOf rest ∧ rest.length < text.length ∧ line ≠ []) := by
  unfold strtok
  simp only []
  rw [← linesOf_dropWhile text]
  have hlen : (text.dropWhile fun c => ['\n'].contains c).length ≤ text.length :=
    length_dropWhile_le _ _
  have hhead := dropWhile_head (fun c => ['\n'].contains c) text
  generalize (text.dropWhile fun c => ['\n'].contains c) = start at hlen hhead ⊢
  by_cases h : start = []
  · left
    rw [if_pos h, h]
    exact ⟨rfl, rfl⟩
  · right
    rw [if_neg h]
    obtain ⟨c, cs, rfl⟩ : ∃ c cs, start = c :: cs := by
      cases start with
      | nil => exact absurd rfl h
      | cons c cs => exact ⟨c, cs, rfl⟩
    have hc : (!(['\n'].contains c)) = true := by
      have := hhead c cs rfl
      simp only [] at this
      rw [this]
      rfl
    refine ⟨_, _, rfl, ?_, ?_, ?_⟩
    · unfold linesOf
      rw [splitAtNewlines_takeWhile (c :: cs)]
      have hne : (c :: cs).takeWhile (fun c => !(['\n'].contains c)) ≠ [] := by
        simp only [List.takeWhile_cons, hc, if_true]
        exact List.cons_ne_nil _ _
      rw [List.filter_cons_of_pos (by simpa using hne)]
      congr 1
      by_cases hd : (c :: cs).dropWhile (fun c => !(['\n'].contains c)) = []
      · rw [if_pos hd, hd]
        rfl
      · rw [if_neg hd]
    · have h1 : (((c :: cs).dropWhile fun c => !(['\n'].contains c)).drop 1).length
          ≤ ((c :: cs).dropWhile fun c => !(['\n'].contains c)).length := by simp
      have h2 : ((c :: cs).dropWhile fun c => !(['\n'].contains c)).length
          ≤ cs.length := by
        simp only [List.dropWhile_cons, hc, if_true]
        exact length_dropWhile_le _ _
      simp only [List.length_cons] at hlen
      omega
    · simp only [List.takeWhile_cons, hc, if_true]
      exact List.cons_ne_nil _ _

/-- The printing loop of `UIPrintFn` with enough fuel writes one line for
each line of the text, in order. -/
theorem uiPrintLoop_spec :
    ∀ (fuel : Nat) (text : List Char) (t : Trace), text.length < fuel →
      uiPrintLoop fuel (strtok ['\n'] text) t
        = t ++ (linesOf text).map
            (fun line => Ev.cmd_pipe ("ui_print " ++ String.mk line ++ "\n")) := by
  intro fuel
  induction fuel with
  | zero => intro text t h; omega
  | succ fuel ih =>
    intro text t h
    rcases strtok_newline text with ⟨h1, h2⟩ | ⟨line, rest, h1, h2, h3, _⟩
    · rw [h1, h2]
      simp [uiPrintLoop]
    · rw [h1, h2]
      unfold uiPrintLoop
      rw [ih rest _ (by omega), List.map_cons, List.append_assoc, List.singleton_append]

/-- The buffer `UIPrintFn` fills is the arguments put together in order. -/
theorem foldl_append_data (args : List String) (start : List Char) :
    args.foldl (fun b a => b ++ a.data) start = start ++ concatenation args := by
  induction args generalizing start with
  | nil => simp [concatenation]
  | cons a args ih =>
    rw [List.foldl_cons, ih]
    simp [concatenation]

/-- The segments of a text put together are the text without its newlines. -/
theorem splitAtNewlines_flatten (text : List Char) :
    (splitAtNewlines text).flatten = text.filter (fun c => decide (c ≠ '\n')) := by
  induction text with
  | nil => rfl
  | cons c cs ih =>
    unfold splitAtNewlines
    by_cases h : c = '\n'
    · rw [if_pos h, List.flatten_cons, List.nil_append, ih,
        List.filter_cons_of_neg (by simp [h])]
    · rw [if_neg h, List.filter_cons_of_pos (by simp [h]), ← ih]
      cases hs : splitAtNewlines cs with
      | nil => exact absurd hs (splitAtNewlines_ne_nil cs)
      | cons seg segs => simp

/-- Leaving out the empty segments does not change the text they make. -/
theorem filter_nonempty_flatten (segs : List (List Char)) :
    (segs.filter fun seg => decide (seg ≠ [])).flatten = segs.flatten := by
  induction segs with
  | nil => rfl
  | cons seg segs ih =>
    by_cases h : seg = []
    · rw [List.filter_cons_of_neg (by simp [h]), ih, h]
      rfl
    · rw [List.filter_cons_of_pos (by simp [h]), List.flatten_cons, List.flatten_cons, ih]

/-- Counterexample to C26 as stated: `ui_print("a\n\nb")`.  The text splits at
its newlines into three segments, the second one empty; the call writes three
lines, not four: no line is written for the empty segment. -/
theorem UIPrintFn_skips_empty_segment :
    splitAtNewlines (concatenation ["a\n\nb"]) = [['a'], [], ['b']] ∧
    pipeLines (eventsSince [] (UIPrintFn goodEnv "ui_print" ⟨none⟩ [strExpr "a\n\nb"] []).trace)
      = ["ui_print a\n", "ui_print b\n", "ui_print\n"] ∧
    (pipeLines (eventsSince []
        (UIPrintFn goodEnv "ui_print" ⟨none⟩ [strExpr "a\n\nb"] []).trace)).length
      ≠ (splitAtNewlines (concatenation ["a\n\nb"])).length + 1 := by
  decide

/-- C26 (amended): for every argument list that evaluates, `ui_print` puts the
arguments together in order, splits the text at its newline characters and
writes to the command pipe one line `ui_print <segment>` for each segment that
is not empty, in order, followed by exactly one bare `ui_print` line, and
nothing else.  The number of lines written is the number of non-empty
segments plus one, and the segments written, put together, are the text
without its newlines.  The call does not abort and records no message. -/
theorem UIPrintFn_lines (env : Env) (name : String) (state : State)
    (argv : List Expr) (t : Trace) (args : List String) (st : State) (tr : Trace)
    (hargs : ReadVarArgs state t argv = (some args, st, tr)) :
    eventsSince tr (UIPrintFn env name state argv t).trace
      = (linesOf (concatenation args)).map
          (fun line => Ev.cmd_pipe ("ui_print " ++ String.mk line ++ "\n"))
        ++ [Ev.cmd_pipe "ui_print\n"] ∧
    pipeLines (eventsSince tr (UIPrintFn env name state argv t).trace)
      = (linesOf (concatenation args)).map
          (fun line => "ui_print " ++ String.mk line ++ "\n") ++ ["ui_print\n"] ∧
    (pipeLines (eventsSince tr (UIPrintFn env name state argv t).trace)).length
      = (linesOf (concatenation args)).length + 1 ∧
    (linesOf (concatenation args)).flatten
      = (concatenation args).filter (fun c => decide (c ≠ '\n')) ∧
    (UIPrintFn env name state argv t).value ≠ none ∧
    (UIPrintFn env name state argv t).state = st := by
  have hbuf : args.foldl (fun b a => b ++ a.data) [] = concatenation args := by
    rw [foldl_append_data, List.nil_append]
  have hev : eventsSince tr (UIPrintFn env name state argv t).trace
      = (linesOf (concatenation args)).map
          (fun line => Ev.cmd_pipe ("ui_print " ++ String.mk line ++ "\n"))
        ++ [Ev.cmd_pipe "ui_print\n"] := by
    simp only [UIPrintFn, hargs, hbuf]
    rw [uiPrintLoop_spec _ _ _ (Nat.lt_succ_self _), List.append_assoc,
      eventsSince_append_left]
  have hpipe : pipeLines (eventsSince tr (UIPrintFn env name state argv t).trace)
      = (linesOf (concatenation args)).map
          (fun line => "ui_print " ++ String.mk line ++ "\n") ++ ["ui_print\n"] := by
    rw [hev]
    unfold pipeLines
    rw [List.filterMap_append]
    congr 1
    induction linesOf (concatenation args) with
    | nil => rfl
    | cons line rest ih =>
      rw [List.map_cons, List.filterMap_cons, List.map_cons]
      simp only []
      rw [ih]
  refine ⟨hev, hpipe, ?_, ?_, ?_, ?_⟩
  · rw [hpipe, List.length_append, List.length_map]
    rfl
  · unfold linesOf
    rw [filter_nonempty_flatten, splitAtNewlines_flatten]
  · simp only [UIPrintFn, hargs, StringValue, ne_eq, reduceCtorEq, not_false_eq_true]
  · simp only [UIPrintFn, hargs]

/-- Witness of C26: `ui_print("Installing", " update\n", "\ndone\n")`. -/
theorem UIPrintFn_lines_witness :
    ReadVarArgs ⟨none⟩ [] [strExpr "Installing", strExpr " update\n", strExpr "\ndone\n"]
      = (some ["Installing", " update\n", "\ndone\n"], ⟨none⟩, []) ∧
    pipeLines (eventsSince [] (UIPrintFn goodEnv "ui_print" ⟨none⟩
        [strExpr "Installing", strExpr " update\n", strExpr "\ndone\n"] []).trace)
      = ["ui_print Installing update\n", "ui_print done\n", "ui_print\n"] ∧
    (pipeLines (eventsSince [] (UIPrintFn goodEnv "ui_print" ⟨none⟩
        [strExpr "Installing", strExpr " update\n", strExpr "\ndone\n"] []).trace)).length
      = (linesOf (concatenation ["Installing", " update\n", "\ndone\n"])).length + 1 :=
  ⟨rfl, by decide,
    (UIPrintFn_lines goodEnv "ui_print" ⟨none⟩
      [strExpr "Installing", strExpr " update\n", strExpr "\ndone\n"] []
      ["Installing", " update\n", "\ndone\n"] ⟨none⟩ [] rfl).2.2.1⟩

/-! ## `is_file_exist` -/

/-- Counterexample to C27 as stated: `is_file_exist("/sdcard/update.zip")` when
the file does not exist returns the string `file_not_exit`, not the empty
string. -/
theorem IsFileExistFn_missing_file_not_empty :
    (IsFileExistFn noFileEnv "is_file_exist" ⟨none⟩ [strExpr "/sdcard/update.zip"] []).value
      = StringValue (some "file_not_exit") ∧
    (IsFileExistFn noFileEnv "is_file_exist" ⟨none⟩ [strExpr "/sdcard/update.zip"] []).value
      ≠ StringValue (some "") := by
  decide

/-- C27 (amended): for every path that evaluates, `is_file_exist` calls `stat`
once and returns the path itself when the file exists and the string
`file_not_exit` when it does not; it records no message.  For a path that is
not empty the result is never the empty string, so the test of emptiness does
not tell the two cases apart. -/
theorem IsFileExistFn_result (env : Env) (name : String) (state : State)
    (argv : List Expr) (t : Trace) (filename : String) (st : State) (tr : Trace)
    (hargs : ReadArgs state t (argv.take 1) = (some [filename], st, tr)) :
    (∃ st_size,
      IsFileExistFn env name state argv t
        = ⟨StringValue (some (if st_size = none then "file_not_exit" else filename)), st,
            tr ++ [Ev.stat filename st_size]⟩) ∧
    (filename ≠ "" →
      (IsFileExistFn env name state argv t).value ≠ StringValue (some "")) := by
  have h : IsFileExistFn env name state argv t
      = ⟨StringValue (some (if env.stat tr filename = none then "file_not_exit"
            else filename)), st, tr ++ [Ev.stat filename (env.stat tr filename)]⟩ := by
    simp only [IsFileExistFn, hargs]
    generalize env.stat tr filename = s
    cases s <;> simp
  refine ⟨⟨env.stat tr filename, h⟩, ?_⟩
  intro hne
  rw [h]
  generalize env.stat tr filename = s
  cases s with
  | none =>
    simp only [if_true, StringValue, ne_eq, Option.some.injEq, Value.mk.injEq, true_and,
      not_and]
    intro _ hd
    exact absurd hd (by decide)
  | some n =>
    simp only [reduceCtorEq, if_false, StringValue, ne_eq, Option.some.injEq, Value.mk.injEq,
      true_and, not_and]
    intro _ hd
    exact absurd hd hne

/-- Witness of C27: on a device where the file exists the result is the path. -/
theorem IsFileExistFn_result_witness :
    (IsFileExistFn goodEnv "is_file_exist" ⟨none⟩ [strExpr "/sdcard/update.zip"] []).value
      = StringValue (some "/sdcard/update.zip") ∧
    (IsFileExistFn goodEnv "is_file_exist" ⟨none⟩ [strExpr "/sdcard/update.zip"] []).value
      ≠ StringValue (some "") :=
  ⟨by decide,
    (IsFileExistFn_result goodEnv "is_file_exist" ⟨none⟩ [strExpr "/sdcard/update.zip"] []
      "/sdcard/update.zip" ⟨none⟩ [] rfl).2 (by decide)⟩

/-! ## `file_getprop` -/

/-- The run of `FileGetPropFn` on a file that is read in full and whose text
holds no line: the loop over the lines reads through the `NULL` that `strtok`
returned. -/
theorem FileGetPropFn_read_fault (env : Env) (name : String) (state : State)
    (argv : List Expr) (t : Trace) (filename key : String) (st : State) (tr : Trace)
    (st_size : Int) (fh : Nat) (bytes : String)
    (hargs : ReadArgs state t (argv.take 2) = (some [filename, key], st, tr))
    (hstat : env.stat tr filename = some st_size)
    (hsize : st_size ≤ MAX_FILE_GETPROP_SIZE)
    (hmalloc : env.malloc (tr ++ [Ev.stat filename (some st_size)]) (st_size + 1) = true)
    (hopen : env.fopen (tr ++ [Ev.stat filename (some st_size), Ev.malloc (st_size + 1) true])
      filename "rb" = some (fh, bytes))
    (hread : ((bytes.data.take st_size.toNat).length : Int) = st_size)
    (htok : strtok ['\n']
      ((bytes.data.take st_size.toNat).takeWhile fun c => decide (c ≠ Char.ofNat 0)) = none) :
    FileGetPropFn env name state argv t
      = ⟨none, st,
          tr ++ [Ev.stat filename (some st_size), Ev.malloc (st_size + 1) true,
            Ev.fopen filename "rb" (some fh),
            Ev.fread fh st_size.toNat ⟨bytes.data.take st_size.toNat⟩, Ev.fclose fh,
            Ev.null_dereference "*line"]⟩ := by
  have hs : ¬ st_size > MAX_FILE_GETPROP_SIZE := not_lt.mpr hsize
  have hr : ¬ ((bytes.data.take st_size.toNat).length : Int) ≠ st_size := fun h => h hread
  unfold FileGetPropFn
  rw [hargs]
  simp only [hstat, hs, if_false, List.append_assoc, List.singleton_append, List.cons_append,
    List.nil_append, hmalloc, hopen, Option.map_some', hr, Bool.true_eq_false, htok]

/-- The run of `FileGetPropFn` on a file that is read in full and whose text
holds a line, when the loop over the lines finds the key or reaches the end
of the text: the value found, or the empty string. -/
theorem FileGetPropFn_read_lines (env : Env) (name : String) (state : State)
    (argv : List Expr) (t : Trace) (filename key : String) (st : State) (tr : Trace)
    (st_size : Int) (fh : Nat) (bytes : String) (line rest : List Char)
    (hargs : ReadArgs state t (argv.take 2) = (some [filename, key], st, tr))
    (hstat : env.stat tr filename = some st_size)
    (hsize : st_size ≤ MAX_FILE_GETPROP_SIZE)
    (hmalloc : env.malloc (tr ++ [Ev.stat filename (some st_size)]) (st_size + 1) = true)
    (hopen : env.fopen (tr ++ [Ev.stat filename (some st_size), Ev.malloc (st_size + 1) true])
      filename "rb" = some (fh, bytes))
    (hread : ((bytes.data.take st_size.toNat).length : Int) = st_size)
    (htok : strtok ['\n']
      ((bytes.data.take st_size.toNat).takeWhile fun c => decide (c ≠ Char.ofNat 0))
        = some (line, rest)) :
    (∀ value, propLoop key
        (((bytes.data.take st_size.toNat).takeWhile
          fun c => decide (c ≠ Char.ofNat 0)).length + 1) line rest = PropLookup.found value →
      FileGetPropFn env name state argv t
        = ⟨StringValue (some value), st,
            tr ++ [Ev.stat filename (some st_size), Ev.malloc (st_size + 1) true,
              Ev.fopen filename "rb" (some fh),
              Ev.fread fh st_size.toNat ⟨bytes.data.take st_size.toNat⟩, Ev.fclose fh]⟩) ∧
    (propLoop key
        (((bytes.data.take st_size.toNat).takeWhile
          fun c => decide (c ≠ Char.ofNat 0)).length + 1) line rest = PropLookup.absent →
      FileGetPropFn env name state argv t
        = ⟨StringValue (some ""), st,
            tr ++ [Ev.stat filename (some st_size), Ev.malloc (st_size + 1) true,
              Ev.fopen filename "rb" (some fh),
              Ev.fread fh st_size.toNat ⟨bytes.data.take st_size.toNat⟩, Ev.fclose fh]⟩) := by
  have hs : ¬ st_size > MAX_FILE_GETPROP_SIZE := not_lt.mpr hsize
  have hr : ¬ ((bytes.data.take st_size.toNat).length : Int) ≠ st_size := fun h => h hread
  constructor
  · intro value hloop
    unfold FileGetPropFn
    rw [hargs]
    simp only [hstat, hs, if_false, List.append_assoc, List.singleton_append, List.cons_append,
      List.nil_append, hmalloc, hopen, Option.map_some', hr, Bool.true_eq_false, htok, hloop]
  · intro hloop
    unfold FileGetPropFn
    rw [hargs]
    simp only [hstat, hs, if_false, List.append_assoc, List.singleton_append, List.cons_append,
      List.nil_append, hmalloc, hopen, Option.map_some', hr, Bool.true_eq_false, htok, hloop]

/-- The trimming loop of `FileGetPropFn`, on a text that does not start with
white space, removes the white space at the end of the text. -/
theorem trimEnd_spec (text : List Char) :
    ∀ n, n ≤ text.length → (n = 0 ∨ isspace (text.getD 0 ' ') = false) →
      text.take (trimEnd text n) = (text.take n).rdropWhile isspace := by
  intro n
  induction n using Nat.strong_induction_on with
  | _ n ih =>
    intro hn h0
    match n, hn, h0, ih with
    | 0, _, _, _ => simp [trimEnd, List.rdropWhile]
    | 1, hn, h0, _ =>
      have hs : isspace (text.getD 0 ' ') = false := by
        rcases h0 with h | h
        · exact absurd h (by decide)
        · exact h
      obtain ⟨c, cs, rfl⟩ : ∃ c cs, text = c :: cs := by
        cases text with
        | nil => simp at hn
        | cons c cs => exact ⟨c, cs, rfl⟩
      have hc : isspace c = false := by simpa using hs
      have : (c :: cs).take 1 = [] ++ [c] := rfl
      rw [trimEnd, this, List.rdropWhile_concat_neg _ _ _ (by simp [hc])]
    | n + 2, hn, h0, ih =>
      have hs : isspace (text.getD 0 ' ') = false := by
        rcases h0 with h | h
        · omega
        · exact h
      have hlt : n + 1 < text.length := by omega
      have htake : text.take (n + 2) = text.take (n + 1) ++ [text.getD (n + 1) ' '] := by
        rw [List.take_succ, List.getElem?_eq_getElem hlt, List.getD_eq_getElem?_getD,
          List.getElem?_eq_getElem hlt]
        rfl
      unfold trimEnd
      by_cases hsp : isspace (text.getD (n + 1) ' ') = true
      · rw [if_pos hsp, htake, List.rdropWhile_concat_pos _ _ _ hsp]
        exact ih (n + 1) (by omega) (by omega) (Or.inr hs)
      · rw [if_neg hsp, htake, List.rdropWhile_concat_neg _ _ _ hsp]

/-- A text from which the white space at the start was dropped is empty or
does not start with white space. -/
theorem dropWhile_isspace_start (text : List Char) :
    (text.dropWhile isspace).length = 0
      ∨ isspace ((text.dropWhile isspace).getD 0 ' ') = false := by
  cases h : text.dropWhile isspace with
  | nil => left; rfl
  | cons c cs =>
    right
    have := dropWhile_head isspace text c cs h
    simpa using this

/-- The start of a text that does not start with white space does not start
with white space either. -/
theorem takeWhile_start (p : Char → Bool) (text : List Char)
    (h : text.length = 0 ∨ isspace (text.getD 0 ' ') = false) :
    (text.takeWhile p).length = 0 ∨ isspace ((text.takeWhile p).getD 0 ' ') = false := by
  cases text with
  | nil => left; rfl
  | cons c cs =>
    rw [List.takeWhile_cons]
    by_cases hp : p c = true
    · rw [if_pos hp]
      right
      rcases h with h | h
      · simp at h
      · simpa using h
    · rw [if_neg hp]
      left
      rfl

/-- Dropping the white space at the start of a line keeps its `=`. -/
theorem contains_eq_dropWhile (line : List Char) :
    (line.dropWhile isspace).contains '=' = line.contains '=' := by
  induction line with
  | nil => rfl
  | cons c cs ih =>
    rw [List.dropWhile_cons]
    by_cases hc : isspace c = true
    · rw [if_pos hc, ih]
      have hne : ('=' == c) = false := by
        by_cases he : c = '='
        · rw [he] at hc
          exact absurd hc (by decide)
        · simpa using fun h => he h.symm
      simp only [List.contains_cons, hne, Bool.false_or]
    · rw [if_neg hc]

/-- One turn of the loop of `FileGetPropFn` on a line that is blank, a comment
or a `key=value` pair: the value of the line if it defines the key,
otherwise the turn on the next line. -/
theorem propLoop_spec (key : String) :
    ∀ (fuel : Nat) (line rest : List Char), rest.length < fuel →
      (∀ l ∈ line :: linesOf rest, wellFormedLine l = true) →
      propLoop key fuel line rest
        = (match (line :: linesOf rest).find? (definesKey key) with
          | some l => PropLookup.found (String.mk (lineValue l))
          | none => PropLookup.absent) := by
  intro fuel
  induction fuel with
  | zero => intro line rest h; omega
  | succ fuel ih =>
    intro line rest hlen hwf
    have hwl : wellFormedLine line = true := hwf line (List.mem_cons_self _ _)
    -- the turn on this line, given the outcome `next` of the turn on the next line
    have hturn : ∀ next : PropLookup,
        next = (match (linesOf rest).find? (definesKey key) with
          | some l => PropLookup.found (String.mk (lineValue l))
          | none => PropLookup.absent) →
        (if line.dropWhile isspace = [] ∨ (line.dropWhile isspace).head? = some '#' then next
          else if (line.dropWhile isspace).contains '=' = false then
            PropLookup.malformed (String.mk (line.dropWhile isspace))
          else if key.data ≠
              ((line.dropWhile isspace).takeWhile fun c => decide (c ≠ '=')).take
                (trimEnd ((line.dropWhile isspace).takeWhile fun c => decide (c ≠ '='))
                  ((line.dropWhile isspace).takeWhile fun c => decide (c ≠ '=')).length)
            then next
          else PropLookup.found (String.mk
            (((((line.dropWhile isspace).dropWhile fun c => decide (c ≠ '=')).drop
              1).dropWhile isspace).take
              (trimEnd ((((line.dropWhile isspace).dropWhile
                  fun c => decide (c ≠ '=')).drop 1).dropWhile isspace)
                ((((line.dropWhile isspace).dropWhile
                  fun c => decide (c ≠ '=')).drop 1).dropWhile isspace).length))))
          = (match (line :: linesOf rest).find? (definesKey key) with
            | some l => PropLookup.found (String.mk (lineValue l))
            | none => PropLookup.absent) := by
      intro next hnext
      rw [hnext, List.find?_cons]
      by_cases hb : isBlankOrComment line = true
      · have hcond : line.dropWhile isspace = []
            ∨ (line.dropWhile isspace).head? = some '#' := by
          unfold isBlankOrComment at hb
          simpa using hb
        have hd : definesKey key line = false := by
          unfold definesKey
          rw [hb]
          rfl
        rw [if_pos hcond, hd]
      · have hb' : isBlankOrComment line = false := by simpa using hb
        have hcond : ¬ (line.dropWhile isspace = []
            ∨ (line.dropWhile isspace).head? = some '#') := by
          unfold isBlankOrComment at hb'
          simpa using hb'
        have hcont : ¬ ((line.dropWhile isspace).contains '=' = false) := by
          rw [contains_eq_dropWhile]
          unfold wellFormedLine at hwl
          rw [hb', Bool.false_or] at hwl
          rw [hwl]
          decide
        have hkey : ((line.dropWhile isspace).takeWhile fun c => decide (c ≠ '=')).take
              (trimEnd ((line.dropWhile isspace).takeWhile fun c => decide (c ≠ '='))
                ((line.dropWhile isspace).takeWhile fun c => decide (c ≠ '=')).length)
            = lineKey line := by
          rw [trimEnd_spec _ _ (Nat.le_refl _)
            (takeWhile_start _ _ (dropWhile_isspace_start line)), List.take_length]
          rfl
        have hval : ((((line.dropWhile isspace).dropWhile fun c => decide (c ≠ '=')).drop
              1).dropWhile isspace).take
              (trimEnd ((((line.dropWhile isspace).dropWhile
                  fun c => decide (c ≠ '=')).drop 1).dropWhile isspace)
                ((((line.dropWhile isspace).dropWhile
                  fun c => decide (c ≠ '=')).drop 1).dropWhile isspace).length)
            = lineValue line := by
          rw [trimEnd_spec _ _ (Nat.le_refl _) (dropWhile_isspace_start _), List.take_length]
          rfl
        rw [if_neg hcond, if_neg hcont, hkey, hval]
        by_cases hk : key.data = lineKey line
        · have hd : definesKey key line = true := by
            unfold definesKey
            rw [hb', ← hk]
            simp
          rw [if_neg (fun h => h hk), hd]
        · have hd : definesKey key line = false := by
            unfold definesKey
            have : ¬ lineKey line = key.data := fun h => hk h.symm
            simp [this]
          rw [if_pos hk, hd]
    rcases strtok_newline rest with ⟨h1, h2⟩ | ⟨l, r, h1, h2, h3, _⟩
    · rw [propLoop]
      simp only [h1]
      exact hturn _ (by rw [h2]; rfl)
    · rw [propLoop]
      simp only [h1]
      refine hturn _ ?_
      rw [h2]
      exact ih l r (by omega) (fun x hx => hwf x (by
        rw [h2]
        exact List.mem_cons_of_mem _ hx))

/-- C28: what the code does on a file that is read in full (at most 65536
bytes, the buffer is allocated, the file opens and gives all its bytes).
When the text has at least one line that is not empty and each line is blank,
a `#` comment or a `key=value` pair, `file_getprop` does not abort and returns
the value of the first line that defines the key, the empty string when no
line does.  When the text has no line at all, or empty lines only, the loop
over the lines is entered with the `NULL` that `strtok` returned and reads
through it: no value is returned. -/
theorem FileGetPropFn_lookup (env : Env) (name : String) (state : State)
    (argv : List Expr) (t : Trace) (filename key : String) (st : State) (tr : Trace)
    (st_size : Int) (fh : Nat) (bytes : String)
    (hargs : ReadArgs state t (argv.take 2) = (some [filename, key], st, tr))
    (hstat : env.stat tr filename = some st_size)
    (hsize : st_size ≤ MAX_FILE_GETPROP_SIZE)
    (hmalloc : env.malloc (tr ++ [Ev.stat filename (some st_size)]) (st_size + 1) = true)
    (hopen : env.fopen (tr ++ [Ev.stat filename (some st_size), Ev.malloc (st_size + 1) true])
      filename "rb" = some (fh, bytes))
    (hread : ((bytes.data.take st_size.toNat).length : Int) = st_size) :
    (linesOf (propFileText bytes st_size) = [] →
      FileGetPropFn env name state argv t
        = ⟨none, st,
            tr ++ [Ev.stat filename (some st_size), Ev.malloc (st_size + 1) true,
              Ev.fopen filename "rb" (some fh),
              Ev.fread fh st_size.toNat ⟨bytes.data.take st_size.toNat⟩, Ev.fclose fh,
              Ev.null_dereference "*line"]⟩) ∧
    (linesOf (propFileText bytes st_size) ≠ [] →
      (∀ line ∈ linesOf (propFileText bytes st_size), wellFormedLine line = true) →
      FileGetPropFn env name state argv t
        = ⟨StringValue (some (lookupProp key (linesOf (propFileText bytes st_size)))), st,
            tr ++ [Ev.stat filename (some st_size), Ev.malloc (st_size + 1) true,
              Ev.fopen filename "rb" (some fh),
              Ev.fread fh st_size.toNat ⟨bytes.data.take st_size.toNat⟩, Ev.fclose fh]⟩) := by
  have htext : ((bytes.data.take st_size.toNat).takeWhile fun c => decide (c ≠ Char.ofNat 0))
      = propFileText bytes st_size := rfl
  rcases strtok_newline (propFileText bytes st_size) with ⟨h1, h2⟩ | ⟨line, rest, h1, h2, h3, _⟩
  · constructor
    · intro _
      exact FileGetPropFn_read_fault env name state argv t filename key st tr st_size fh bytes
        hargs hstat hsize hmalloc hopen hread h1
    · intro hne
      exact absurd h2 hne
  · constructor
    · intro hnil
      rw [h2] at hnil
      exact absurd hnil (List.cons_ne_nil _ _)
    · intro _ hwf
      rw [h2] at hwf
      obtain ⟨hfound, habsent⟩ := FileGetPropFn_read_lines env name state argv t filename key
        st tr st_size fh bytes line rest hargs hstat hsize hmalloc hopen hread h1
      have hloop := propLoop_spec key ((propFileText bytes st_size).length + 1) line rest
        (by omega) hwf
      rw [htext] at hfound habsent
      unfold lookupProp
      rw [h2]
      cases hf : (line :: linesOf rest).find? (definesKey key) with
      | none =>
        rw [hf] at hloop
        exact habsent hloop
      | some l =>
        rw [hf] at hloop
        exact hfound _ hloop

/-- Witness of C28: the key `ro.b` in a file with a comment, an empty line and
two pairs; and a file that holds one newline and nothing else, on which the
call reads through `NULL`. -/
theorem FileGetPropFn_lookup_witness :
    FileGetPropFn (propFileEnv "# build\n\n  ro.a = 1 \nro.b=x y\t\n") "file_getprop" ⟨none⟩
        [strExpr "/system/build.prop", strExpr "ro.b"] []
      = ⟨StringValue (some "x y"), ⟨none⟩,
          [Ev.stat "/system/build.prop" (some 31), Ev.malloc 32 true,
            Ev.fopen "/system/build.prop" "rb" (some 3),
            Ev.fread 3 31 "# build\n\n  ro.a = 1 \nro.b=x y\t\n", Ev.fclose 3]⟩ ∧
    FileGetPropFn (propFileEnv "\n") "file_getprop" ⟨none⟩
        [strExpr "/system/build.prop", strExpr "ro.b"] []
      = ⟨none, ⟨none⟩,
          [] ++ [Ev.stat "/system/build.prop" (some 1), Ev.malloc (1 + 1) true,
            Ev.fopen "/system/build.prop" "rb" (some 3),
            Ev.fread 3 (1 : Int).toNat ⟨"\n".data.take (1 : Int).toNat⟩, Ev.fclose 3,
            Ev.null_dereference "*line"]⟩ :=
  ⟨by decide,
    (FileGetPropFn_lookup (propFileEnv "\n") "file_getprop" ⟨none⟩
      [strExpr "/system/build.prop", strExpr "ro.b"] [] "/system/build.prop" "ro.b" ⟨none⟩ []
      1 3 "\n" rfl rfl (by decide) rfl rfl (by decide)).1 (by decide)⟩

/-! ## `delete` and `delete_recursive` -/

/-- An `int` holds the values from `-2^31` to `2^31 - 1` as they are. -/
theorem wrapInt32_id (x : Int) (h1 : -2147483648 ≤ x) (h2 : x < 2147483648) :
    wrapInt32 x = x := by
  unfold wrapInt32
  omega

/-- The cleanup loop of `DeleteFn`, entered with `0 < i`: it releases
`paths[0]` at every turn, `2^31 - i` times in all, until `i` has passed
`INT_MAX`; it leaves by its own test, not for want of fuel. -/
theorem deleteCleanupLoop_spec (paths : List String) :
    ∀ (n fuel : Nat) (i : Int) (t : Trace), 1 ≤ n → i = 2147483648 - (n : Int) → 1 ≤ i →
      n < fuel →
      deleteCleanupLoop paths 0 fuel i t
        = (-2147483648, t ++ List.replicate n (Ev.free_entry 0 (paths.getD 0 ""))) := by
  intro n
  induction n with
  | zero => intro fuel i t h; omega
  | succ n ih =>
    intro fuel i t _ hi h1 hf
    obtain ⟨fuel, rfl⟩ : ∃ f, fuel = f + 1 := ⟨fuel - 1, by omega⟩
    unfold deleteCleanupLoop
    have hpos : (0 : Int) < i := by omega
    rw [if_pos hpos]
    simp only [Int.toNat_zero]
    by_cases hn : n = 0
    · subst hn
      have hw : wrapInt32 (i + 1) = -2147483648 := by
        unfold wrapInt32
        omega
      rw [hw]
      obtain ⟨fuel, rfl⟩ : ∃ f, fuel = f + 1 := ⟨fuel - 1, by omega⟩
      unfold deleteCleanupLoop
      rw [if_neg (by decide)]
      rfl
    · have hw : wrapInt32 (i + 1) = i + 1 := wrapInt32_id _ (by omega) (by omega)
      rw [hw, ih fuel (i + 1) _ (by omega) (by omega) (by omega) (by omega),
        List.append_assoc, List.singleton_append, ← List.replicate_succ]

/-- The entries a run of one release repeated is made of. -/
theorem freedEntries_replicate (n k : Nat) (entry : String) :
    freedEntries (List.replicate n (Ev.free_entry k entry)) = List.replicate n (k, entry) := by
  induction n with
  | zero => rfl
  | succ n ih =>
    rw [List.replicate_succ, List.replicate_succ]
    unfold freedEntries at ih ⊢
    rw [List.filterMap_cons]
    simp only []
    rw [ih]

/-- C29: what the code does when the evaluation of a path fails in `delete`
or `delete_recursive`.  No file is removed and the value is `NULL`.  When the
first path fails nothing is to be released.  When `i >= 1` paths were
evaluated before the failing one, the cleanup loop advances `i` instead of
`j`: it releases `paths[0]` again and again, `2^31 - i` times, until `i` has
passed `INT_MAX`, and releases none of the other paths. -/
theorem DeleteFn_cleanup_releases_first_path_only (env : Env) (name : String)
    (state : State) (argv : List Expr) (t : Trace) (paths : List String) (st : State)
    (tr : Trace)
    (hfail : deleteEvalLoop argv [] state t = (paths, true, st, tr))
    (hmax : paths.length < 2147483647) :
    (DeleteFn env name state argv t).value = none ∧
    (DeleteFn env name state argv t).state = st ∧
    eventsSince tr (DeleteFn env name state argv t).trace
      = (if paths.length = 0 then []
          else List.replicate (2147483648 - paths.length)
            (Ev.free_entry 0 (paths.getD 0 ""))) ∧
    removeCalls (eventsSince tr (DeleteFn env name state argv t).trace) = [] ∧
    (1 ≤ paths.length →
      timesFreed 0 (eventsSince tr (DeleteFn env name state argv t).trace)
          = 2147483648 - paths.length ∧
        2 ≤ timesFreed 0 (eventsSince tr (DeleteFn env name state argv t).trace) ∧
        ∀ k, 1 ≤ k →
          timesFreed k (eventsSince tr (DeleteFn env name state argv t).trace) = 0) := by
  have hout : DeleteFn env name state argv t
      = ⟨none, st, (deleteCleanupLoop paths 0 2147483649 (paths.length : Int) tr).2⟩ := by
    unfold DeleteFn
    rw [hfail]
  have hev : eventsSince tr (DeleteFn env name state argv t).trace
      = (if paths.length = 0 then []
          else List.replicate (2147483648 - paths.length)
            (Ev.free_entry 0 (paths.getD 0 ""))) := by
    rw [hout]
    simp only []
    by_cases h0 : paths.length = 0
    · rw [if_pos h0, h0]
      unfold deleteCleanupLoop
      rw [if_neg (by decide)]
      simp [eventsSince]
    · rw [if_neg h0, deleteCleanupLoop_spec paths (2147483648 - paths.length) 2147483649
        (paths.length : Int) tr (by omega) (by omega) (by omega) (by omega)]
      exact eventsSince_append_left tr _
  refine ⟨by rw [hout], by rw [hout], hev, ?_, ?_⟩
  · rw [hev]
    split
    · rfl
    · unfold removeCalls
      rw [List.filterMap_eq_nil_iff]
      intro e he
      rw [List.eq_of_mem_replicate he]
  · intro h1
    have h0 : ¬ paths.length = 0 := by omega
    rw [hev, if_neg h0]
    unfold timesFreed
    rw [freedEntries_replicate]
    refine ⟨?_, ?_, ?_⟩
    · rw [List.countP_replicate]
      simp
    · rw [List.countP_replicate]
      simp only [decide_True, if_true]
      show 2 ≤ 2147483648 - paths.length
      omega
    · intro k hk
      rw [List.countP_replicate]
      have : ¬ (0 : Nat) = k := by omega
      simp [this]

/-- Witness of C29: `delete("/tmp/a", abort())`.  The path `/tmp/a` is
evaluated, the second argument fails; the cleanup releases `/tmp/a` more than
once. -/
theorem DeleteFn_cleanup_releases_first_path_only_witness :
    deleteEvalLoop [strExpr "/tmp/a", abortExpr] [] ⟨none⟩ []
      = (["/tmp/a"], true, ⟨some "abort() called"⟩, []) ∧
    2 ≤ timesFreed 0 (eventsSince []
      (DeleteFn goodEnv "delete" ⟨none⟩ [strExpr "/tmp/a", abortExpr] []).trace) :=
  ⟨rfl,
    ((DeleteFn_cleanup_releases_first_path_only goodEnv "delete" ⟨none⟩
      [strExpr "/tmp/a", abortExpr] [] ["/tmp/a"] ⟨some "abort() called"⟩ [] rfl
      (by decide)).2.2.2.2 (by decide)).2.1⟩

/-! ## The key map of the recovery menu -/

/-- The first element of a list with a property depends on the property on
the elements of the list only. -/
theorem find_congr_mem {α : Type} (l : List α) (p q : α → Bool)
    (h : ∀ x ∈ l, p x = q x) : l.find? p = l.find? q := by
  induction l with
  | nil => rfl
  | cons a l ih =>
    rw [List.find?_cons, List.find?_cons, h a (List.mem_cons_self a l),
      ih (fun x hx => h x (List.mem_cons_of_mem a hx))]

/-- The inner loop of `device_handle_key` returns exactly when the key code is
in one of the slots it looks at. -/
theorem keySlotLoop_spec (v : KeyMapItem) (key_code : Int) :
    ∀ (n j : Nat), keySlotLoop v key_code n j = decide (key_code ∈ (v.key.drop j).take n) := by
  intro n
  induction n with
  | zero => intro j; simp [keySlotLoop]
  | succ n ih =>
    intro j
    unfold keySlotLoop
    cases h : v.key[j]? with
    | none =>
      have hj : v.key.length ≤ j := by
        rw [List.getElem?_eq_none_iff] at h
        exact h
      simp [List.drop_eq_nil_of_le hj]
    | some slot =>
      have hd : v.key.drop j = slot :: v.key.drop (j + 1) := by
        rw [List.getElem?_eq_some] at h
        obtain ⟨hlt, heq⟩ := h
        rw [← heq]
        exact List.drop_eq_getElem_cons hlt
      simp only [hd, List.take_succ_cons, List.mem_cons]
      by_cases hs : slot = key_code
      · simp [hs]
      · rw [if_neg hs, ih (j + 1)]
        have : ¬ key_code = slot := fun h => hs h.symm
        simp [this]

/-- The outer loop of `device_handle_key` over a table returns the value of
the first entry, among those it looks at, on which the inner loop returns. -/
theorem keyMapLoop_spec (table : List KeyMapItem) (key_code : Int) :
    ∀ (n i : Nat), keyMapLoop table key_code n i
      = (((table.drop i).take n).find? (fun v => keySlotLoop v key_code 6 0)).map
          (fun v => v.value) := by
  intro n
  induction n with
  | zero => intro i; simp [keyMapLoop]
  | succ n ih =>
    intro i
    unfold keyMapLoop
    cases h : table[i]? with
    | none =>
      have hi : table.length ≤ i := by
        rw [List.getElem?_eq_none_iff] at h
        exact h
      simp [List.drop_eq_nil_of_le hi]
    | some v =>
      have hd : table.drop i = v :: table.drop (i + 1) := by
        rw [List.getElem?_eq_some] at h
        obtain ⟨hlt, heq⟩ := h
        rw [← heq]
        exact List.drop_eq_getElem_cons hlt
      simp only [hd, List.take_succ_cons, List.find?_cons]
      by_cases hs : keySlotLoop v key_code 6 0 = true
      · simp [hs]
      · rw [if_neg hs, ih (i + 1)]
        have : keySlotLoop v key_code 6 0 = false := by simpa using hs
        simp [this]

/-- On an entry with six slots and for a key code other than `-1`, the inner
loop returns exactly when the key code is assigned to the entry. -/
theorem keySlotLoop_assigned (v : KeyMapItem) (key_code : Int) (hv : v.key.length = 6)
    (hk : key_code ≠ -1) :
    keySlotLoop v key_code 6 0 = decide (key_code ∈ assignedKeys v) := by
  rw [keySlotLoop_spec, List.drop_zero, ← hv, List.take_length]
  unfold assignedKeys
  by_cases hm : key_code ∈ v.key
  · simp [hm, hk]
  · simp [hm]

/-- Counterexample to C30 as stated: with the menu visible and no entry
loaded, the key code `-1` is assigned in no entry, yet the result is the
action of the first built-in entry, whose unused slots hold `-1`, and not
`NO_ACTION`. -/
theorem device_handle_key_filler_matches :
    keyMapLookup sampleUi 0 [] (-1) = sampleUi.NO_ACTION ∧
    device_handle_key sampleUi 0 [] (-1) 1 = sampleUi.SELECT_ITEM ∧
    device_handle_key sampleUi 0 [] (-1) 1 ≠ sampleUi.NO_ACTION := by
  decide

/-- On an entry with six slots the inner loop returns for the key code `-1`
exactly when the entry has an unused slot. -/
theorem keySlotLoop_filler (v : KeyMapItem) (hv : v.key.length = 6) :
    keySlotLoop v (-1) 6 0 = decide ((-1 : Int) ∈ v.key) := by
  rw [keySlotLoop_spec, List.drop_zero, ← hv, List.take_length]

/-- Every entry of the built-in mouse and touch map has six slots. -/
theorem presupposed_slots (k : UiConstants) :
    ∀ v ∈ g_presupposed_keymap k, v.key.length = 6 := by
  intro v hv
  simp only [g_presupposed_keymap, List.mem_cons, List.mem_singleton, List.not_mem_nil,
    or_false] at hv
  rcases hv with h | h | h <;> rw [h] <;> rfl

/-- C30 (amended): for every loaded key map whose entries have six slots,
`device_handle_key` returns `NO_ACTION` when the menu is not visible; when it
is visible and the key code is not `-1` it returns the action of the first
entry, searching the loaded device key map in order and then the built-in
mouse and touch map, that has the key code among its assigned keys, and
`NO_ACTION` when no entry has it.  For the key code `-1` with the menu visible
the unused slots do match: the result is the action of the first entry with an
unused slot, which is the first loaded entry with one when there is one and
otherwise the first built-in entry, with action `SELECT_ITEM`. -/
theorem device_handle_key_lookup (k : UiConstants) (num_keys : Int)
    (device_keys : List KeyMapItem) (key_code visible : Int)
    (hslots : ∀ item ∈ device_keys, item.key.length = 6) :
    (key_code ≠ -1 →
      device_handle_key k num_keys device_keys key_code visible
        = (if visible = 0 then k.NO_ACTION
            else keyMapLookup k num_keys device_keys key_code)) ∧
    device_handle_key k num_keys device_keys (-1) visible
      = (if visible = 0 then k.NO_ACTION
          else unusedSlotLookup k num_keys device_keys) ∧
    ((∀ item ∈ device_keys.take num_keys.toNat, (-1 : Int) ∉ item.key) →
      unusedSlotLookup k num_keys device_keys = k.SELECT_ITEM) ∧
    (∀ item value, (device_keys.take num_keys.toNat).find?
        (fun item => decide ((-1 : Int) ∈ item.key)) = some item → item.value = value →
      unusedSlotLookup k num_keys device_keys = value) := by
  have hpre : (g_presupposed_keymap k).take 3 = g_presupposed_keymap k := rfl
  refine ⟨?_, ?_, ?_, ?_⟩
  · intro hk
    unfold device_handle_key keyMapLookup
    by_cases hvis : visible = 0
    · simp [hvis]
    · rw [if_pos hvis, if_neg hvis, keyMapLoop_spec, keyMapLoop_spec, List.drop_zero,
        List.drop_zero, List.find?_append, hpre]
      have h1 : (device_keys.take num_keys.toNat).find? (fun v => keySlotLoop v key_code 6 0)
          = (device_keys.take num_keys.toNat).find?
              (fun item => decide (key_code ∈ assignedKeys item)) := by
        apply find_congr_mem
        intro v hv
        exact keySlotLoop_assigned v key_code (hslots v (List.mem_of_mem_take hv)) hk
      have h2 : (g_presupposed_keymap k).find? (fun v => keySlotLoop v key_code 6 0)
          = (g_presupposed_keymap k).find?
              (fun item => decide (key_code ∈ assignedKeys item)) := by
        apply find_congr_mem
        intro v hv
        exact keySlotLoop_assigned v key_code (presupposed_slots k v hv) hk
      rw [h1, h2]
      cases (device_keys.take num_keys.toNat).find?
          (fun item => decide (key_code ∈ assignedKeys item)) with
      | some item => rfl
      | none =>
        cases (g_presupposed_keymap k).find?
            (fun item => decide (key_code ∈ assignedKeys item)) with
        | some item => rfl
        | none => rfl
  · unfold device_handle_key unusedSlotLookup
    by_cases hvis : visible = 0
    · simp [hvis]
    · rw [if_pos hvis, if_neg hvis, keyMapLoop_spec, keyMapLoop_spec, List.drop_zero,
        List.drop_zero, List.find?_append, hpre]
      have h1 : (device_keys.take num_keys.toNat).find? (fun v => keySlotLoop v (-1) 6 0)
          = (device_keys.take num_keys.toNat).find?
              (fun item => decide ((-1 : Int) ∈ item.key)) := by
        apply find_congr_mem
        intro v hv
        exact keySlotLoop_filler v (hslots v (List.mem_of_mem_take hv))
      have h2 : (g_presupposed_keymap k).find? (fun v => keySlotLoop v (-1) 6 0)
          = (g_presupposed_keymap k).find?
              (fun item => decide ((-1 : Int) ∈ item.key)) := by
        apply find_congr_mem
        intro v hv
        exact keySlotLoop_filler v (presupposed_slots k v hv)
      rw [h1, h2]
      cases (device_keys.take num_keys.toNat).find?
          (fun item => decide ((-1 : Int) ∈ item.key)) with
      | some item => rfl
      | none =>
        cases (g_presupposed_keymap k).find?
            (fun item => decide ((-1 : Int) ∈ item.key)) with
        | some item => rfl
        | none => rfl
  · intro hnone
    unfold unusedSlotLookup
    have h1 : (device_keys.take num_keys.toNat).find?
        (fun item => decide ((-1 : Int) ∈ item.key)) = none := by
      rw [List.find?_eq_none]
      intro x hx
      simpa using hnone x hx
    rw [List.find?_append, h1]
    simp [g_presupposed_keymap]
  · intro item value hfind hval
    unfold unusedSlotLookup
    rw [List.find?_append, hfind]
    exact hval

/-- Witness of C30: with the stock key map loaded and the menu visible, the
volume-down key moves the highlight down; and with a loaded map whose first
entry uses its six slots and whose second entry has unused slots, the key code
`-1` gives the action of the second entry. -/
theorem device_handle_key_lookup_witness :
    (device_handle_key sampleUi 3 (g_default_keymap sampleUi) 114 1
        = (if (1 : Int) = 0 then sampleUi.NO_ACTION
            else keyMapLookup sampleUi 3 (g_default_keymap sampleUi) 114) ∧
      device_handle_key sampleUi 3 (g_default_keymap sampleUi) 114 1
        = sampleUi.HIGHLIGHT_DOWN) ∧
    (device_handle_key sampleUi 2
          [⟨"down", sampleUi.HIGHLIGHT_DOWN, [108, 114, 109, 1, 2, 3]⟩,
            ⟨"up", sampleUi.HIGHLIGHT_UP, [103, 115, -1, -1, -1, -1]⟩] (-1) 1
        = (if (1 : Int) = 0 then sampleUi.NO_ACTION
            else unusedSlotLookup sampleUi 2
              [⟨"down", sampleUi.HIGHLIGHT_DOWN, [108, 114, 109, 1, 2, 3]⟩,
                ⟨"up", sampleUi.HIGHLIGHT_UP, [103, 115, -1, -1, -1, -1]⟩]) ∧
      device_handle_key sampleUi 2
          [⟨"down", sampleUi.HIGHLIGHT_DOWN, [108, 114, 109, 1, 2, 3]⟩,
            ⟨"up", sampleUi.HIGHLIGHT_UP, [103, 115, -1, -1, -1, -1]⟩] (-1) 1
        = sampleUi.HIGHLIGHT_UP) :=
  ⟨⟨(device_handle_key_lookup sampleUi 3 (g_default_keymap sampleUi) 114 1
        (by decide)).1 (by decide),
      by decide⟩,
    ⟨(device_handle_key_lookup sampleUi 2
        [⟨"down", sampleUi.HIGHLIGHT_DOWN, [108, 114, 109, 1, 2, 3]⟩,
          ⟨"up", sampleUi.HIGHLIGHT_UP, [103, 115, -1, -1, -1, -1]⟩] (-1) 1
        (by decide)).2.1,
      by decide⟩⟩

end Updater
